import Mathlib

/-! Zira Editor: result routing, search results and scan progress of `MainWindow`.

A shallow embedding of the slots of `src/src/mainwindow.cpp` through which the
background worker (`ParserWorker`, running in `parserThread`) reports back to
the window, and of the slots through which the window hands jobs to the worker;
further the slots for git commands, tab cycling, the docks, the color picker and
the focus of the sidebar, and the word lists of `src/src/completewords.cpp`.

The window is a record of the widgets and members the slots read and write;
every slot is a function from the record to the record.  Integers are `Int`
(the slots do no arithmetic on them that could overflow, besides counting list
items), flag sets are `Nat` with the bitwise operations, a `QString` is the list
of its UTF-16 code units.
-/

set_option autoImplicit false

namespace Zira

/-! ## Strings -/

/-- A `QChar`: a UTF-16 code unit, by its value. -/
abbrev QChar := Fin 65536

/-- A `QString`, as the sequence of its `QChar`s, the UTF-16 code units of the
text; `size()` is `List.length`, `mid` and `left` are `List.drop` and
`List.take`. -/
abbrev QString := List QChar

/-- The `QChar` of a character of the basic plane, as in `QChar(c)`. -/
def qchar (c : Char) : QChar := ⟨c.toNat % 65536, Nat.mod_lt _ (by decide)⟩

/-- The UTF-16 code units of a character: one unit in the basic plane, else the
high and the low surrogate. -/
def utf16 (c : Char) : List QChar :=
  if c.toNat < 65536 then [qchar c]
  else
    [⟨(55296 + (c.toNat - 65536) / 1024) % 65536, Nat.mod_lt _ (by decide)⟩,
     ⟨(56320 + (c.toNat - 65536) % 1024) % 65536, Nat.mod_lt _ (by decide)⟩]

/-- The `QString` of a string literal of the source. -/
def qstr (s : String) : QString := s.toList.flatMap utf16

/-- The position of the first `c` in `s`, or -1: `QString::indexOf`. -/
def indexOf (s : QString) (c : QChar) : Int :=
  if c ∈ s then (s.indexOf c : Int) else -1

/-- A `QColor`, by a code that only the functions of the environment inspect. -/
abbrev QColor := Nat

/-! ## Documents, tab sets and the window -/

/-- An error of a parse result (`ParsePHP::ParseResultError` and its JS and CSS
twins, whose declarations are not among the sources). -/
structure ParseResultError where
  text : QString
  line : Int
  symbol : Int
deriving DecidableEq, Repr

/-- A parse result (`ParsePHP::ParseResult`, `ParseJS::ParseResult`,
`ParseCSS::ParseResult`): its errors, and its declarations left abstract. -/
structure ParseResult where
  errors : List ParseResultError
  declarations : List QString
deriving DecidableEq, Repr

/-- The mode of a document, as `parseTab` tells them apart. -/
inductive ModeType where
  | MODE_MIXED
  | MODE_JS
  | MODE_CSS
  | MODE_UNKNOWN
deriving DecidableEq, Repr

/-- A call made on an `Editor` by one of the slots.  `editor.cpp` is not among
the sources, so what the editor does with a call is not modelled: the editor
records the calls it received. -/
inductive EditorCall where
  | clearErrors
  | setError (line : Int) (text : QString)
  | setParseError (error : Bool)
  | gotoLine (line : Int)
  | gotoLineSymbol (line symbol : Int)
  | highlightErrorLine (line : Int)
  | highlightError (symbol length : Int)
  | updateMarksAndMapArea
  | clearWarnings
  | setWarning (line : Int) (text : QString)
  | setParseResult (result : ParseResult)
  | setFocus
  | insertText (text : QString)
  | setTextCursor
deriving DecidableEq, Repr

/-- Modelled from the spec: an open document of the ResultSink (class `Editor`,
whose source is missing).  It has an identity (the `Editor *` pointer), the
values its getters return, and the calls it received, oldest first.
`getParseError` returns what the last `setParseError` stored. -/
structure Editor where
  docId : Nat
  tabIndex : Int
  fileName : QString
  modeType : ModeType
  ready : Bool
  content : QString
  parseError : Bool
  calls : List EditorCall
deriving DecidableEq, Repr

/-- The editor after it received `c`. -/
def Editor.call (e : Editor) (c : EditorCall) : Editor :=
  { e with calls := e.calls ++ [c] }

/-- Modelled from the spec: the method `Editor::setParseError` (source missing),
the setter of the flag that `getParseError` returns. -/
def Editor.setParseError (e : Editor) (error : Bool) : Editor :=
  { e with parseError := error, calls := e.calls ++ [EditorCall.setParseError error] }

/-- Modelled from the spec: a tab set of the ResultSink (class `EditorTabs`,
whose source is missing): the open documents in tab order and the position of
the current tab, if any. -/
structure EditorTabs where
  editors : List Editor
  current : Option Nat
deriving DecidableEq, Repr

/-- Modelled from the spec: the method `EditorTabs::getActiveEditor` (source
missing): the editor of the current tab, or `nullptr` when there is none. -/
def EditorTabs.getActiveEditor (t : EditorTabs) : Option Editor :=
  t.current.bind (fun i => t.editors[i]?)

/-- The tab set after its active editor became `e` (writes through the pointer
that `getActiveEditor` returned). -/
def EditorTabs.setActiveEditor (t : EditorTabs) (e : Editor) : EditorTabs :=
  match t.current with
  | some i => { t with editors := t.editors.set i e }
  | none => t

/-- The documents of a tab set other than its active one. -/
def EditorTabs.inactiveEditors (t : EditorTabs) : List Editor :=
  match t.current with
  | some i => t.editors.eraseIdx i
  | none => t.editors

/-- Which of the two tab sets an editor pointer points into. -/
inductive Pane where
  | main
  | split
deriving DecidableEq, Repr

/-- A job handed to the worker: a signal of `MainWindow` connected to a slot of
`parserWorker`. -/
inductive Job where
  | parseLint (tabIndex : Int) (path : QString)
  | parsePHPCS (tabIndex : Int) (path : QString)
  | parseMixed (tabIndex : Int) (content : QString)
  | parseJS (tabIndex : Int) (content : QString)
  | parseCSS (tabIndex : Int) (content : QString)
  | parseProject (path : QString)
  | gitCommand (path command : QString) (attrs : List QString) (outputResult silent : Bool)
deriving DecidableEq, Repr

/-- The kind of a job: the signal it was emitted with. -/
inductive JobKind where
  | Lint
  | StyleCheck
  | ParseMixed
  | ParseJS
  | ParseCSS
  | ProjectScan
  | GitCommand
deriving DecidableEq, Repr

/-- The kind of a job. -/
def Job.kind : Job → JobKind
  | .parseLint _ _ => .Lint
  | .parsePHPCS _ _ => .StyleCheck
  | .parseMixed _ _ => .ParseMixed
  | .parseJS _ _ => .ParseJS
  | .parseCSS _ _ => .ParseCSS
  | .parseProject _ => .ProjectScan
  | .gitCommand _ _ _ _ _ => .GitCommand

/-- The owner token of a job: the tab index it carries, if it carries one. -/
def Job.owner : Job → Option Int
  | .parseLint i _ => some i
  | .parsePHPCS i _ => some i
  | .parseMixed i _ => some i
  | .parseJS i _ => some i
  | .parseCSS i _ => some i
  | .parseProject _ => none
  | .gitCommand _ _ _ _ _ => none

/-- A call on a collaborator of the window whose source is missing, or the
emission of a job to the worker. -/
inductive Call where
  | emit (job : Job)
  | gitShowAnnotation (dir path : QString)
  | gitShowUncommittedDiffCurrentUnified (dir path : QString)
  | highlightWordsReset
  | completeWordsReset
  | helpWordsReset
  | highlightWordsLoad
  | completeWordsLoad
  | helpWordsLoad
  | projectLoadWords
  | initHighlighters
  | projectFindDeclaration (name : QString)
  | projectDeleteDataFile
  | projectSave
  | settingsChange (key value : QString)
  | settingsSave
  | windowSettingsSetValue (key : QString)
  | emitDisableWorker
  | baseCloseEvent
  | parserThreadQuit
  | parserThreadWait
  | deleteFilebrowser
  | deleteNavigator
  | deleteEditorTabs
  | deleteEditorTabsSplit
  | deleteGitBrowser
  | deleteUi
  | qaSlideOut
deriving DecidableEq, Repr

/-- A `QListWidgetItem` of `ui->searchListWidget`. -/
structure SearchItem where
  text : QString
  toolTip : QString
  /-- The item data `data(Qt::UserRole)`. -/
  file : QString
  /-- The item data `data(Qt::UserRole+1)`. -/
  line : Int
  /-- The item data `data(Qt::UserRole+2)`. -/
  symbol : Int
  foreground : Option QColor
  background : Option QColor
deriving DecidableEq, Repr

/-- What the popup shows. -/
inductive Popup where
  | text (t : QString)
  | error (t : QString)
deriving DecidableEq, Repr

/-- The messages tab of the output dock: the paragraphs of
`ui->messagesBrowser`, the title of the tab, the member `outputMsgCount` and
how often the text cursor was moved to the start. -/
structure MessagesTab where
  browser : List QString
  tabText : QString
  outputMsgCount : Int
  scrolledToTop : Nat
deriving DecidableEq, Repr

/-- The members of `Project` the slots read. -/
structure Project where
  isOpen : Bool
  path : QString
  name : QString
  isPHPLintEnabled : Bool
  isPHPCSEnabled : Bool
deriving DecidableEq, Repr

/-- The enumeration `Qt::DockWidgetArea`. -/
inductive DockWidgetArea where
  | LeftDockWidgetArea
  | RightDockWidgetArea
  | TopDockWidgetArea
  | BottomDockWidgetArea
  | NoDockWidgetArea
deriving DecidableEq, Repr

/-- The enumeration `QTabWidget::TabPosition`. -/
inductive TabPosition where
  | North
  | South
  | West
  | East
deriving DecidableEq, Repr

/-- The state of the docks of `ui` that the slots below read and write. -/
structure UiState where
  /-- Whether `ui->outputDockWidget` is visible. -/
  outputDockVisible : Bool
  /-- The current index of `ui->outputTabWidget`. -/
  outputTabIndex : Int
  /-- The contents of `ui->outputEdit`. -/
  outputEdit : QString
  /-- The tab position of `ui->outputTabWidget`. -/
  outputTabPosition : TabPosition
  /-- The feature flags `ui->outputDockWidget->features()`. -/
  outputDockFeatures : Nat
  /-- Whether `ui->sidebarDockWidget` is visible. -/
  sidebarDockVisible : Bool
  /-- The current index of `ui->sidebarTabWidget`. -/
  sidebarTabIndex : Int
  /-- The tab position of `ui->sidebarTabWidget`. -/
  sidebarTabPosition : TabPosition
  /-- The feature flags `ui->sidebarDockWidget->features()`. -/
  sidebarDockFeatures : Nat
  /-- What `filebrowser->isFocused()` returns. -/
  fileBrowserFocused : Bool
  /-- What `navigator->isFocused()` returns. -/
  navigatorFocused : Bool
  /-- What `gitBrowser->isFocused()` returns. -/
  gitBrowserFocused : Bool
deriving DecidableEq, Repr

/-- The state of `MainWindow` that the slots below read and write. -/
structure MainWindow where
  editorTabs : EditorTabs
  editorTabsSplit : EditorTabs
  isSplitActive : Bool
  /-- The result last given to `navigator->build`. -/
  navigator : Option ParseResult
  /-- The result and file last given to `qa->setParseResult`. -/
  quickAccess : Option (ParseResult × QString)
  messagesTab : MessagesTab
  /-- The message of `statusBar()`. -/
  statusBar : QString
  popup : Option Popup
  /-- The items of `ui->searchListWidget`. -/
  searchList : List SearchItem
  /-- The title of the search tab of `ui->outputTabWidget`. -/
  searchTabText : QString
  /-- Whether `ui->sidebarProgressBarWrapperWidget` is visible. -/
  sidebarProgressVisible : Bool
  /-- The value of `ui->sidebarProgressBar`. -/
  sidebarProgressValue : Int
  /-- The jobs emitted to the worker, oldest first.  The worker lives in
  `parserThread`, so each emission is queued and invokes its slot once. -/
  emitted : List Job
  /-- The calls made on collaborators whose source is missing and the emissions
  of jobs, in the order in which the statements ran, oldest first. -/
  calls : List Call
  project : Project
  fileBrowserRootPath : QString
  parsePHPLintEnabled : Bool
  parsePHPCSEnabled : Bool
  parsePHPEnabled : Bool
  parseJSEnabled : Bool
  parseCSSEnabled : Bool
  gitCommandsEnabled : Bool
  tmpDisableParser : Bool
  outputMsgErrorTpl : QString
  outputMsgWarningTpl : QString
  searchResultsColor : QColor
  outputBgColor : QColor
  /-- Whether `tabsList` is visible. -/
  tabsListVisible : Bool
  /-- Whether the quick access panel `qa` is visible. -/
  quickAccessVisible : Bool
  /-- The member `args`. -/
  args : List QString
  /-- The docks of `ui`. -/
  ui : UiState
deriving DecidableEq

/-- The function `MainWindow::getActiveEditor`, with the tab set the returned
pointer points into. -/
def MainWindow.getActiveEditor (w : MainWindow) : Option (Pane × Editor) :=
  match w.editorTabsSplit.getActiveEditor with
  | some textEditorSplit =>
    if w.isSplitActive then some (Pane.split, textEditorSplit)
    else w.editorTabs.getActiveEditor.map (fun e => (Pane.main, e))
  | none => w.editorTabs.getActiveEditor.map (fun e => (Pane.main, e))

/-- The window after the active editor of tab set `p` became `e`. -/
def MainWindow.setEditor (w : MainWindow) (p : Pane) (e : Editor) : MainWindow :=
  match p with
  | Pane.main => { w with editorTabs := w.editorTabs.setActiveEditor e }
  | Pane.split => { w with editorTabsSplit := w.editorTabsSplit.setActiveEditor e }

/-- All open documents: those of the main tab set, then those of the split one. -/
def MainWindow.documents (w : MainWindow) : List Editor :=
  w.editorTabs.editors ++ w.editorTabsSplit.editors

/-- The open documents other than the active editor of tab set `p`. -/
def MainWindow.documentsBut (w : MainWindow) (p : Pane) : List Editor :=
  match p with
  | Pane.main => w.editorTabs.inactiveEditors ++ w.editorTabsSplit.editors
  | Pane.split => w.editorTabs.editors ++ w.editorTabsSplit.inactiveEditors

/-- The window after `emit j`: the job is queued for the worker, and the
emission is recorded among the calls, in the order of the statements. -/
def MainWindow.emit (w : MainWindow) (j : Job) : MainWindow :=
  { w with emitted := w.emitted ++ [j], calls := w.calls ++ [Call.emit j] }

/-- The window after a call on a collaborator whose source is missing. -/
def MainWindow.callOut (w : MainWindow) (c : Call) : MainWindow :=
  { w with calls := w.calls ++ [c] }

/-! ## Collaborators that are not among the sources -/

/-- The functions and constants the slots use whose definitions are not among
the sources (`helper.cpp`, `git.h`, Qt).  They are parameters of the embedding:
nothing is assumed about them. -/
structure Env where
  /-- The function `Helper::intToStr`. -/
  intToStr : Int → QString
  /-- The function `QString::toInt`. -/
  toInt : QString → Int
  /-- The function `Helper::fileExists`. -/
  fileExists : QString → Bool
  /-- The function `Helper::folderExists`. -/
  folderExists : QString → Bool
  /-- The file name without its path, `QFileInfo(file).fileName()`. -/
  fileName : QString → QString
  /-- The predicate `QChar::isSpace`. -/
  isSpace : QChar → Bool
  /-- The template with its lowest place marker replaced, `QString::arg(a)`. -/
  arg : QString → QString → QString
  /-- The replacement `replace(QRegularExpression("[(].*[)]"), "")`. -/
  stripCounter : QString → QString
  /-- The constant `GIT_DIRECTORY`. -/
  gitDirectory : QString
  /-- The part of the status bar message that `setStatusBarText` computes from
  the editor: line, column, tab mode, line ending, encoding, overwrite mode. -/
  statusInfo : Editor → QString
  /-- The method `EditorTabs::openFile` on the main tab set, with the slots its
  signals trigger: some change of the window. -/
  openFile : MainWindow → QString → MainWindow
  /-- The path and line that `project->findDeclaration(name, path, line)` leaves
  in its two out-parameters, which the caller sets to `""` and `0` before. -/
  findDeclaration : QString → QString × Int
  /-- The method `EditorTabs::closeWindowAllowed`. -/
  closeWindowAllowed : EditorTabs → Bool
  /-- The function `Settings::get`. -/
  settingsGet : QString → QString
  /-- The method `Git::isCommandSafe`. -/
  isCommandSafe : QString → Bool
  /-- The answer of the user to `Helper::showQuestion(title, msg)`. -/
  showQuestion : QString → QString → Bool
  /-- The method `Git::highlightCommand`. -/
  highlightCommand : QString → QString
  /-- The method `EditorTabs::closeSaved` on the main tab set, with the slots
  its signals trigger: some change of the window. -/
  closeSaved : MainWindow → MainWindow
  /-- The method `EditorTabs::setActiveTab` on the main tab set, with the slots
  its signals trigger: some change of the window. -/
  setActiveTab : MainWindow → Int → MainWindow
  /-- The selected text of the text cursor of an editor,
  `textCursor().selectedText()`. -/
  selectedText : Editor → QString
  /-- The constant `Qt::white`. -/
  white : QColor
  /-- The color made from a name, `QColor(text)`. -/
  colorFromName : QString → QColor
  /-- The predicate `QColor::isValid`. -/
  colorIsValid : QColor → Bool
  /-- The method `QColor::name`. -/
  colorName : QColor → QString
  /-- The color dialog opened on a color: `none` when `dialog.exec()` returns
  false, else `dialog.selectedColor()`. -/
  colorDialog : QColor → Option QColor

/-- White space removed at both ends: `QString::trimmed()`. -/
def trimmed (env : Env) (s : QString) : QString :=
  ((s.dropWhile env.isSpace).reverse.dropWhile env.isSpace).reverse

/-- Element access `QList::at(i)`: defined only for an index within the list. -/
def QList.at {α : Type} (l : List α) (i : Nat) : Option α := l[i]?

/-- A C++ `for (int i=0; i<n; i++)` loop whose body may fail. -/
def forLoop {σ : Type} (n : Nat) (body : Nat → σ → Option σ) (s : σ) : Option σ :=
  (List.range n).foldlM (fun acc i => body i acc) s

/-! ## The search results list: texts -/

/-- The marker appended to a line that was cut. -/
def ellipsis : QString := [qchar '.', qchar '.', qchar '.']

/-- The local `lineText` of `searchInFilesFound` after its first statement:
`lineText.size()` and `lineText.mid(0, 300)` count `QChar`s, so a character
outside the basic plane counts as two. -/
def searchLineText (lineText : QString) : QString :=
  if lineText.length > 300 then lineText.take 300 ++ ellipsis else lineText

/-- The local `text` of `searchInFilesFound`; `count` is
`ui->searchListWidget->count()` and `lineText` the (possibly cut) line. -/
def searchItemText (env : Env) (count : Nat) (file lineText : QString)
    (line symbol : Int) : QString :=
  if file.length > 0 ∧ line > 0 ∧ symbol ≥ 0 then
    env.intToStr ((count : Int) + 1) ++ [qchar '.', qchar ' ', qchar '['] ++ env.fileName file ++ [qchar ':']
      ++ env.intToStr line ++ [qchar ']', qchar ' '] ++ trimmed env lineText
  else lineText

/-! ## Slots of `MainWindow` -/

/-- The function `MainWindow::setStatusBarText`. -/
def setStatusBarText (env : Env) (w : MainWindow) (text : QString) : MainWindow :=
  match w.getActiveEditor with
  | none => { w with statusBar := [] }
  | some (_, editor) =>
    let separator : QString := qstr "    |    "
    let text := if text.length > 0 then separator ++ text else text
    { w with statusBar := env.statusInfo editor ++ text }

/-- The function `MainWindow::showPopupText` (the position of the popup is not
modelled). -/
def showPopupText (w : MainWindow) (text : QString) : MainWindow :=
  { w with popup := some (Popup.text text) }

/-- The function `MainWindow::showPopupError` (the position of the popup is not
modelled). -/
def showPopupError (w : MainWindow) (text : QString) : MainWindow :=
  { w with popup := some (Popup.error text) }

/-- The function `MainWindow::clearMessagesTabText`. -/
def clearMessagesTabText (env : Env) (m : MessagesTab) : MessagesTab :=
  let msgTabText := m.tabText
  let msgTabText := if msgTabText.length > 1 then env.stripCounter msgTabText else msgTabText
  { m with browser := [], tabText := msgTabText, outputMsgCount := 0 }

/-- The function `MainWindow::addMessagesTabText`. -/
def addMessagesTabText (env : Env) (m : MessagesTab) (text : QString) : MessagesTab :=
  if text.length = 0 then m
  else
    let outputMsgCount := m.outputMsgCount + 1
    let msgTabText := m.tabText
    let msgTabText := if msgTabText.length > 1 then env.stripCounter msgTabText else msgTabText
    let msgTabText := msgTabText ++ [qchar '('] ++ env.intToStr outputMsgCount ++ [qchar ')']
    { m with browser := m.browser ++ [text], tabText := msgTabText,
             outputMsgCount := outputMsgCount }

/-- The function `MainWindow::scrollMessagesTabToTop`. -/
def scrollMessagesTabToTop (m : MessagesTab) : MessagesTab :=
  { m with scrolledToTop := m.scrolledToTop + 1 }

/-- The function `MainWindow::getGitWorkingDir`. -/
def getGitWorkingDir (w : MainWindow) : QString :=
  if w.project.isOpen then w.project.path else w.fileBrowserRootPath

/-- The function `MainWindow::gitAnnotationRequested`. -/
def gitAnnotationRequested (env : Env) (w : MainWindow) (path : QString) : MainWindow :=
  let dir := getGitWorkingDir w
  if !env.folderExists (dir ++ [qchar '/'] ++ env.gitDirectory) then w
  else w.callOut (Call.gitShowAnnotation (getGitWorkingDir w) path)

/-- The function `MainWindow::gitDiffUnifiedRequested`. -/
def gitDiffUnifiedRequested (env : Env) (w : MainWindow) (path : QString) : MainWindow :=
  let dir := getGitWorkingDir w
  if !env.folderExists (dir ++ [qchar '/'] ++ env.gitDirectory) then w
  else w.callOut (Call.gitShowUncommittedDiffCurrentUnified (getGitWorkingDir w) path)

/-- The function `MainWindow::editorParsePHPRequested`. -/
def editorParsePHPRequested (w : MainWindow) (index : Int) (text : QString) : MainWindow :=
  if !w.parsePHPEnabled then w else w.emit (Job.parseMixed index text)

/-- The function `MainWindow::editorParseJSRequested`. -/
def editorParseJSRequested (w : MainWindow) (index : Int) (text : QString) : MainWindow :=
  if !w.parseJSEnabled then w else w.emit (Job.parseJS index text)

/-- The function `MainWindow::editorParseCSSRequested`. -/
def editorParseCSSRequested (w : MainWindow) (index : Int) (text : QString) : MainWindow :=
  if !w.parseCSSEnabled then w else w.emit (Job.parseCSS index text)

/-- The function `MainWindow::parseTab`. -/
def parseTab (env : Env) (w : MainWindow) : MainWindow :=
  if w.tmpDisableParser then w
  else
    match w.editorTabs.getActiveEditor with
    | none => w
    | some textEditor =>
      let tabIndex := textEditor.tabIndex
      let path := textEditor.fileName
      let modeType := textEditor.modeType
      let w := { w with messagesTab := clearMessagesTabText env w.messagesTab }
      let w :=
        if modeType = ModeType.MODE_MIXED then
          let w :=
            if (!w.project.isOpen && w.parsePHPLintEnabled)
                || (w.project.isOpen && w.project.isPHPLintEnabled)
            then w.emit (Job.parseLint tabIndex path) else w
          if textEditor.ready && w.parsePHPEnabled
          then w.emit (Job.parseMixed tabIndex textEditor.content) else w
        else w
      let w :=
        if modeType = ModeType.MODE_JS && textEditor.ready && w.parseJSEnabled
        then w.emit (Job.parseJS tabIndex textEditor.content) else w
      let w :=
        if modeType = ModeType.MODE_CSS && textEditor.ready && w.parseCSSEnabled
        then w.emit (Job.parseCSS tabIndex textEditor.content) else w
      let w :=
        if (!w.project.isOpen && w.parsePHPCSEnabled)
            || (w.project.isOpen && w.project.isPHPCSEnabled)
        then w.emit (Job.parsePHPCS tabIndex path) else w
      if w.gitCommandsEnabled && textEditor.ready then
        let w := gitAnnotationRequested env w textEditor.fileName
        gitDiffUnifiedRequested env w textEditor.fileName
      else w

/-- The window with the messages tab replaced. -/
def MainWindow.setMessagesTab (w : MainWindow) (m : MessagesTab) : MainWindow :=
  { w with messagesTab := m }

/-- The `for` loop of `parseLintFinished` over the error texts, on the editor
and the messages tab; `isMain` is `editorTabs->getActiveEditor() == textEditor`.
The result is `none` when a `QList::at` is out of range. -/
def lintErrorsLoop (env : Env) (tpl : QString) (isMain : Bool)
    (errorTexts errorLines : List QString) (textEditor : Editor) (messages : MessagesTab) :
    Option (Editor × MessagesTab) :=
  forLoop errorTexts.length (fun i (acc : Editor × MessagesTab) =>
    (QList.at errorLines i).bind fun lineStr =>
    (QList.at errorTexts i).bind fun errorStr =>
      let ed := acc.1.call (EditorCall.setError (env.toInt lineStr) errorStr)
      let ms :=
        if isMain then addMessagesTabText env acc.2 (env.arg (env.arg tpl lineStr) errorStr)
        else acc.2
      some (ed, ms)) (textEditor, messages)

/-- The first `if` of `parseLintFinished` (after `clearErrors`): the errors are
set on the editor, or its parse-error flag is cleared. -/
def lintMarkErrors (env : Env) (tpl : QString) (isMain : Bool)
    (errorTexts errorLines : List QString) (textEditor : Editor) (messages : MessagesTab) :
    Option (Editor × MessagesTab) :=
  if errorTexts.length > 0 ∧ errorTexts.length = errorLines.length then
    (lintErrorsLoop env tpl isMain errorTexts errorLines textEditor messages).bind fun acc =>
    let textEditor := acc.1.setParseError true
    (QList.at errorLines 0).bind fun first =>
    let textEditor := textEditor.call (EditorCall.gotoLine (env.toInt first))
    (QList.at errorLines 0).bind fun first =>
    let textEditor := textEditor.call (EditorCall.highlightErrorLine (env.toInt first))
    some (textEditor, acc.2)
  else some (textEditor.setParseError false, messages)

/-- The second `if` of `parseLintFinished`: the status bar and the messages tab. -/
def lintReport (env : Env) (w : MainWindow) (isMain : Bool)
    (errorTexts errorLines : List QString) (output : QString) : MainWindow :=
  if errorTexts.length > 0 ∧ errorTexts.length = errorLines.length then
    let w := setStatusBarText env w (qstr "PARSE ERROR")
    if isMain then w.setMessagesTab (scrollMessagesTabToTop w.messagesTab) else w
  else if output.length > 0
      ∧ (errorTexts.length = 0 ∨ errorTexts.length ≠ errorLines.length) then
    let w := setStatusBarText env w (qstr "PARSE ERROR")
    let w :=
      if isMain then
        w.setMessagesTab (addMessagesTabText env w.messagesTab
          (env.arg (env.arg w.outputMsgErrorTpl (qstr "unknown")) output))
      else w
    if isMain then w.setMessagesTab (scrollMessagesTabToTop w.messagesTab) else w
  else setStatusBarText env w (qstr "PARSE OK")

/-- The last `if` of `parseLintFinished`: the popup with the first error. -/
def lintPopup (w : MainWindow) (errorTexts errorLines : List QString) : Option MainWindow :=
  if errorTexts.length > 0 ∧ errorLines.length > 0 then
    (QList.at errorLines 0).bind fun line0 =>
    (QList.at errorTexts 0).bind fun text0 =>
      some (showPopupError w
        ([qchar '['] ++ (qstr "Line") ++ [qchar ':', qchar ' '] ++ line0 ++ [qchar ']', qchar ' '] ++ text0))
  else some w

/-- The function `MainWindow::parseLintFinished`.  The result is `none` when a
`QList::at` is out of range. -/
def parseLintFinished (env : Env) (w : MainWindow) (tabIndex : Int)
    (errorTexts errorLines : List QString) (output : QString) : Option MainWindow :=
  match w.getActiveEditor with
  | none => some w
  | some (pane, textEditor) =>
    if tabIndex ≠ textEditor.tabIndex then some w
    else
      -- `editorTabs->getActiveEditor() == textEditor`
      let isMain : Bool := pane = Pane.main
      let textEditor := textEditor.call EditorCall.clearErrors
      (lintMarkErrors env w.outputMsgErrorTpl isMain errorTexts errorLines textEditor
        w.messagesTab).bind fun acc =>
      let textEditor := acc.1.call EditorCall.updateMarksAndMapArea
      let w := (w.setMessagesTab acc.2).setEditor pane textEditor
      let w := lintReport env w isMain errorTexts errorLines output
      lintPopup w errorTexts errorLines

/-- The `for` loop of `parsePHPCSFinished` over the warning texts.  The result
is `none` when a `QList::at` is out of range. -/
def phpcsWarningsLoop (env : Env) (tpl : QString) (isMain : Bool)
    (errorTexts errorLines : List QString) (textEditor : Editor) (messages : MessagesTab) :
    Option (Editor × MessagesTab) :=
  forLoop errorTexts.length (fun i (acc : Editor × MessagesTab) =>
    (QList.at errorLines i).bind fun lineStr =>
    (QList.at errorTexts i).bind fun errorStr =>
      let ed := acc.1.call (EditorCall.setWarning (env.toInt lineStr) errorStr)
      let ms :=
        if isMain then addMessagesTabText env acc.2 (env.arg (env.arg tpl lineStr) errorStr)
        else acc.2
      some (ed, ms)) (textEditor, messages)

/-- The function `MainWindow::parsePHPCSFinished`.  The result is `none` when a
`QList::at` is out of range. -/
def parsePHPCSFinished (env : Env) (w : MainWindow) (tabIndex : Int)
    (errorTexts errorLines : List QString) : Option MainWindow :=
  match w.getActiveEditor with
  | none => some w
  | some (pane, textEditor) =>
    if tabIndex ≠ textEditor.tabIndex then some w
    else
      let isMain : Bool := pane = Pane.main
      let textEditor := textEditor.call EditorCall.clearWarnings
      (if errorTexts.length > 0 ∧ errorTexts.length = errorLines.length then
          phpcsWarningsLoop env w.outputMsgWarningTpl isMain errorTexts errorLines textEditor
            w.messagesTab
        else some (textEditor, w.messagesTab)).bind fun acc =>
      let textEditor := acc.1.call EditorCall.updateMarksAndMapArea
      let w := (w.setMessagesTab acc.2).setEditor pane textEditor
      some (if isMain then w.setMessagesTab (scrollMessagesTabToTop w.messagesTab) else w)

/-- The loop of `parseMixedFinished`, `parseJSFinished` and `parseCSSFinished`
over `result.errors`. -/
def setResultErrors (errors : List ParseResultError) (textEditor : Editor) : Option Editor :=
  forLoop errors.length (fun i ed => do
    let error ← QList.at errors i
    let ed := ed.call (EditorCall.setError error.line error.text)
    pure (ed.call (EditorCall.highlightError error.symbol 1))) textEditor

/-- The function `MainWindow::parseMixedFinished`. -/
def parseMixedFinished (w : MainWindow) (tabIndex : Int) (result : ParseResult) :
    Option MainWindow :=
  match w.editorTabs.getActiveEditor with
  | none => some w
  | some textEditor =>
    if tabIndex ≠ textEditor.tabIndex then some w
    else do
      let textEditor ← (show Option Editor from
        if !textEditor.parseError then do
          let textEditor := textEditor.call EditorCall.clearErrors
          let textEditor ← (show Option Editor from
            if result.errors.length ≠ 0 then setResultErrors result.errors textEditor
            else pure textEditor)
          pure (textEditor.call EditorCall.updateMarksAndMapArea)
        else pure textEditor)
      let textEditor := textEditor.call (EditorCall.setParseResult result)
      let w := w.setEditor Pane.main textEditor
      pure { w with navigator := some result,
                    quickAccess := some (result, textEditor.fileName) }

/-- The function `MainWindow::parseJSFinished`. -/
def parseJSFinished (w : MainWindow) (tabIndex : Int) (result : ParseResult) :
    Option MainWindow :=
  match w.editorTabs.getActiveEditor with
  | none => some w
  | some textEditor =>
    if tabIndex ≠ textEditor.tabIndex then some w
    else do
      let textEditor := textEditor.call EditorCall.clearErrors
      let textEditor ← (show Option Editor from
        if result.errors.length ≠ 0 then setResultErrors result.errors textEditor
        else pure textEditor)
      let textEditor := textEditor.call EditorCall.updateMarksAndMapArea
      let textEditor := textEditor.call (EditorCall.setParseResult result)
      let w := w.setEditor Pane.main textEditor
      pure { w with navigator := some result,
                    quickAccess := some (result, textEditor.fileName) }

/-- The function `MainWindow::parseCSSFinished`. -/
def parseCSSFinished (w : MainWindow) (tabIndex : Int) (result : ParseResult) :
    Option MainWindow :=
  match w.editorTabs.getActiveEditor with
  | none => some w
  | some textEditor =>
    if tabIndex ≠ textEditor.tabIndex then some w
    else do
      let textEditor := textEditor.call EditorCall.clearErrors
      let textEditor ← (show Option Editor from
        if result.errors.length ≠ 0 then setResultErrors result.errors textEditor
        else pure textEditor)
      let textEditor := textEditor.call EditorCall.updateMarksAndMapArea
      let textEditor := textEditor.call (EditorCall.setParseResult result)
      let w := w.setEditor Pane.main textEditor
      pure { w with navigator := some result,
                    quickAccess := some (result, textEditor.fileName) }

/-- The function `MainWindow::searchInFilesFound`. -/
def searchInFilesFound (env : Env) (w : MainWindow) (file lineText : QString)
    (line symbol : Int) : MainWindow :=
  let lineText := searchLineText lineText
  let text := searchItemText env w.searchList.length file lineText line symbol
  let item : SearchItem :=
    { text := text, toolTip := file, file := file, line := line, symbol := symbol,
      foreground := some w.searchResultsColor, background := some w.outputBgColor }
  { w with searchList := w.searchList ++ [item] }

/-- The item `searchInFilesFinished` adds to an empty list. -/
def noResultsItem : SearchItem :=
  { text := qstr "No results", toolTip := [], file := [], line := -1, symbol := -1,
    foreground := none, background := none }

/-- The function `MainWindow::searchInFilesFinished`. -/
def searchInFilesFinished (env : Env) (w : MainWindow) : MainWindow :=
  let w := { w with searchTabText :=
    (qstr "Search") ++ [qchar '('] ++ env.intToStr w.searchList.length ++ [qchar ')'] }
  let w := if w.searchList.length = 0 then
      { w with searchList := w.searchList ++ [noResultsItem] }
    else w
  setStatusBarText env w (qstr "Search finished")

/-- The function `MainWindow::editorShowLineSymbol`. -/
def editorShowLineSymbol (w : MainWindow) (line symbol : Int) : MainWindow :=
  if line ≤ 0 ∨ symbol < 0 then w
  else
    match w.editorTabs.getActiveEditor with
    | none => w
    | some textEditor =>
      w.setEditor Pane.main (textEditor.call (EditorCall.gotoLineSymbol line symbol))

/-- The function `MainWindow::searchListItemDoubleClicked`. -/
def searchListItemDoubleClicked (env : Env) (w : MainWindow) (item : SearchItem) :
    MainWindow :=
  let file := item.file
  let line := item.line
  let symbol := item.symbol
  if file.length = 0 ∨ line ≤ 0 ∨ symbol < 0 then w
  else if !env.fileExists file then w
  else
    let w := env.openFile w file
    editorShowLineSymbol w line symbol

/-- The function `MainWindow::sidebarProgressChanged`. -/
def sidebarProgressChanged (w : MainWindow) (v : Int) : MainWindow :=
  let w := if v < 100 ∧ !w.sidebarProgressVisible then
      { w with sidebarProgressVisible := true }
    else w
  if v ≥ 0 ∧ v ≤ 100 then { w with sidebarProgressValue := v } else w

/-- The function `MainWindow::reloadWords`. -/
def reloadWords (w : MainWindow) : MainWindow :=
  let w := w.callOut Call.highlightWordsReset
  let w := w.callOut Call.completeWordsReset
  let w := w.callOut Call.helpWordsReset
  let w := w.callOut Call.highlightWordsLoad
  let w := w.callOut Call.completeWordsLoad
  w.callOut Call.helpWordsLoad

/-- The function `MainWindow::parseProjectFinished`. -/
def parseProjectFinished (env : Env) (w : MainWindow) (success isModified : Bool) :
    MainWindow :=
  let w := if success then
      let w := setStatusBarText env w (qstr "Loading project...")
      let w := reloadWords w
      w.callOut Call.projectLoadWords
    else w
  let w := setStatusBarText env w []
  let w := if w.sidebarProgressVisible then { w with sidebarProgressVisible := false } else w
  let w := w.callOut Call.initHighlighters
  if success && isModified then
    showPopupText w (env.arg (qstr "Project '%1' updated") w.project.name)
  else w

/-- The function `MainWindow::hideQAPanel`. -/
def hideQAPanel (w : MainWindow) : MainWindow :=
  let w := { w with tabsListVisible := false }
  if !w.quickAccessVisible then w else w.callOut Call.qaSlideOut

/-- The last statements of `quickAccessRequested` and `editorShowDeclaration`:
the active editor of the main tab set, if it shows `file`, goes to `line`. -/
def gotoLineIfShown (w : MainWindow) (file : QString) (line : Int) : MainWindow :=
  match w.editorTabs.getActiveEditor with
  | none => w
  | some editor =>
    if editor.fileName = file then
      w.setEditor Pane.main (editor.call (EditorCall.gotoLine line))
    else w

/-- The function `MainWindow::quickAccessRequested`. -/
def quickAccessRequested (env : Env) (w : MainWindow) (file : QString) (line : Int) :
    MainWindow :=
  if file.length > 0 ∧ line > 0 ∧ env.fileExists file then
    let w := hideQAPanel w
    let w := env.openFile w file
    gotoLineIfShown w file line
  else w

/-- The first statement of `editorShowDeclaration` and `editorShowHelp`: one
leading backslash is removed from the name. -/
def stripLeadingBackslash (name : QString) : QString :=
  if name.length > 0 ∧ name.head? = some (qchar (Char.ofNat 92)) then name.drop 1 else name

/-- The function `MainWindow::editorShowDeclaration`. -/
def editorShowDeclaration (env : Env) (w : MainWindow) (name : QString) : MainWindow :=
  let name := stripLeadingBackslash name
  if name.length = 0 then w
  else
    let w := w.callOut (Call.projectFindDeclaration name)
    let path := (env.findDeclaration name).1
    let line := (env.findDeclaration name).2
    if path.length > 0 ∧ line > 0 ∧ env.fileExists path then
      let w := env.openFile w path
      gotoLineIfShown w path line
    else w

/-- The function `MainWindow::on_actionUpdateProject_triggered`. -/
def on_actionUpdateProject_triggered (env : Env) (w : MainWindow) : MainWindow :=
  if !w.project.isOpen then w
  else
    let w := setStatusBarText env w (qstr "Scanning project...")
    w.emit (Job.parseProject w.project.path)

/-- The function `MainWindow::on_actionRescanProject_triggered`. -/
def on_actionRescanProject_triggered (env : Env) (w : MainWindow) : MainWindow :=
  if !w.project.isOpen then w
  else
    let w := w.callOut Call.projectDeleteDataFile
    let w := setStatusBarText env w (qstr "Scanning project...")
    w.emit (Job.parseProject w.project.path)

/-- The function `MainWindow::saveStateBeforeExit`. -/
def saveStateBeforeExit (env : Env) (w : MainWindow) : MainWindow :=
  let w := w.callOut Call.projectSave
  let w :=
    if env.settingsGet (qstr "devpack_install_silent") = (qstr "no") then
      w.callOut (Call.settingsChange (qstr "devpack_install_silent") (qstr "yes"))
    else w
  let w := w.callOut Call.settingsSave
  let w := w.callOut (Call.windowSettingsSetValue (qstr "main_window_geometry"))
  let w := w.callOut (Call.windowSettingsSetValue (qstr "main_window_state"))
  if w.args.length ≤ 1 then w.callOut (Call.windowSettingsSetValue (qstr "project_path"))
  else w

/-- The function `MainWindow::closeEvent` of the desktop build (the block for
Android is not compiled), with whether the event is accepted when it returns:
`event->ignore()` clears the flag, `QMainWindow::closeEvent` accepts the event. -/
def closeEvent (env : Env) (w : MainWindow) : MainWindow × Bool :=
  if !env.closeWindowAllowed w.editorTabs || !env.closeWindowAllowed w.editorTabsSplit then
    (w, false)
  else
    let w := w.callOut Call.emitDisableWorker
    let w := saveStateBeforeExit env w
    (w.callOut Call.baseCloseEvent, true)

/-- The destructor `MainWindow::~MainWindow`. -/
def destructor (w : MainWindow) : MainWindow :=
  let w := w.callOut Call.parserThreadQuit
  let w := w.callOut Call.parserThreadWait
  let w := w.callOut Call.deleteFilebrowser
  let w := w.callOut Call.deleteNavigator
  let w := w.callOut Call.deleteEditorTabs
  let w := w.callOut Call.deleteEditorTabsSplit
  let w := w.callOut Call.deleteGitBrowser
  w.callOut Call.deleteUi

/-- How one call changes the errors an editor holds: `clearErrors` drops them,
`setError` adds one, every other call leaves them alone. -/
def errorsStep (errors : List (Int × QString)) : EditorCall → List (Int × QString)
  | EditorCall.clearErrors => []
  | EditorCall.setError line text => errors ++ [(line, text)]
  | _ => errors

/-- The errors an editor holds according to the calls it received: the
`setError` calls since the last `clearErrors`, oldest first. -/
def errorsOf (calls : List EditorCall) : List (Int × QString) :=
  calls.foldl errorsStep []

/-- The calls by which `setResultErrors` hands a parse error to the editor. -/
def resultErrorCalls (error : ParseResultError) : List EditorCall :=
  [EditorCall.setError error.line error.text, EditorCall.highlightError error.symbol 1]

/-- The function `MainWindow::parseTabSplit`. -/
def parseTabSplit (env : Env) (w : MainWindow) : MainWindow :=
  if w.tmpDisableParser then w
  else
    match w.editorTabsSplit.getActiveEditor with
    | none => w
    | some textEditor =>
      let tabIndex := textEditor.tabIndex
      let path := textEditor.fileName
      let modeType := textEditor.modeType
      let w :=
        if modeType = ModeType.MODE_MIXED then
          if (!w.project.isOpen && w.parsePHPLintEnabled)
              || (w.project.isOpen && w.project.isPHPLintEnabled)
          then w.emit (Job.parseLint tabIndex path) else w
        else w
      let w :=
        if (!w.project.isOpen && w.parsePHPCSEnabled)
            || (w.project.isOpen && w.project.isPHPCSEnabled)
        then w.emit (Job.parsePHPCS tabIndex path) else w
      if w.gitCommandsEnabled && textEditor.ready then
        let w := gitAnnotationRequested env w textEditor.fileName
        gitDiffUnifiedRequested env w textEditor.fileName
      else w

/-- The function `MainWindow::closeAllTabsRequested`. -/
def closeAllTabsRequested (env : Env) (w : MainWindow) : MainWindow :=
  let w := { w with tmpDisableParser := true }
  let w := env.closeSaved w
  { w with tmpDisableParser := false }

/-- The strings of a list joined with a separator: `QStringList::join`. -/
def join (l : List QString) (sep : QString) : QString :=
  match l with
  | [] => []
  | [a] => a
  | a :: rest => a ++ sep ++ join rest sep

/-- The constant `OUTPUT_TAB_RESULTS_INDEX`. -/
def OUTPUT_TAB_RESULTS_INDEX : Int := 3

/-- The `for` loop of `runGitCommand` that builds `attrStr`. -/
def gitAttrStr (attrs : List QString) : QString :=
  attrs.foldl (fun attrStr attr =>
    let attrStr := if attrStr.length > 0 then attrStr ++ [qchar ' '] else attrStr
    if indexOf attr (qchar ' ') ≥ 0 then attrStr ++ [qchar '\''] ++ attr ++ [qchar '\'']
    else attrStr ++ attr) []

/-- The branch `if (outputResult)` of `runGitCommand`: the output dock shows the
results tab with the command line. -/
def showGitCommand (env : Env) (ui : UiState) (path command : QString)
    (attrs : List QString) : UiState :=
  let ui := if !ui.outputDockVisible then { ui with outputDockVisible := true } else ui
  let ui := { ui with outputTabIndex := OUTPUT_TAB_RESULTS_INDEX }
  let ui := { ui with outputEdit := [] }
  let attrStr := gitAttrStr attrs
  let cmdStr := path ++ (qstr "> git ") ++ command ++ [qchar ' '] ++ attrStr
  { ui with outputEdit := env.highlightCommand cmdStr }

/-- The answer of the user to the question that `runGitCommand` asks before a
command that is not safe. -/
def gitCommandConfirmed (env : Env) (command : QString) (attrs : List QString) : Bool :=
  env.showQuestion (qstr "Are you sure ?")
    (env.arg (qstr "Do you really want to \"%1\" ?")
      (trimmed env ((qstr "git ") ++ command ++ [qchar ' '] ++ join attrs [qchar ' '])))

/-- The function `MainWindow::runGitCommand`. -/
def runGitCommand (env : Env) (w : MainWindow) (path command : QString)
    (attrs : List QString) (outputResult silent : Bool) : MainWindow :=
  if !w.gitCommandsEnabled then w
  else if !env.isCommandSafe command && !gitCommandConfirmed env command attrs then w
  else
    let w := hideQAPanel w
    let w :=
      if outputResult then { w with ui := showGitCommand env w.ui path command attrs } else w
    w.emit (Job.gitCommand path command attrs outputResult silent)

/-- The index `ui->tabWidget->currentIndex()` of the main tab set: `-1` when
there is no current tab. -/
def currentIndex (t : EditorTabs) : Int :=
  match t.current with
  | some i => (i : Int)
  | none => -1

/-- The first branch of `previousTabTriggered` and `nextTabTriggered`: with
fewer than two tabs the active editor of the main tab set, if any, gets the
focus. -/
def focusActiveEditor (w : MainWindow) : MainWindow :=
  match w.editorTabs.getActiveEditor with
  | some textEditor =>
    { w with editorTabs := w.editorTabs.setActiveEditor (textEditor.call EditorCall.setFocus) }
  | none => w

/-- The index that `previousTabTriggered` computes from the tab count and the
current index. -/
def previousTabIndex (count index : Int) : Int :=
  let index := index - 1
  if index < 0 then count - 1 else index

/-- The index that `nextTabTriggered` computes from the tab count and the
current index. -/
def nextTabIndex (count index : Int) : Int :=
  let index := index + 1
  if index ≥ count then 0 else index

/-- The function `MainWindow::previousTabTriggered`. -/
def previousTabTriggered (env : Env) (w : MainWindow) : MainWindow :=
  if (w.editorTabs.editors.length : Int) < 2 then focusActiveEditor w
  else
    env.setActiveTab w
      (previousTabIndex w.editorTabs.editors.length (currentIndex w.editorTabs))

/-- The function `MainWindow::nextTabTriggered`. -/
def nextTabTriggered (env : Env) (w : MainWindow) : MainWindow :=
  if (w.editorTabs.editors.length : Int) < 2 then focusActiveEditor w
  else
    env.setActiveTab w
      (nextTabIndex w.editorTabs.editors.length (currentIndex w.editorTabs))

/-- The panels of the sidebar that can have the focus. -/
inductive SidebarPanel where
  | fileBrowser
  | navigator
  | gitBrowser
deriving DecidableEq, Repr

/-- Modelled from the spec: the methods `FileBrowser::focus`, `Navigator::focus`
and `GitBrowser::focus` (sources missing): the panel gets the keyboard focus,
which only one widget has at a time. -/
def UiState.focus (ui : UiState) (panel : SidebarPanel) : UiState :=
  { ui with fileBrowserFocused := panel = SidebarPanel.fileBrowser,
            navigatorFocused := panel = SidebarPanel.navigator,
            gitBrowserFocused := panel = SidebarPanel.gitBrowser }

/-- The constant `SIDEBAR_TAB_FILE_BROWSER_INDEX`. -/
def SIDEBAR_TAB_FILE_BROWSER_INDEX : Int := 0

/-- The constant `SIDEBAR_TAB_NAVIGATOR_INDEX`. -/
def SIDEBAR_TAB_NAVIGATOR_INDEX : Int := 1

/-- The constant `SIDEBAR_TAB_GIT_BROWSER_INDEX`. -/
def SIDEBAR_TAB_GIT_BROWSER_INDEX : Int := 2

/-- The statements of `focusTreeTriggered`, which reads and writes the docks
only. -/
def focusTree (ui : UiState) : UiState :=
  let ui := if !ui.sidebarDockVisible then { ui with sidebarDockVisible := true } else ui
  if !ui.fileBrowserFocused && !ui.navigatorFocused then
    { ui with sidebarTabIndex := SIDEBAR_TAB_FILE_BROWSER_INDEX }.focus SidebarPanel.fileBrowser
  else if !ui.navigatorFocused && !ui.gitBrowserFocused then
    { ui with sidebarTabIndex := SIDEBAR_TAB_NAVIGATOR_INDEX }.focus SidebarPanel.navigator
  else if !ui.gitBrowserFocused && !ui.fileBrowserFocused then
    { ui with sidebarTabIndex := SIDEBAR_TAB_GIT_BROWSER_INDEX }.focus SidebarPanel.gitBrowser
  else ui

/-- The function `MainWindow::focusTreeTriggered`. -/
def focusTreeTriggered (w : MainWindow) : MainWindow :=
  { w with ui := focusTree w.ui }

/-- The panels of the sidebar whose `isFocused()` returns true. -/
def focusedPanels (w : MainWindow) : List SidebarPanel :=
  (if w.ui.fileBrowserFocused then [SidebarPanel.fileBrowser] else [])
    ++ (if w.ui.navigatorFocused then [SidebarPanel.navigator] else [])
    ++ (if w.ui.gitBrowserFocused then [SidebarPanel.gitBrowser] else [])

/-- The flag `QDockWidget::DockWidgetVerticalTitleBar` of Qt, the bit `0x08`. -/
def DockWidgetVerticalTitleBar : Nat := 0x08

/-- The statements of `outputDockLocationChanged` and
`sidebarDockLocationChanged` on the feature flags of their dock: the flags given
to `setFeatures`, or the old ones when it is not called. -/
def dockFeatures (area : DockWidgetArea) (features : Nat) : Nat :=
  if area = DockWidgetArea.RightDockWidgetArea
      ∧ features &&& DockWidgetVerticalTitleBar ≠ 0 then
    features ^^^ DockWidgetVerticalTitleBar
  else if area ≠ DockWidgetArea.RightDockWidgetArea
      ∧ ¬ (features &&& DockWidgetVerticalTitleBar ≠ 0) then
    features ||| DockWidgetVerticalTitleBar
  else features

/-- The function `MainWindow::outputDockLocationChanged`. -/
def outputDockLocationChanged (w : MainWindow) (area : DockWidgetArea) : MainWindow :=
  let position :=
    if area = DockWidgetArea.RightDockWidgetArea then TabPosition.East
    else if area = DockWidgetArea.LeftDockWidgetArea then TabPosition.West
    else TabPosition.North
  let w := { w with ui := { w.ui with outputTabPosition := position } }
  { w with ui := { w.ui with outputDockFeatures := dockFeatures area w.ui.outputDockFeatures } }

/-- The function `MainWindow::sidebarDockLocationChanged`. -/
def sidebarDockLocationChanged (w : MainWindow) (area : DockWidgetArea) : MainWindow :=
  let position :=
    if area = DockWidgetArea.RightDockWidgetArea then TabPosition.East
    else TabPosition.West
  let w := { w with ui := { w.ui with sidebarTabPosition := position } }
  { w with ui := { w.ui with sidebarDockFeatures := dockFeatures area w.ui.sidebarDockFeatures } }

/-- The test `withHash` of `on_actionColorPicker_triggered`: false when the
selected text is not empty and does not begin with `#`. -/
def colorWithHash (text : QString) : Bool :=
  if text.length > 0 then
    if text.head? ≠ some (qchar '#') then false else true
  else true

/-- The color `initColor` of `on_actionColorPicker_triggered`. -/
def colorInit (env : Env) (text : QString) : QColor :=
  if text.length > 0 then
    let text := if text.head? ≠ some (qchar '#') then (qchar '#') :: text else text
    let textColor := env.colorFromName text
    if env.colorIsValid textColor then textColor else env.white
  else env.white

/-- The text that `on_actionColorPicker_triggered` inserts for the picked
color. -/
def colorText (env : Env) (withHash : Bool) (color : QColor) : QString :=
  let text := env.colorName color
  if !withHash && decide (text.length > 0) && decide (text.head? = some (qchar '#')) then text.drop 1
  else text

/-- The function `MainWindow::on_actionColorPicker_triggered`. -/
def on_actionColorPicker_triggered (env : Env) (w : MainWindow) : MainWindow :=
  let textEditor := w.getActiveEditor
  let selected : QString :=
    match textEditor with
    | some (_, e) => env.selectedText e
    | none => []
  let withHash := colorWithHash selected
  let initColor := colorInit env selected
  match env.colorDialog initColor with
  | none => w
  | some color =>
    if !env.colorIsValid color then w
    else
      match textEditor with
      | none => w
      | some (pane, e) =>
        let text := colorText env withHash color
        w.setEditor pane
          (((e.call (EditorCall.insertText text)).call EditorCall.setTextCursor).call
            EditorCall.setFocus)

/-! ## The Search job of the worker -/

/-- A match of the search pattern in a file. -/
structure SearchMatch where
  lineText : QString
  line : Int
  symbol : Int
deriving DecidableEq, Repr

/-- A file of the searched tree with the matches of the pattern in it (how the
pattern is matched is not modelled). -/
structure SearchFile where
  path : QString
  results : List SearchMatch
deriving DecidableEq, Repr

/-- What a Search job delivers: a match, or one of the two terminal markers. -/
inductive SearchEvent where
  | found (file lineText : QString) (line symbol : Int)
  | finished
  | cancelled
deriving DecidableEq, Repr

/-- The matches of one file, as they are delivered. -/
def SearchFile.events (f : SearchFile) : List SearchEvent :=
  f.results.map (fun m => SearchEvent.found f.path m.lineText m.line m.symbol)

/-- Modelled from the spec: the Search job of the worker
(`ParserWorker::searchInFiles` and `ParserWorker::cancelRequested`, whose
source is missing).  The files are processed in order; the cancellation token
is observed at file boundaries only; `cancelAfter = some k` says that the
cancel request is seen at the boundary reached after `k` files were processed.
A cancelled job ends with the Cancelled marker, a completed one with the
Finished marker; `processed` counts the files processed so far. -/
def searchJobFrom (cancelAfter : Option Nat) : Nat → List SearchFile → List SearchEvent
  | _, [] => [SearchEvent.finished]
  | processed, f :: rest =>
    if cancelAfter = some processed then [SearchEvent.cancelled]
    else f.events ++ searchJobFrom cancelAfter (processed + 1) rest

/-- Modelled from the spec: a whole Search job over `files`, see
`searchJobFrom`. -/
def searchJob (files : List SearchFile) (cancelAfter : Option Nat) : List SearchEvent :=
  searchJobFrom cancelAfter 0 files

/-- One emission of the worker's signal `searchInFilesFound`. -/
structure Found where
  file : QString
  lineText : QString
  line : Int
  symbol : Int
deriving DecidableEq, Repr

/-- The window after the worker's `searchInFilesFound` signals `ms` were
delivered, in order. -/
def searchInFilesFoundAll (env : Env) (w : MainWindow) (ms : List Found) : MainWindow :=
  ms.foldl (fun w m => searchInFilesFound env w m.file m.lineText m.line m.symbol) w

/-! ## The completion dictionaries (`completewords.cpp`) -/

/-- The dictionaries of the `CompleteWords` singleton: its
`std::unordered_map<std::string, std::string>` members. -/
inductive Dictionary where
  | tooltipsPHP
  | htmlTags
  | phpFunctionTypes
  | phpClassMethodTypes
  | phpClassParents
  | htmlAllTagsComplete
  | cssPropertiesComplete
  | cssPseudoComplete
  | cssValuesComplete
  | jsObjectsComplete
  | jsSpecialsComplete
  | jsFunctionsComplete
  | jsInterfacesComplete
  | jsMethodsComplete
  | jsEventsComplete
  | phpFunctionsComplete
  | phpConstsComplete
  | phpClassesComplete
  | phpClassConstsComplete
  | phpClassPropsComplete
  | phpClassMethodsComplete
  | phpGlobalsComplete
  | phpSpecialsComplete
  | dartObjectsComplete
  | dartFunctionsComplete
  | flutterObjectsComplete
  | flutterFunctionsComplete
  | phpMagicComplete
deriving DecidableEq, Repr

/-- A dictionary: the value stored under each key, if any. -/
abbrev Dict := QString → Option QString

/-- A call on `HighlightWords`, whose source is missing. -/
inductive HighlightCall where
  | addCSSProperty (k : QString)
  | addHTMLTag (k : QString)
  | addHTMLShortTag (k : QString)
  | addJSObject (k : QString)
  | addJSFunction (k : QString)
  | addJSInterface (k : QString)
  | addJSExtDartObject (k : QString)
  | addJSExtDartFunction (k : QString)
  | addPHPFunction (k : QString)
  | addPHPClass (k : QString)
  | addPHPClassConstant (className constName : QString)
  | addPHPVariable (k : QString)
deriving DecidableEq, Repr

/-- The state of the `CompleteWords` singleton: its dictionaries, and the calls
it made on `HighlightWords`, oldest first. -/
structure CompleteWords where
  dicts : Dictionary → Dict
  highlightCalls : List HighlightCall

/-- The singleton as constructed: every dictionary is empty. -/
def CompleteWords.empty : CompleteWords :=
  { dicts := fun _ _ => none, highlightCalls := [] }

/-- The assignment `dictionary[key] = value`. -/
def CompleteWords.assign (cw : CompleteWords) (dictionary : Dictionary) (key value : QString) :
    CompleteWords :=
  { cw with dicts := fun d x =>
      if d = dictionary ∧ x = key then some value else cw.dicts d x }

/-- The call `dictionary.clear()`. -/
def CompleteWords.clear (cw : CompleteWords) (dictionary : Dictionary) : CompleteWords :=
  { cw with dicts := fun d x => if d = dictionary then none else cw.dicts d x }

/-- The singleton after a call on `HighlightWords`. -/
def CompleteWords.highlight (cw : CompleteWords) (c : HighlightCall) : CompleteWords :=
  { cw with highlightCalls := cw.highlightCalls ++ [c] }

/-- The lines of the resource files `:/syntax/...` that `load` reads, in the
order `QTextStream::readLine` returns them. -/
structure WordFiles where
  css_props : List QString
  css_pseudo : List QString
  css_values : List QString
  html_tags : List QString
  html_alltags : List QString
  html_shortags : List QString
  js_objects : List QString
  js_specials : List QString
  js_functions : List QString
  js_interfaces : List QString
  js_methods : List QString
  js_events : List QString
  dart_core : List QString
  dart_functions : List QString
  flutter_classes : List QString
  flutter_widgets : List QString
  flutter_functions : List QString
  php_functions : List QString
  php_consts : List QString
  php_classes : List QString
  php_class_methods : List QString
  php_class_consts : List QString
  php_class_props : List QString
  php_globals : List QString
  php_specials : List QString
  php_function_types : List QString
  php_class_method_types : List QString
  php_magic : List QString

/-- The parts of `s` between the occurrences of the separator, empty parts
kept: `QString::split(sep)` for a non-empty separator.  The second argument of
the helper counts the characters of a separator still to be skipped, the third
holds the current part in reverse. -/
def splitFrom (sep : QString) : QString → Nat → QString → List QString
  | [], _, cur => [cur.reverse]
  | _ :: rest, skip + 1, cur => splitFrom sep rest skip cur
  | c :: rest, 0, cur =>
    if sep ≠ [] ∧ sep <+: (c :: rest) then cur.reverse :: splitFrom sep rest (sep.length - 1) []
    else splitFrom sep rest 0 (c :: cur)

/-- The function `QString::split(sep)`. -/
def split (s sep : QString) : List QString := splitFrom sep s 0 []

/-- The replacements `replace("<", "&lt;").replace(">", "&gt;")`. -/
def escapeAngles (s : QString) : QString :=
  (s.flatMap (fun c => if c = (qchar '<') then (qstr "&lt;") else [c])).flatMap
    (fun c => if c = (qchar '>') then (qstr "&gt;") else [c])

/-- A reading loop `while (!in.atEnd()) { k = in.readLine(); if (k == "")
continue; ... }` over the lines of a file, `body` being the rest of the loop
body. -/
def readLines (lines : List QString) (body : QString → CompleteWords → CompleteWords)
    (cw : CompleteWords) : CompleteWords :=
  lines.foldl (fun cw k => if k = [] then cw else body k cw) cw

/-- The loop body `dictionary[k] = k`. -/
def plainWord (dictionary : Dictionary) (k : QString) (cw : CompleteWords) : CompleteWords :=
  cw.assign dictionary k k

/-- The loop body for a line holding a signature: the name before the first
`(` and the parameters from it on, when there is a `(` after the first
character, else the whole line as name and value.  `tooltips` tells whether the
escaped parameters are also stored in `tooltipsPHP`; `mark` is the call made on
`HighlightWords` with the name, if any. -/
def signatureWord (env : Env) (dictionary : Dictionary) (tooltips : Bool)
    (mark : QString → CompleteWords → CompleteWords) (k : QString) (cw : CompleteWords) :
    CompleteWords :=
  let kSep := indexOf k (qchar '(')
  if kSep > 0 then
    let kName := trimmed env (k.take kSep.toNat)
    let kParams := trimmed env (k.drop kSep.toNat)
    let cw := cw.assign dictionary kName kParams
    let cw :=
      if tooltips then cw.assign Dictionary.tooltipsPHP kName (escapeAngles kParams) else cw
    mark kName cw
  else
    let cw := cw.assign dictionary k k
    mark k cw

/-- The loop `for (...) { if (classPart.size() == 0) continue;
HighlightWords::addPHPClass(classPart); }` over the parts of a class name. -/
def addPHPClassParts (name : QString) (cw : CompleteWords) : CompleteWords :=
  (split name [qchar (Char.ofNat 92)]).foldl
    (fun cw classPart =>
      if classPart.length = 0 then cw else cw.highlight (HighlightCall.addPHPClass classPart))
    cw

/-- The loop body for a line holding a key and a type separated by a blank. -/
def typeWord (dictionary : Dictionary) (k : QString) (cw : CompleteWords) : CompleteWords :=
  match split k [qchar ' '] with
  | [key, value] => cw.assign dictionary key value
  | _ => cw

/-- The function `CompleteWords::loadCSSWords`. -/
def loadCSSWords (files : WordFiles) (cw : CompleteWords) : CompleteWords :=
  let cw := readLines files.css_props (fun k cw =>
    (plainWord Dictionary.cssPropertiesComplete k cw).highlight
      (HighlightCall.addCSSProperty k)) cw
  let cw := readLines files.css_pseudo (plainWord Dictionary.cssPseudoComplete) cw
  readLines files.css_values (plainWord Dictionary.cssValuesComplete) cw

/-- The function `CompleteWords::loadHTMLWords`. -/
def loadHTMLWords (files : WordFiles) (cw : CompleteWords) : CompleteWords :=
  let cw := readLines files.html_tags (plainWord Dictionary.htmlTags) cw
  let cw := readLines files.html_alltags (fun k cw =>
    (plainWord Dictionary.htmlAllTagsComplete k cw).highlight (HighlightCall.addHTMLTag k)) cw
  readLines files.html_shortags (fun k cw => cw.highlight (HighlightCall.addHTMLShortTag k)) cw

/-- The function `CompleteWords::loadJSWords`. -/
def loadJSWords (env : Env) (files : WordFiles) (cw : CompleteWords) : CompleteWords :=
  let cw := readLines files.js_objects (fun k cw =>
    (plainWord Dictionary.jsObjectsComplete k cw).highlight (HighlightCall.addJSObject k)) cw
  let cw := readLines files.js_specials (plainWord Dictionary.jsSpecialsComplete) cw
  let cw := readLines files.js_functions
    (signatureWord env Dictionary.jsFunctionsComplete false
      (fun n cw => cw.highlight (HighlightCall.addJSFunction n))) cw
  let cw := readLines files.js_interfaces (fun k cw =>
    (plainWord Dictionary.jsInterfacesComplete k cw).highlight
      (HighlightCall.addJSInterface k)) cw
  let cw := readLines files.js_methods
    (signatureWord env Dictionary.jsMethodsComplete false (fun _ cw => cw)) cw
  readLines files.js_events (plainWord Dictionary.jsEventsComplete) cw

/-- The function `CompleteWords::loadFlutterWords`. -/
def loadFlutterWords (files : WordFiles) (cw : CompleteWords) : CompleteWords :=
  let cw := readLines files.dart_core (fun k cw =>
    (plainWord Dictionary.dartObjectsComplete k cw).highlight
      (HighlightCall.addJSExtDartObject k)) cw
  let cw := readLines files.dart_functions (fun k cw =>
    (plainWord Dictionary.dartFunctionsComplete k cw).highlight
      (HighlightCall.addJSExtDartFunction k)) cw
  let cw := readLines files.flutter_classes (fun k cw =>
    (plainWord Dictionary.flutterObjectsComplete k cw).highlight
      (HighlightCall.addJSExtDartObject k)) cw
  let cw := readLines files.flutter_widgets (fun k cw =>
    (plainWord Dictionary.flutterObjectsComplete k cw).highlight
      (HighlightCall.addJSExtDartObject k)) cw
  readLines files.flutter_functions (fun k cw =>
    (plainWord Dictionary.flutterFunctionsComplete k cw).highlight
      (HighlightCall.addJSExtDartFunction k)) cw

/-- The function `CompleteWords::loadPHPWords`. -/
def loadPHPWords (env : Env) (files : WordFiles) (cw : CompleteWords) : CompleteWords :=
  let cw := readLines files.php_functions
    (signatureWord env Dictionary.phpFunctionsComplete true
      (fun n cw => cw.highlight (HighlightCall.addPHPFunction n))) cw
  let cw := readLines files.php_consts (plainWord Dictionary.phpConstsComplete) cw
  let cw := readLines files.php_classes
    (signatureWord env Dictionary.phpClassesComplete true addPHPClassParts) cw
  let cw := readLines files.php_class_methods
    (signatureWord env Dictionary.phpClassMethodsComplete true (fun _ cw => cw)) cw
  let cw := readLines files.php_class_consts (fun k cw =>
    let cw := plainWord Dictionary.phpClassConstsComplete k cw
    match split k [qchar ':', qchar ':'] with
    | [className, constName] =>
      cw.highlight (HighlightCall.addPHPClassConstant className constName)
    | _ => cw) cw
  let cw := readLines files.php_class_props (plainWord Dictionary.phpClassPropsComplete) cw
  let cw := readLines files.php_globals (fun k cw =>
    (plainWord Dictionary.phpGlobalsComplete k cw).highlight
      (HighlightCall.addPHPVariable k)) cw
  let cw := readLines files.php_specials (plainWord Dictionary.phpSpecialsComplete) cw
  let cw := readLines files.php_function_types (typeWord Dictionary.phpFunctionTypes) cw
  let cw := readLines files.php_class_method_types
    (typeWord Dictionary.phpClassMethodTypes) cw
  readLines files.php_magic (plainWord Dictionary.phpMagicComplete) cw

/-- The function `CompleteWords::_load`. -/
def CompleteWords.load (env : Env) (files : WordFiles) (cw : CompleteWords) : CompleteWords :=
  let cw := loadCSSWords files cw
  let cw := loadHTMLWords files cw
  let cw := loadJSWords env files cw
  let cw := loadFlutterWords files cw
  loadPHPWords env files cw

/-- The function `CompleteWords::_reset`. -/
def CompleteWords.reset (cw : CompleteWords) : CompleteWords :=
  let cw := cw.clear Dictionary.tooltipsPHP
  let cw := cw.clear Dictionary.htmlTags
  let cw := cw.clear Dictionary.phpFunctionTypes
  let cw := cw.clear Dictionary.phpClassMethodTypes
  let cw := cw.clear Dictionary.phpClassParents
  let cw := cw.clear Dictionary.htmlAllTagsComplete
  let cw := cw.clear Dictionary.cssPropertiesComplete
  let cw := cw.clear Dictionary.cssPseudoComplete
  let cw := cw.clear Dictionary.cssValuesComplete
  let cw := cw.clear Dictionary.jsObjectsComplete
  let cw := cw.clear Dictionary.jsSpecialsComplete
  let cw := cw.clear Dictionary.jsFunctionsComplete
  let cw := cw.clear Dictionary.jsInterfacesComplete
  let cw := cw.clear Dictionary.jsMethodsComplete
  let cw := cw.clear Dictionary.jsEventsComplete
  let cw := cw.clear Dictionary.phpFunctionsComplete
  let cw := cw.clear Dictionary.phpConstsComplete
  let cw := cw.clear Dictionary.phpClassesComplete
  let cw := cw.clear Dictionary.phpClassConstsComplete
  let cw := cw.clear Dictionary.phpClassPropsComplete
  let cw := cw.clear Dictionary.phpClassMethodsComplete
  let cw := cw.clear Dictionary.phpGlobalsComplete
  cw.clear Dictionary.phpSpecialsComplete

/-- The function `CompleteWords::_reload`. -/
def CompleteWords.reload (env : Env) (files : WordFiles) (cw : CompleteWords) :
    CompleteWords :=
  let cw := cw.reset
  cw.load env files

/-- The five reading loops over files of signatures (`js_functions`,
`js_methods`, `php_functions`, `php_classes`, `php_class_methods`): the
dictionary each fills and its loop body, as in `loadJSWords` and `loadPHPWords`. -/
def signatureLoops (env : Env) :
    List (Dictionary × (QString → CompleteWords → CompleteWords)) :=
  [(Dictionary.jsFunctionsComplete,
      signatureWord env Dictionary.jsFunctionsComplete false
        (fun n cw => cw.highlight (HighlightCall.addJSFunction n))),
   (Dictionary.jsMethodsComplete,
      signatureWord env Dictionary.jsMethodsComplete false (fun _ cw => cw)),
   (Dictionary.phpFunctionsComplete,
      signatureWord env Dictionary.phpFunctionsComplete true
        (fun n cw => cw.highlight (HighlightCall.addPHPFunction n))),
   (Dictionary.phpClassesComplete,
      signatureWord env Dictionary.phpClassesComplete true addPHPClassParts),
   (Dictionary.phpClassMethodsComplete,
      signatureWord env Dictionary.phpClassMethodsComplete true (fun _ cw => cw))]

/-- The dictionaries that `_reset` clears. -/
def clearedByReset : List Dictionary :=
  [Dictionary.tooltipsPHP, Dictionary.htmlTags, Dictionary.phpFunctionTypes, Dictionary.phpClassMethodTypes, Dictionary.phpClassParents, Dictionary.htmlAllTagsComplete, Dictionary.cssPropertiesComplete, Dictionary.cssPseudoComplete, Dictionary.cssValuesComplete, Dictionary.jsObjectsComplete, Dictionary.jsSpecialsComplete, Dictionary.jsFunctionsComplete, Dictionary.jsInterfacesComplete, Dictionary.jsMethodsComplete, Dictionary.jsEventsComplete, Dictionary.phpFunctionsComplete, Dictionary.phpConstsComplete, Dictionary.phpClassesComplete, Dictionary.phpClassConstsComplete, Dictionary.phpClassPropsComplete, Dictionary.phpClassMethodsComplete, Dictionary.phpGlobalsComplete, Dictionary.phpSpecialsComplete]

/-- The states of the singleton reached from the empty one by a first `load`
and then any number of `load` and `reload` calls. -/
inductive LoadReachable (env : Env) (files : WordFiles) : CompleteWords → Prop where
  | first : LoadReachable env files (CompleteWords.empty.load env files)
  | load (cw : CompleteWords) :
      LoadReachable env files cw → LoadReachable env files (cw.load env files)
  | reload (cw : CompleteWords) :
      LoadReachable env files cw → LoadReachable env files (cw.reload env files)

/-- An assignment `dictionary[key] = value`. -/
structure Assignment where
  dictionary : Dictionary
  key : QString
  value : QString

/-- The dictionaries after the assignments `as` were made, in order. -/
def runAssignments (as : List Assignment) (ds : Dictionary → Dict) : Dictionary → Dict :=
  as.foldl (fun ds a d x => if d = a.dictionary ∧ x = a.key then some a.value else ds d x) ds

/-- The value that the last assignment of `as` to `dictionary[key]` stores. -/
def lastAssigned (as : List Assignment) (dictionary : Dictionary) (key : QString) :
    Option QString :=
  match as with
  | [] => none
  | a :: rest =>
    match lastAssigned rest dictionary key with
    | some v => some v
    | none => if dictionary = a.dictionary ∧ key = a.key then some a.value else none

/-- The functions on the singleton that change its dictionaries by a fixed
sequence of assignments, whatever the dictionaries held before. -/
def MakesAssignments (f : CompleteWords → CompleteWords) : Prop :=
  ∃ as : List Assignment, ∀ cw, (f cw).dicts = runAssignments as cw.dicts

/-- The singleton after the steps `steps` were made on it, in order. -/
def runSteps (steps : List (CompleteWords → CompleteWords)) (cw : CompleteWords) :
    CompleteWords :=
  steps.foldl (fun cw f => f cw) cw

/-! ## Sample values -/

/-- A sample environment: decimal numbers, no file exists, blanks are spaces. -/
def sampleEnv : Env :=
  { intToStr := fun n => qstr (toString n)
    toInt := fun s => s.foldl (fun n c => n * 10 + ((c.val : Int) - 48)) 0
    fileExists := fun _ => false
    folderExists := fun _ => false
    fileName := fun f => f
    isSpace := fun c => c.val = 32
    arg := fun t a => t ++ a
    stripCounter := fun t => t
    gitDirectory := qstr ".git"
    statusInfo := fun e => e.fileName
    openFile := fun w _ => w
    findDeclaration := fun _ => ([], 0)
    closeWindowAllowed := fun t => t.editors.all (fun e => e.ready)
    settingsGet := fun _ => (qstr "no")
    isCommandSafe := fun c => c = (qstr "status")
    showQuestion := fun _ _ => false
    highlightCommand := fun c => c
    closeSaved := fun w => { w with editorTabs := { editors := [], current := none } }
    setActiveTab := fun w index =>
      { w with editorTabs := { w.editorTabs with current := some index.toNat } }
    selectedText := fun e => e.content
    white := 16777215
    colorFromName := fun _ => 0
    colorIsValid := fun c => c ≤ 16777215
    colorName := fun c => qchar '#' :: ((Nat.toDigits 16 (16777216 + c)).drop 1).map qchar
    colorDialog := fun c => some c }

/-- A sample document. -/
def sampleEditor (docId : Nat) (tabIndex : Int) : Editor :=
  { docId := docId, tabIndex := tabIndex, fileName := qstr "a.php",
    modeType := ModeType.MODE_MIXED, ready := true, content := [],
    parseError := false, calls := [] }

/-- A sample window with the given tab sets and nothing else. -/
def sampleWindow (tabs split : EditorTabs) (isSplitActive : Bool) : MainWindow :=
  { editorTabs := tabs, editorTabsSplit := split, isSplitActive := isSplitActive,
    navigator := none, quickAccess := none,
    messagesTab := { browser := [], tabText := qstr "Messages", outputMsgCount := 0,
                     scrolledToTop := 0 },
    statusBar := [], popup := none, searchList := [], searchTabText := qstr "Search",
    sidebarProgressVisible := false, sidebarProgressValue := 0, emitted := [], calls := [],
    project := { isOpen := false, path := [], name := [], isPHPLintEnabled := false,
                 isPHPCSEnabled := false },
    fileBrowserRootPath := [], parsePHPLintEnabled := true, parsePHPCSEnabled := true,
    parsePHPEnabled := true, parseJSEnabled := true, parseCSSEnabled := true,
    gitCommandsEnabled := false, tmpDisableParser := false,
    outputMsgErrorTpl := qstr "E", outputMsgWarningTpl := qstr "W",
    searchResultsColor := 1, outputBgColor := 2,
    tabsListVisible := false, quickAccessVisible := false, args := [],
    ui := { outputDockVisible := false, outputTabIndex := 0, outputEdit := [],
            outputTabPosition := TabPosition.North, outputDockFeatures := 0,
            sidebarDockVisible := true, sidebarTabIndex := 0,
            sidebarTabPosition := TabPosition.West, sidebarDockFeatures := 0,
            fileBrowserFocused := false, navigatorFocused := false,
            gitBrowserFocused := false } }

/-- A tab set without tabs. -/
def noTabs : EditorTabs := { editors := [], current := none }

/-- A window with two tab sets: the main one shows document 1 in tab 1, the
split one, which has the focus, shows document 2 in tab 0. -/
def splitWindow : MainWindow :=
  sampleWindow { editors := [sampleEditor 1 1], current := some 0 }
    { editors := [sampleEditor 2 0], current := some 0 } true

/-- The window after the document of tab 0 was closed and document 2 took its
place: document 2 is the only open document, it is active and has tab index 0. -/
def reusedIndexWindow : MainWindow :=
  sampleWindow { editors := [sampleEditor 2 0], current := some 0 } noTabs false

/-- A window without open documents. -/
def emptyWindow : MainWindow := sampleWindow noTabs noTabs false

/-- A window whose active document has the text `ff0000` selected. -/
def selectionWindow : MainWindow :=
  sampleWindow
    { editors := [{ sampleEditor 2 0 with content := qstr "ff0000" }], current := some 0 }
    noTabs false

/-- A window whose navigator has the focus. -/
def navigatorWindow : MainWindow :=
  { emptyWindow with ui := { emptyWindow.ui with navigatorFocused := true } }

/-- A window with three tabs, the last one being current. -/
def threeTabsWindow : MainWindow :=
  sampleWindow
    { editors := [sampleEditor 1 0, sampleEditor 2 1, sampleEditor 3 2], current := some 2 }
    noTabs false

/-- The window after `request index text` was called for every text of `texts`,
in order. -/
def requestAll (request : MainWindow → Int → QString → MainWindow) (w : MainWindow)
    (index : Int) (texts : List QString) : MainWindow :=
  texts.foldl (fun w text => request w index text) w

/-- Two files with one match each, and a third with two. -/
def sampleFiles : List SearchFile :=
  [ { path := qstr "a.php", results := [{ lineText := qstr "// TODO a", line := 3, symbol := 3 }] },
    { path := qstr "b.php", results := [{ lineText := qstr "// TODO b", line := 7, symbol := 3 }] },
    { path := qstr "c.php", results := [{ lineText := qstr "TODO c", line := 1, symbol := 0 },
                                          { lineText := qstr "TODO d", line := 2, symbol := 0 }] } ]

/-- A window without open documents in which the project `/p` is open. -/
def projectWindow : MainWindow :=
  { emptyWindow with
    project := { isOpen := true, path := qstr "/p", name := qstr "p",
                 isPHPLintEnabled := false, isPHPCSEnabled := false } }

/-- A window whose scan-progress widget is visible. -/
def scanningWindow : MainWindow := { emptyWindow with sidebarProgressVisible := true }

/-- A sample environment in which every file exists, the declaration of `foo`
is at line 12 of `a.php`, and `openFile` shows the file in a new tab of the main
tab set and makes it current. -/
def declEnv : Env :=
  { sampleEnv with
    fileExists := fun _ => true
    findDeclaration := fun n => if n = (qstr "foo") then ((qstr "a.php"), 12) else ([], 0)
    openFile := fun w f =>
      { w with editorTabs :=
          { editors := w.editorTabs.editors
              ++ [{ sampleEditor 9 w.editorTabs.editors.length with fileName := f }],
            current := some w.editorTabs.editors.length } } }

/-- A modified document: the sample `closeWindowAllowed` refuses to close it. -/
def modifiedEditor : Editor := { sampleEditor 3 0 with ready := false }

/-- Sample word files: a few lines in some of the files, the others empty. -/
def sampleWordFiles : WordFiles :=
  { css_props := [(qstr "color")],
    css_pseudo := [],
    css_values := [],
    html_tags := [],
    html_alltags := [],
    html_shortags := [],
    js_objects := [],
    js_specials := [],
    js_functions := [(qstr "alert(message)")],
    js_interfaces := [],
    js_methods := [],
    js_events := [],
    dart_core := [(qstr "String")],
    dart_functions := [(qstr "print")],
    flutter_classes := [(qstr "Widget")],
    flutter_widgets := [(qstr "Text")],
    flutter_functions := [(qstr "runApp")],
    php_functions := [(qstr "strlen (string) : int"), (qstr "")],
    php_consts := [],
    php_classes := [],
    php_class_methods := [],
    php_class_consts := [],
    php_class_props := [],
    php_globals := [],
    php_specials := [],
    php_function_types := [(qstr "strlen int")],
    php_class_method_types := [],
    php_magic := [(qstr "__construct")] }

/-! ## Lemmas -/

theorem trimmed_length_le (env : Env) (s : QString) : (trimmed env s).length ≤ s.length := by
  unfold trimmed
  rw [List.length_reverse]
  exact le_trans (List.Sublist.length_le (List.dropWhile_sublist _))
    (by rw [List.length_reverse]; exact List.Sublist.length_le (List.dropWhile_sublist _))

theorem searchLineText_length_le (lineText : QString) :
    (searchLineText lineText).length ≤ 303 := by
  unfold searchLineText ellipsis
  split
  · simp [List.length_take]
  · omega

theorem utf16_pair (c : Char) (h : 65536 ≤ c.toNat) : (utf16 c).length = 2 := by
  unfold utf16
  rw [if_neg (by omega)]
  rfl

theorem flatten_replicate_length (u : QString) (n : Nat) :
    ((List.replicate n u).flatten).length = n * u.length := by
  induction n with
  | zero => simp
  | succ n ih =>
    rw [List.replicate_succ, List.flatten_cons, List.length_append, ih, Nat.succ_mul]
    omega

/-- A line of more than 150 characters outside the basic plane is longer than
300 `QChar`s: it is cut after the first 150 of them, which are 300 `QChar`s. -/
theorem searchLineText_counts_code_units (c : Char) (h : 65536 ≤ c.toNat) (n : Nat)
    (hn : 150 < n) :
    searchLineText ((List.replicate n (utf16 c)).flatten)
      = ((List.replicate 150 (utf16 c)).flatten) ++ ellipsis := by
  have h2 := utf16_pair c h
  obtain ⟨m, rfl⟩ : ∃ m, n = 150 + m := ⟨n - 150, by omega⟩
  have hsplit : List.replicate (150 + m) (utf16 c)
      = List.replicate 150 (utf16 c) ++ List.replicate m (utf16 c) :=
    List.append_replicate_replicate.symm
  have hlen : ((List.replicate 150 (utf16 c)).flatten).length = 300 := by
    rw [flatten_replicate_length, h2]
  have hall : ((List.replicate (150 + m) (utf16 c)).flatten).length > 300 := by
    rw [flatten_replicate_length, h2]
    omega
  unfold searchLineText
  rw [if_pos hall, hsplit, List.flatten_append, List.take_left' hlen]

theorem searchInFilesFoundAll_append (env : Env) (w : MainWindow) (ms : List Found)
    (m : Found) :
    searchInFilesFoundAll env w (ms ++ [m])
      = searchInFilesFound env (searchInFilesFoundAll env w ms) m.file m.lineText m.line
          m.symbol := by
  simp [searchInFilesFoundAll, List.foldl_append]

theorem setStatusBarText_searchList (env : Env) (w : MainWindow) (t : QString) :
    (setStatusBarText env w t).searchList = w.searchList := by
  unfold setStatusBarText
  split <;> rfl

theorem setStatusBarText_sidebarProgressVisible (env : Env) (w : MainWindow) (t : QString) :
    (setStatusBarText env w t).sidebarProgressVisible = w.sidebarProgressVisible := by
  unfold setStatusBarText
  split <;> rfl

theorem forLoop_succ {σ : Type} (n : Nat) (body : Nat → σ → Option σ) (s : σ) :
    forLoop (n + 1) body s = (forLoop n body s).bind (body n) := by
  unfold forLoop
  rw [List.range_succ, List.foldlM_append]
  cases h : List.foldlM (fun acc i => body i acc) s (List.range n) <;> simp [h]

theorem forLoop_isSome {σ : Type} (n : Nat) (body : Nat → σ → Option σ)
    (h : ∀ i, i < n → ∀ s, (body i s).isSome = true) (s : σ) :
    (forLoop n body s).isSome = true := by
  induction n with
  | zero => simp [forLoop]
  | succ n ih =>
    rw [forLoop_succ]
    have h1 := ih (fun i hi => h i (Nat.lt_succ_of_lt hi))
    obtain ⟨r, hr⟩ := Option.isSome_iff_exists.mp h1
    rw [hr]
    exact h n (Nat.lt_succ_self n) r

theorem QList.at_of_lt {α : Type} (l : List α) (i : Nat) (h : i < l.length) :
    QList.at l i = some (l.get ⟨i, h⟩) := by
  simp [QList.at, List.getElem?_eq_getElem h]

theorem lintErrorsLoop_isSome (env : Env) (tpl : QString) (isMain : Bool)
    (errorTexts errorLines : List QString) (textEditor : Editor) (messages : MessagesTab)
    (h : errorTexts.length = errorLines.length) :
    (lintErrorsLoop env tpl isMain errorTexts errorLines textEditor messages).isSome = true := by
  unfold lintErrorsLoop
  apply forLoop_isSome
  intro i hi acc
  rw [QList.at_of_lt errorLines i (h ▸ hi), QList.at_of_lt errorTexts i hi]
  rfl

theorem lintMarkErrors_isSome (env : Env) (tpl : QString) (isMain : Bool)
    (errorTexts errorLines : List QString) (textEditor : Editor) (messages : MessagesTab) :
    (lintMarkErrors env tpl isMain errorTexts errorLines textEditor messages).isSome = true := by
  unfold lintMarkErrors
  split
  · rename_i h
    obtain ⟨r, hr⟩ := Option.isSome_iff_exists.mp
      (lintErrorsLoop_isSome env tpl isMain errorTexts errorLines textEditor messages h.2)
    have h0 : 0 < errorLines.length := by omega
    rw [hr, QList.at_of_lt errorLines 0 h0]
    rfl
  · rfl

theorem eraseIdx_set_self {α : Type} (l : List α) (i : Nat) (a : α) :
    (l.set i a).eraseIdx i = l.eraseIdx i := by
  induction l generalizing i with
  | nil => simp
  | cons x xs ih => cases i <;> simp [ih]

theorem setActiveEditor_inactiveEditors (t : EditorTabs) (e : Editor) :
    (t.setActiveEditor e).inactiveEditors = t.inactiveEditors := by
  unfold EditorTabs.setActiveEditor EditorTabs.inactiveEditors
  cases h : t.current <;> simp [h, eraseIdx_set_self]

theorem setEditor_documentsBut (w : MainWindow) (p : Pane) (e : Editor) :
    (w.setEditor p e).documentsBut p = w.documentsBut p := by
  cases p <;> simp [MainWindow.setEditor, MainWindow.documentsBut,
    setActiveEditor_inactiveEditors]

theorem setStatusBarText_tabs (env : Env) (w : MainWindow) (t : QString) :
    (setStatusBarText env w t).editorTabs = w.editorTabs
    ∧ (setStatusBarText env w t).editorTabsSplit = w.editorTabsSplit := by
  unfold setStatusBarText
  split <;> exact ⟨rfl, rfl⟩

theorem lintReport_tabs (env : Env) (w : MainWindow) (isMain : Bool)
    (errorTexts errorLines : List QString) (output : QString) :
    (lintReport env w isMain errorTexts errorLines output).editorTabs = w.editorTabs
    ∧ (lintReport env w isMain errorTexts errorLines output).editorTabsSplit
        = w.editorTabsSplit := by
  unfold lintReport
  cases isMain <;> (split_ifs <;> simp [MainWindow.setMessagesTab, setStatusBarText_tabs])

theorem lintPopup_tabs (w : MainWindow) (errorTexts errorLines : List QString) :
    ∃ w2, lintPopup w errorTexts errorLines = some w2 ∧ w2.editorTabs = w.editorTabs
      ∧ w2.editorTabsSplit = w.editorTabsSplit := by
  unfold lintPopup
  split
  · rename_i h
    rw [QList.at_of_lt errorLines 0 h.2, QList.at_of_lt errorTexts 0 h.1]
    exact ⟨_, rfl, rfl, rfl⟩
  · exact ⟨_, rfl, rfl, rfl⟩

theorem documentsBut_congr (w w2 : MainWindow) (p : Pane)
    (h1 : w2.editorTabs = w.editorTabs) (h2 : w2.editorTabsSplit = w.editorTabsSplit) :
    w2.documentsBut p = w.documentsBut p := by
  cases p <;> simp [MainWindow.documentsBut, h1, h2]

theorem parseLintFinished_applied (env : Env) (w : MainWindow) (tabIndex : Int)
    (errorTexts errorLines : List QString) (output : QString) (pane : Pane) (e : Editor)
    (h : w.getActiveEditor = some (pane, e)) (ht : tabIndex = e.tabIndex) :
    ∃ w2, parseLintFinished env w tabIndex errorTexts errorLines output = some w2
      ∧ w2.documentsBut pane = w.documentsBut pane := by
  unfold parseLintFinished
  simp only [h, ht, ne_eq, not_true_eq_false, if_false]
  obtain ⟨acc, hacc⟩ := Option.isSome_iff_exists.mp
    (lintMarkErrors_isSome env w.outputMsgErrorTpl (decide (pane = Pane.main)) errorTexts
      errorLines (e.call EditorCall.clearErrors) w.messagesTab)
  rw [hacc]
  simp only [Option.some_bind]
  obtain ⟨w2, hw2, h1, h2⟩ := lintPopup_tabs
    (lintReport env ((w.setMessagesTab acc.2).setEditor pane
      (acc.1.call EditorCall.updateMarksAndMapArea)) (decide (pane = Pane.main))
      errorTexts errorLines output) errorTexts errorLines
  refine ⟨w2, hw2, ?_⟩
  rw [documentsBut_congr _ _ pane h1 h2,
    documentsBut_congr _ _ pane (lintReport_tabs _ _ _ _ _ _).1 (lintReport_tabs _ _ _ _ _ _).2,
    setEditor_documentsBut]
  rfl

theorem forLoop_eq_foldl {σ α : Type} (l : List α) (body : Nat → σ → Option σ)
    (f : σ → α → σ)
    (h : ∀ i (hi : i < l.length) s, body i s = some (f s (l.get ⟨i, hi⟩))) :
    ∀ n, n ≤ l.length → ∀ s, forLoop n body s = some ((l.take n).foldl f s) := by
  intro n
  induction n with
  | zero => intro _ s; simp [forLoop]
  | succ n ih =>
    intro hn s
    have hlt : n < l.length := hn
    rw [forLoop_succ, ih (Nat.le_of_lt hlt) s, Option.some_bind, h n hlt,
      List.take_succ, List.foldl_append]
    simp [List.getElem?_eq_getElem hlt]

theorem setResultErrors_eq (errors : List ParseResultError) (e : Editor) :
    setResultErrors errors e
      = some { e with calls := e.calls ++ errors.flatMap resultErrorCalls } := by
  unfold setResultErrors
  rw [forLoop_eq_foldl errors _
    (fun ed error => (ed.call (EditorCall.setError error.line error.text)).call
      (EditorCall.highlightError error.symbol 1)) ?_ errors.length (le_refl _) e]
  · rw [List.take_length]
    congr 1
    induction errors generalizing e with
    | nil => simp
    | cons x xs ih =>
      rw [List.foldl_cons, ih]
      simp [Editor.call, resultErrorCalls, List.flatMap_cons]
  · intro i hi s
    rw [QList.at_of_lt errors i hi]
    rfl

theorem getActiveEditor_setActiveEditor (t : EditorTabs) (e e2 : Editor)
    (h : t.getActiveEditor = some e) : (t.setActiveEditor e2).getActiveEditor = some e2 := by
  unfold EditorTabs.getActiveEditor at h ⊢
  unfold EditorTabs.setActiveEditor
  cases hc : t.current with
  | none => simp [hc] at h
  | some i =>
    simp only [hc, Option.some_bind] at h ⊢
    have hi : i < t.editors.length := by
      by_contra hcon
      rw [List.getElem?_eq_none (Nat.le_of_not_lt hcon)] at h
      cases h
    simp [List.getElem?_set, hi]

theorem foldl_errorsStep_result (errors : List ParseResultError) (acc : List (Int × QString)) :
    List.foldl errorsStep acc (errors.flatMap resultErrorCalls)
      = acc ++ errors.map (fun er => (er.line, er.text)) := by
  induction errors generalizing acc with
  | nil => simp
  | cons x xs ih =>
    rw [List.flatMap_cons, List.foldl_append, ih]
    simp [resultErrorCalls, errorsStep]

theorem foldl_errorsStep_neutral (post : List EditorCall) (acc : List (Int × QString))
    (hpost : ∀ c ∈ post, c ≠ EditorCall.clearErrors ∧ ∀ l t, c ≠ EditorCall.setError l t) :
    List.foldl errorsStep acc post = acc := by
  induction post with
  | nil => rfl
  | cons c cs ih =>
    rw [List.foldl_cons]
    have hc := hpost c (List.mem_cons_self _ _)
    have h1 : errorsStep acc c = acc := by
      cases c <;> first | rfl | exact absurd rfl hc.1 | exact absurd rfl (hc.2 _ _)
    rw [h1]
    exact ih (fun c hc => hpost c (List.mem_cons_of_mem _ hc))

theorem errorsOf_result (pre : List EditorCall) (errors : List ParseResultError)
    (post : List EditorCall)
    (hpost : ∀ c ∈ post, c ≠ EditorCall.clearErrors ∧ ∀ l t, c ≠ EditorCall.setError l t) :
    errorsOf (pre ++ [EditorCall.clearErrors] ++ errors.flatMap resultErrorCalls ++ post)
      = errors.map (fun er => (er.line, er.text)) := by
  unfold errorsOf
  rw [List.foldl_append, List.foldl_append, List.foldl_append,
    foldl_errorsStep_neutral post _ hpost, foldl_errorsStep_result]
  rfl

theorem foldl_lint_calls (env : Env) (tpl : QString) (isMain : Bool)
    (ps : List (QString × QString)) (ed : Editor) (ms : MessagesTab) :
    (ps.foldl (fun (acc : Editor × MessagesTab) p =>
        (acc.1.call (EditorCall.setError (env.toInt p.1) p.2),
         if isMain then addMessagesTabText env acc.2 (env.arg (env.arg tpl p.1) p.2)
         else acc.2)) (ed, ms)).1
      = { ed with calls := ed.calls
            ++ ps.map (fun p => EditorCall.setError (env.toInt p.1) p.2) } := by
  induction ps generalizing ed ms with
  | nil => simp
  | cons p ps ih =>
    rw [List.foldl_cons, ih]
    simp [Editor.call]

theorem lintErrorsLoop_calls (env : Env) (tpl : QString) (isMain : Bool)
    (errorTexts errorLines : List QString) (ed : Editor) (ms : MessagesTab)
    (hlen : errorTexts.length = errorLines.length) :
    ∃ ms2, lintErrorsLoop env tpl isMain errorTexts errorLines ed ms
      = some ({ ed with calls := (ed.calls
            ++ (List.zip errorLines errorTexts).map
                (fun p => EditorCall.setError (env.toInt p.1) p.2)) }, ms2) := by
  unfold lintErrorsLoop
  have hz : (List.zip errorLines errorTexts).length = errorTexts.length := by
    simp [List.length_zip, hlen]
  rw [forLoop_eq_foldl (List.zip errorLines errorTexts) _
    (fun (acc : Editor × MessagesTab) p =>
        (acc.1.call (EditorCall.setError (env.toInt p.1) p.2),
         if isMain then addMessagesTabText env acc.2 (env.arg (env.arg tpl p.1) p.2)
         else acc.2)) ?_ errorTexts.length (le_of_eq hz.symm) (ed, ms)]
  · rw [← hz, List.take_length]
    have h1 := foldl_lint_calls env tpl isMain (List.zip errorLines errorTexts) ed ms
    generalize hr : List.foldl _ (ed, ms) (List.zip errorLines errorTexts) = r at h1 ⊢
    exact ⟨r.2, by rw [← h1]⟩
  · intro i hi s
    have hi1 : i < errorTexts.length := hz ▸ hi
    have hi2 : i < errorLines.length := hlen ▸ hi1
    rw [QList.at_of_lt errorLines i hi2, QList.at_of_lt errorTexts i hi1]
    simp [List.getElem_zip]

theorem lintMarkErrors_calls (env : Env) (tpl : QString) (isMain : Bool)
    (errorTexts errorLines : List QString) (ed : Editor) (ms : MessagesTab) :
    ∃ ed2 ms2, lintMarkErrors env tpl isMain errorTexts errorLines ed ms = some (ed2, ms2)
      ∧ (if errorTexts.length > 0 ∧ errorTexts.length = errorLines.length then
          ∃ first, errorLines.head? = some first
            ∧ ed2 = { ed with
                parseError := true
                calls := (ed.calls
                  ++ (List.zip errorLines errorTexts).map
                      (fun p => EditorCall.setError (env.toInt p.1) p.2)
                  ++ [EditorCall.setParseError true, EditorCall.gotoLine (env.toInt first),
                      EditorCall.highlightErrorLine (env.toInt first)]) }
         else ed2 = { ed with parseError := false
                              calls := ed.calls ++ [EditorCall.setParseError false] }) := by
  unfold lintMarkErrors
  by_cases hE : errorTexts.length > 0 ∧ errorTexts.length = errorLines.length
  · obtain ⟨ms2, hloop⟩ := lintErrorsLoop_calls env tpl isMain errorTexts errorLines ed ms hE.2
    have h0 : 0 < errorLines.length := by omega
    simp only [if_pos hE]
    rw [hloop, QList.at_of_lt errorLines 0 h0]
    refine ⟨_, ms2, rfl, errorLines.get ⟨0, h0⟩, ?_, ?_⟩
    · cases errorLines with
      | nil => simp at h0
      | cons a as => rfl
    · simp [Editor.setParseError, Editor.call]
  · simp only [if_neg hE]
    exact ⟨_, ms, rfl, rfl⟩

theorem getActiveEditor_setEditor (w : MainWindow) (pane : Pane) (e e2 : Editor)
    (h : w.getActiveEditor = some (pane, e)) :
    (w.setEditor pane e2).getActiveEditor = some (pane, e2) := by
  unfold MainWindow.getActiveEditor at h ⊢
  cases hs : w.editorTabsSplit.getActiveEditor with
  | none =>
    rw [hs] at h
    cases hm : w.editorTabs.getActiveEditor with
    | none => simp [hm] at h
    | some em =>
      simp only [hm, Option.map_some', Option.some.injEq, Prod.mk.injEq] at h
      obtain ⟨rfl, rfl⟩ := h
      simp [MainWindow.setEditor, hs, getActiveEditor_setActiveEditor _ _ e2 hm]
  | some es =>
    rw [hs] at h
    cases ha : w.isSplitActive with
    | true =>
      simp only [ha, if_true, Option.some.injEq, Prod.mk.injEq] at h
      obtain ⟨rfl, rfl⟩ := h
      simp [MainWindow.setEditor, ha, getActiveEditor_setActiveEditor _ _ e2 hs]
    | false =>
      simp only [ha] at h
      cases hm : w.editorTabs.getActiveEditor with
      | none => simp [hm] at h
      | some em =>
        simp [hm] at h
        obtain ⟨rfl, rfl⟩ := h
        simp [MainWindow.setEditor, hs, ha, getActiveEditor_setActiveEditor _ _ e2 hm]

theorem getActiveEditor_congr (w w2 : MainWindow) (h1 : w2.editorTabs = w.editorTabs)
    (h2 : w2.editorTabsSplit = w.editorTabsSplit) (h3 : w2.isSplitActive = w.isSplitActive) :
    w2.getActiveEditor = w.getActiveEditor := by
  unfold MainWindow.getActiveEditor
  rw [h1, h2, h3]

theorem setStatusBarText_isSplitActive (env : Env) (w : MainWindow) (t : QString) :
    (setStatusBarText env w t).isSplitActive = w.isSplitActive := by
  unfold setStatusBarText
  split <;> rfl

theorem lintReport_getActiveEditor (env : Env) (w : MainWindow) (isMain : Bool)
    (errorTexts errorLines : List QString) (output : QString) :
    (lintReport env w isMain errorTexts errorLines output).getActiveEditor
      = w.getActiveEditor := by
  apply getActiveEditor_congr
  · exact (lintReport_tabs env w isMain errorTexts errorLines output).1
  · exact (lintReport_tabs env w isMain errorTexts errorLines output).2
  · unfold lintReport
    cases isMain <;>
      (split_ifs <;> simp [MainWindow.setMessagesTab, setStatusBarText_isSplitActive])

theorem lintPopup_getActiveEditor (w : MainWindow) (errorTexts errorLines : List QString) :
    ∃ w2, lintPopup w errorTexts errorLines = some w2
      ∧ w2.getActiveEditor = w.getActiveEditor := by
  unfold lintPopup
  split
  · rename_i h
    rw [QList.at_of_lt errorLines 0 h.2, QList.at_of_lt errorTexts 0 h.1]
    exact ⟨_, rfl, rfl⟩
  · exact ⟨_, rfl, rfl⟩

theorem setStatusBarText_logs (env : Env) (w : MainWindow) (t : QString) :
    (setStatusBarText env w t).calls = w.calls
    ∧ (setStatusBarText env w t).emitted = w.emitted
    ∧ (setStatusBarText env w t).project = w.project := by
  unfold setStatusBarText
  split <;> exact ⟨rfl, rfl, rfl⟩

theorem saveStateBeforeExit_calls (env : Env) (w : MainWindow) :
    saveStateBeforeExit env w
      = { w with calls := w.calls
            ++ [Call.projectSave]
            ++ (if env.settingsGet (qstr "devpack_install_silent") = (qstr "no") then
                  [Call.settingsChange (qstr "devpack_install_silent") (qstr "yes")]
                else [])
            ++ [Call.settingsSave,
                Call.windowSettingsSetValue (qstr "main_window_geometry"),
                Call.windowSettingsSetValue (qstr "main_window_state")]
            ++ (if w.args.length ≤ 1 then
                  [Call.windowSettingsSetValue (qstr "project_path")]
                else []) } := by
  unfold saveStateBeforeExit
  by_cases hs : env.settingsGet (qstr "devpack_install_silent") = (qstr "no")
  · by_cases ha : w.args.length ≤ 1
    · simp only [if_pos hs]
      dsimp only [MainWindow.callOut]
      simp only [if_pos ha, List.append_assoc, List.cons_append, List.nil_append]
    · simp only [if_pos hs]
      dsimp only [MainWindow.callOut]
      simp only [if_neg ha, List.append_assoc, List.cons_append, List.nil_append,
        List.append_nil]
  · by_cases ha : w.args.length ≤ 1
    · simp only [if_neg hs]
      dsimp only [MainWindow.callOut]
      simp only [if_pos ha, List.append_assoc, List.cons_append, List.nil_append]
    · simp only [if_neg hs]
      dsimp only [MainWindow.callOut]
      simp only [if_neg ha, List.append_assoc, List.cons_append, List.nil_append,
        List.append_nil]

theorem tabs_getActiveEditor_mem (t : EditorTabs) (e : Editor)
    (h : t.getActiveEditor = some e) : e ∈ t.editors := by
  unfold EditorTabs.getActiveEditor at h
  cases hc : t.current with
  | none => rw [hc] at h; cases h
  | some i =>
    rw [hc] at h
    obtain ⟨hi, rfl⟩ := List.getElem?_eq_some.mp h
    exact List.getElem_mem ..

theorem getActiveEditor_mem (w : MainWindow) (p : Pane) (e : Editor)
    (h : w.getActiveEditor = some (p, e)) : e ∈ w.documents := by
  unfold MainWindow.documents
  unfold MainWindow.getActiveEditor at h
  have hmain : ∀ q, w.editorTabs.getActiveEditor.map (fun e => (Pane.main, e)) = some (q, e) →
      e ∈ w.editorTabs.editors := by
    intro q hq
    cases hm : w.editorTabs.getActiveEditor with
    | none => rw [hm] at hq; cases hq
    | some e1 =>
      rw [hm] at hq
      simp only [Option.map_some', Option.some.injEq, Prod.mk.injEq] at hq
      exact tabs_getActiveEditor_mem _ _ (hq.2 ▸ hm)
  cases hs : w.editorTabsSplit.getActiveEditor with
  | none =>
    rw [hs] at h
    exact List.mem_append_left _ (hmain p h)
  | some es =>
    rw [hs] at h
    dsimp only at h
    by_cases ha : w.isSplitActive = true
    · rw [if_pos ha] at h
      simp only [Option.some.injEq, Prod.mk.injEq] at h
      exact List.mem_append_right _ (tabs_getActiveEditor_mem _ _ (h.2 ▸ hs))
    · rw [if_neg ha] at h
      exact List.mem_append_left _ (hmain p h)

theorem parseLintFinished_result (env : Env) (w : MainWindow) (tabIndex : Int)
    (errorTexts errorLines : List QString) (output : QString) (pane : Pane) (e : Editor)
    (h : w.getActiveEditor = some (pane, e)) (ht : tabIndex = e.tabIndex) :
    ∃ w2 e2, parseLintFinished env w tabIndex errorTexts errorLines output = some w2
      ∧ w2.getActiveEditor = some (pane, e2)
      ∧ e2.docId = e.docId
      ∧ (if errorTexts.length > 0 ∧ errorTexts.length = errorLines.length then
          ∃ first, errorLines.head? = some first
            ∧ e2.parseError = true
            ∧ e2.calls = e.calls ++ [EditorCall.clearErrors]
                ++ (List.zip errorLines errorTexts).map
                    (fun p => EditorCall.setError (env.toInt p.1) p.2)
                ++ [EditorCall.setParseError true, EditorCall.gotoLine (env.toInt first),
                    EditorCall.highlightErrorLine (env.toInt first),
                    EditorCall.updateMarksAndMapArea]
         else e2.parseError = false
            ∧ e2.calls = e.calls ++ [EditorCall.clearErrors, EditorCall.setParseError false,
                EditorCall.updateMarksAndMapArea]) := by
  obtain ⟨ed2, ms2, hmark, hspec⟩ := lintMarkErrors_calls env w.outputMsgErrorTpl
    (decide (pane = Pane.main)) errorTexts errorLines (e.call EditorCall.clearErrors)
    w.messagesTab
  obtain ⟨w2, hw2, hact⟩ := lintPopup_getActiveEditor
    (lintReport env ((w.setMessagesTab ms2).setEditor pane
      (ed2.call EditorCall.updateMarksAndMapArea)) (decide (pane = Pane.main))
      errorTexts errorLines output) errorTexts errorLines
  refine ⟨w2, ed2.call EditorCall.updateMarksAndMapArea, ?_, ?_, ?_, ?_⟩
  · unfold parseLintFinished
    simp only [h, ht, ne_eq, not_true_eq_false, if_false]
    rw [hmark]
    exact hw2
  · rw [hact, lintReport_getActiveEditor]
    exact getActiveEditor_setEditor _ pane e _ h
  · by_cases hE : errorTexts.length > 0 ∧ errorTexts.length = errorLines.length
    · rw [if_pos hE] at hspec
      obtain ⟨first, _, rfl⟩ := hspec
      rfl
    · rw [if_neg hE] at hspec
      subst hspec
      rfl
  · by_cases hE : errorTexts.length > 0 ∧ errorTexts.length = errorLines.length
    · rw [if_pos hE] at hspec ⊢
      obtain ⟨first, hfirst, rfl⟩ := hspec
      exact ⟨first, hfirst, rfl, by simp [Editor.call]⟩
    · rw [if_neg hE] at hspec ⊢
      subst hspec
      exact ⟨rfl, by simp [Editor.call]⟩

/-! ## Routing of results -/

theorem searchJobFrom_cancelled (files : List SearchFile) (p k : Nat) (hk : k < files.length) :
    searchJobFrom (some (p + k)) p files
      = ((files.take k).map SearchFile.events).flatten ++ [SearchEvent.cancelled] := by
  induction files generalizing p k with
  | nil => simp at hk
  | cons f rest ih =>
    cases k with
    | zero => simp [searchJobFrom]
    | succ k =>
      have hk2 : k < rest.length := by simpa using hk
      have hne : ¬ (p + (k + 1) = p) := by omega
      have ih2 := ih (p + 1) k hk2
      have he : p + 1 + k = p + (k + 1) := by omega
      rw [he] at ih2
      simp [searchJobFrom, hne, ih2]

theorem requestAll_emitted (request : MainWindow → Int → QString → MainWindow)
    (enabled : MainWindow → Bool) (job : Int → QString → Job)
    (h : ∀ w i t, request w i t = if !enabled w then w else w.emit (job i t))
    (he : ∀ w j, enabled (w.emit j) = enabled w)
    (w : MainWindow) (index : Int) (texts : List QString) :
    (requestAll request w index texts).emitted
      = w.emitted ++ (if enabled w then texts.map (job index) else []) := by
  induction texts generalizing w with
  | nil => simp [requestAll]
  | cons t ts ih =>
    have ih2 := ih (request w index t)
    unfold requestAll at ih2 ⊢
    rw [List.foldl_cons, ih2]
    cases hen : enabled w
    · have hr : request w index t = w := by rw [h]; simp [hen]
      rw [hr, hen]
      simp
    · have hr : request w index t = w.emit (job index t) := by rw [h]; simp [hen]
      rw [hr, he, hen]
      simp [MainWindow.emit]

theorem prefix_emitted_ite (l : List Job) (c : Prop) [Decidable c] (a b : MainWindow)
    (ha : l <+: a.emitted) (hb : l <+: b.emitted) : l <+: (if c then a else b).emitted := by
  split
  · exact ha
  · exact hb

theorem prefix_emitted_emit (l : List Job) (x : MainWindow) (j : Job)
    (h : l <+: x.emitted) : l <+: (x.emit j).emitted :=
  h.trans (List.prefix_append _ _)

theorem parseTab_emitted_prefix (env : Env) (w : MainWindow) :
    w.emitted <+: (parseTab env w).emitted := by
  unfold parseTab
  split
  · exact List.prefix_refl _
  · split
    · exact List.prefix_refl _
    · dsimp only
      repeat' first
        | exact List.prefix_refl _
        | apply prefix_emitted_ite
        | apply prefix_emitted_emit

/-- C1: each of the five result handlers returns the window unchanged when the
editor it consults is missing or has a tab index other than the result's: the
active editor of the window (split-aware) for `parseLintFinished` and
`parsePHPCSFinished`, the active editor of the main tab set for
`parseMixedFinished`, `parseJSFinished` and `parseCSSFinished`. -/
theorem stale_results_change_nothing (env : Env) (w : MainWindow) (tabIndex : Int)
    (errorTexts errorLines : List QString) (output : QString) (result : ParseResult) :
    ((w.getActiveEditor = none
        ∨ ∃ p e, w.getActiveEditor = some (p, e) ∧ tabIndex ≠ e.tabIndex) →
      parseLintFinished env w tabIndex errorTexts errorLines output = some w
      ∧ parsePHPCSFinished env w tabIndex errorTexts errorLines = some w)
    ∧ ((w.editorTabs.getActiveEditor = none
        ∨ ∃ e, w.editorTabs.getActiveEditor = some e ∧ tabIndex ≠ e.tabIndex) →
      parseMixedFinished w tabIndex result = some w
      ∧ parseJSFinished w tabIndex result = some w
      ∧ parseCSSFinished w tabIndex result = some w) := by
  constructor
  · rintro (h | ⟨p, e, h, hne⟩)
    · simp [parseLintFinished, parsePHPCSFinished, h]
    · simp [parseLintFinished, parsePHPCSFinished, h, hne]
  · rintro (h | ⟨e, h, hne⟩)
    · simp [parseMixedFinished, parseJSFinished, parseCSSFinished, h]
    · simp [parseMixedFinished, parseJSFinished, parseCSSFinished, h, hne]

/-- Witness for C1: with the split tab set active on tab 0 and the main tab set
on tab 1, a result for tab 2 is dropped by all five handlers. -/
theorem stale_results_change_nothing_witness :
    (parseLintFinished sampleEnv splitWindow 2 [(qstr "e")] [(qstr "3")] [] = some splitWindow
      ∧ parsePHPCSFinished sampleEnv splitWindow 2 [(qstr "e")] [(qstr "3")] = some splitWindow)
    ∧ (parseMixedFinished splitWindow 2 ⟨[⟨(qstr "e"), 3, 0⟩], []⟩ = some splitWindow
      ∧ parseJSFinished splitWindow 2 ⟨[⟨(qstr "e"), 3, 0⟩], []⟩ = some splitWindow
      ∧ parseCSSFinished splitWindow 2 ⟨[⟨(qstr "e"), 3, 0⟩], []⟩ = some splitWindow) :=
  ⟨(stale_results_change_nothing sampleEnv splitWindow 2 [(qstr "e")] [(qstr "3")] []
      ⟨[⟨(qstr "e"), 3, 0⟩], []⟩).1
      (Or.inr ⟨Pane.split, sampleEditor 2 0, by decide, by decide⟩),
   (stale_results_change_nothing sampleEnv splitWindow 2 [(qstr "e")] [(qstr "3")] []
      ⟨[⟨(qstr "e"), 3, 0⟩], []⟩).2
      (Or.inr ⟨sampleEditor 1 1, by decide, by decide⟩)⟩

/-- C2, as stated, fails: document 1, the owner of a Lint job for tab 0, was
closed; document 2 is now active with tab index 0; the Lint result for tab 0 is
applied to document 2. -/
theorem lint_result_applied_to_reused_index :
    (∀ d ∈ reusedIndexWindow.documents, d.docId ≠ 1)
    ∧ ∃ w2, parseLintFinished sampleEnv reusedIndexWindow 0 [(qstr "syntax error")]
          [(qstr "3")] [] = some w2
        ∧ w2.documents =
            [{ sampleEditor 2 0 with
                parseError := true
                calls := [EditorCall.clearErrors,
                          EditorCall.setError 3 (qstr "syntax error"),
                          EditorCall.setParseError true,
                          EditorCall.gotoLine 3,
                          EditorCall.highlightErrorLine 3,
                          EditorCall.updateMarksAndMapArea] }]
        ∧ w2.documents ≠ reusedIndexWindow.documents := by
  refine ⟨by decide, _, rfl, by decide, by decide⟩

/-- C2, amended: when the owner of a Lint result is no longer open,
`parseLintFinished` returns; it changes nothing if no editor is active or the
active editor has another tab index than the result; if the active editor has
the tab index of the result, the result is applied to that editor, a document
other than the owner: it receives `clearErrors`, the errors of the result and
the parse-error flag as any Lint result sets them, and every other open document
is left as it was. -/
theorem lint_result_reaches_active_editor_only (env : Env) (w : MainWindow) (ownerId : Nat)
    (tabIndex : Int) (errorTexts errorLines : List QString) (output : QString)
    (hclosed : ∀ d ∈ w.documents, d.docId ≠ ownerId) :
    ∃ w2, parseLintFinished env w tabIndex errorTexts errorLines output = some w2
      ∧ ((w.getActiveEditor = none
          ∨ ∃ p e, w.getActiveEditor = some (p, e) ∧ tabIndex ≠ e.tabIndex) → w2 = w)
      ∧ (∀ p e, w.getActiveEditor = some (p, e) → w2.documentsBut p = w.documentsBut p)
      ∧ (∀ p e, w.getActiveEditor = some (p, e) → tabIndex = e.tabIndex →
          ∃ e2, w2.getActiveEditor = some (p, e2)
            ∧ e2.docId = e.docId ∧ e2.docId ≠ ownerId
            ∧ (if errorTexts.length > 0 ∧ errorTexts.length = errorLines.length then
                ∃ first, errorLines.head? = some first
                  ∧ e2.parseError = true
                  ∧ e2.calls = e.calls ++ [EditorCall.clearErrors]
                      ++ (List.zip errorLines errorTexts).map
                          (fun p => EditorCall.setError (env.toInt p.1) p.2)
                      ++ [EditorCall.setParseError true, EditorCall.gotoLine (env.toInt first),
                          EditorCall.highlightErrorLine (env.toInt first),
                          EditorCall.updateMarksAndMapArea]
               else e2.parseError = false
                  ∧ e2.calls = e.calls ++ [EditorCall.clearErrors,
                      EditorCall.setParseError false, EditorCall.updateMarksAndMapArea])) := by
  cases h : w.getActiveEditor with
  | none =>
    refine ⟨w, by simp [parseLintFinished, h], fun _ => rfl, ?_, ?_⟩
    · intro p e hpe
      cases hpe
    · intro p e hpe
      cases hpe
  | some pe =>
    obtain ⟨p, e⟩ := pe
    by_cases ht : tabIndex = e.tabIndex
    · obtain ⟨w2, hw2, hdoc⟩ :=
        parseLintFinished_applied env w tabIndex errorTexts errorLines output p e h ht
      obtain ⟨w3, e2, hw3, hact, hid, hcalls⟩ :=
        parseLintFinished_result env w tabIndex errorTexts errorLines output p e h ht
      have h23 : w3 = w2 := Option.some.inj (hw3.symm.trans hw2)
      subst h23
      refine ⟨w3, hw2, ?_, ?_, ?_⟩
      · rintro (h0 | ⟨p2, e2, h2, hne⟩)
        · cases h0
        · cases h2
          exact absurd ht hne
      · intro p2 e2 h2
        cases h2
        exact hdoc
      · intro p2 e3 h2 _
        cases h2
        exact ⟨e2, hact, hid, hid ▸ hclosed e (getActiveEditor_mem w p e h), hcalls⟩
    · refine ⟨w, by simp [parseLintFinished, h, ht], fun _ => rfl, fun _ _ _ => rfl, ?_⟩
      intro p2 e2 h2 ht2
      cases h2
      exact absurd ht2 ht

/-- Witness for C2, amended: the closed owner is document 1 and the result
reaches the window in which document 2 is active with tab index 0; document 2
receives the error of the result. -/
theorem lint_result_reaches_active_editor_only_witness :
    (∀ d ∈ reusedIndexWindow.documents, d.docId ≠ 1)
    ∧ ∃ w2, parseLintFinished sampleEnv reusedIndexWindow 0 [(qstr "syntax error")]
        [(qstr "3")] [] = some w2
      ∧ ((reusedIndexWindow.getActiveEditor = none
          ∨ ∃ p e, reusedIndexWindow.getActiveEditor = some (p, e) ∧ (0 : Int) ≠ e.tabIndex)
          → w2 = reusedIndexWindow)
      ∧ (∀ p e, reusedIndexWindow.getActiveEditor = some (p, e) →
          w2.documentsBut p = reusedIndexWindow.documentsBut p)
      ∧ (∀ p e, reusedIndexWindow.getActiveEditor = some (p, e) → (0 : Int) = e.tabIndex →
          ∃ e2, w2.getActiveEditor = some (p, e2)
            ∧ e2.docId = e.docId ∧ e2.docId ≠ 1
            ∧ (if [(qstr "syntax error")].length > 0
                  ∧ [(qstr "syntax error")].length = [(qstr "3")].length then
                ∃ first, [(qstr "3")].head? = some first
                  ∧ e2.parseError = true
                  ∧ e2.calls = e.calls ++ [EditorCall.clearErrors]
                      ++ (List.zip [(qstr "3")] [(qstr "syntax error")]).map
                          (fun p => EditorCall.setError (sampleEnv.toInt p.1) p.2)
                      ++ [EditorCall.setParseError true,
                          EditorCall.gotoLine (sampleEnv.toInt first),
                          EditorCall.highlightErrorLine (sampleEnv.toInt first),
                          EditorCall.updateMarksAndMapArea]
               else e2.parseError = false
                  ∧ e2.calls = e.calls ++ [EditorCall.clearErrors,
                      EditorCall.setParseError false, EditorCall.updateMarksAndMapArea])) :=
  ⟨by decide,
    lint_result_reaches_active_editor_only sampleEnv reusedIndexWindow 1 0
      [(qstr "syntax error")] [(qstr "3")] [] (by decide)⟩

/-- C3, as stated, fails: two `editorParseCSSRequested` calls for tab 5, made
before the worker takes anything, leave two jobs of the same kind and owner in
the worker's queue; the earlier one is not superseded.  Likewise two `parseTab`
calls for one tab queue each of their jobs twice. -/
theorem earlier_submission_stays_queued :
    (editorParseCSSRequested (editorParseCSSRequested emptyWindow 5 (qstr ".a")) 5
        (qstr ".b")).emitted
      = [Job.parseCSS 5 (qstr ".a"), Job.parseCSS 5 (qstr ".b")]
    ∧ (Job.parseCSS 5 (qstr ".a")).kind = (Job.parseCSS 5 (qstr ".b")).kind
    ∧ (Job.parseCSS 5 (qstr ".a")).owner = (Job.parseCSS 5 (qstr ".b")).owner
    ∧ (editorParseCSSRequested (editorParseCSSRequested emptyWindow 5 (qstr ".a")) 5
        (qstr ".b")).emitted
      ≠ [Job.parseCSS 5 (qstr ".b")]
    ∧ (parseTab sampleEnv (parseTab sampleEnv reusedIndexWindow)).emitted
      = [Job.parseLint 0 (qstr "a.php"), Job.parseMixed 0 [], Job.parsePHPCS 0 (qstr "a.php"),
         Job.parseLint 0 (qstr "a.php"), Job.parseMixed 0 [], Job.parsePHPCS 0 (qstr "a.php")] := by
  decide

/-- C3, amended: every submission made through `editorParsePHPRequested`,
`editorParseJSRequested` or `editorParseCSSRequested` while its parser is
enabled is emitted to the worker as a job of its own: after a sequence of
submissions for one tab the queue holds all of them, in submission order, after
what it held before; with the parser disabled nothing is emitted.  `parseTab`
too only adds to the queue: what was queued before stays queued, in place. -/
theorem every_submission_is_queued (env : Env) (w : MainWindow) (index : Int)
    (texts : List QString) :
    (requestAll editorParsePHPRequested w index texts).emitted
        = w.emitted ++ (if w.parsePHPEnabled then texts.map (Job.parseMixed index) else [])
    ∧ (requestAll editorParseJSRequested w index texts).emitted
        = w.emitted ++ (if w.parseJSEnabled then texts.map (Job.parseJS index) else [])
    ∧ (requestAll editorParseCSSRequested w index texts).emitted
        = w.emitted ++ (if w.parseCSSEnabled then texts.map (Job.parseCSS index) else [])
    ∧ w.emitted <+: (parseTab env w).emitted :=
  ⟨requestAll_emitted editorParsePHPRequested (fun w => w.parsePHPEnabled) Job.parseMixed
      (fun _ _ _ => rfl) (fun _ _ => rfl) w index texts,
   requestAll_emitted editorParseJSRequested (fun w => w.parseJSEnabled) Job.parseJS
      (fun _ _ _ => rfl) (fun _ _ => rfl) w index texts,
   requestAll_emitted editorParseCSSRequested (fun w => w.parseCSSEnabled) Job.parseCSS
      (fun _ _ _ => rfl) (fun _ _ => rfl) w index texts,
   parseTab_emitted_prefix env w⟩

/-- C8: a Search job whose cancel request is seen after `k` of its files were
processed, with files left, delivers exactly the matches of those `k` files, in
order, and then the Cancelled marker; the Finished marker is not delivered. -/
theorem cancelled_search_ends_with_cancelled (files : List SearchFile) (k : Nat)
    (hk : k < files.length) :
    searchJob files (some k)
        = ((files.take k).map SearchFile.events).flatten ++ [SearchEvent.cancelled]
    ∧ SearchEvent.finished ∉ searchJob files (some k) := by
  have h := searchJobFrom_cancelled files 0 k hk
  rw [Nat.zero_add] at h
  unfold searchJob
  rw [h]
  refine ⟨rfl, ?_⟩
  simp only [List.mem_append, List.mem_flatten, List.mem_singleton, not_or]
  refine ⟨?_, by simp⟩
  rintro ⟨x, hx, hfin⟩
  obtain ⟨f, _, rfl⟩ := List.mem_map.mp hx
  simp [SearchFile.events] at hfin

/-- Witness for C8: three files, cancelled after the second one. -/
theorem cancelled_search_ends_with_cancelled_witness :
    searchJob sampleFiles (some 2)
        = [SearchEvent.found (qstr "a.php") (qstr "// TODO a") 3 3,
           SearchEvent.found (qstr "b.php") (qstr "// TODO b") 7 3,
           SearchEvent.cancelled]
    ∧ SearchEvent.finished ∉ searchJob sampleFiles (some 2) :=
  cancelled_search_ends_with_cancelled sampleFiles 2 (by decide)

/-! ## Search results -/

/-- C4: the text of the item that `searchInFilesFound` adds is built from the
line text cut to its first 300 characters followed by `...` when the line is
longer than 300 characters, and from the whole line text otherwise; that part
of the entry, trimmed or not, is at most 303 characters long.  Characters are
counted as `QString::size()` counts them, in `QChar`s (UTF-16 code units). -/
theorem searchInFilesFound_text_cut (env : Env) (w : MainWindow) (file lineText : QString)
    (line symbol : Int) :
    ∃ item cut,
      (searchInFilesFound env w file lineText line symbol).searchList
        = w.searchList ++ [item]
      ∧ cut = (if lineText.length > 300 then lineText.take 300 ++ [qchar '.', qchar '.', qchar '.']
               else lineText)
      ∧ item.text =
          (if file.length > 0 ∧ line > 0 ∧ symbol ≥ 0 then
            env.intToStr ((w.searchList.length : Int) + 1) ++ [qchar '.', qchar ' ', qchar '[']
              ++ env.fileName file ++ [qchar ':'] ++ env.intToStr line ++ [qchar ']', qchar ' ']
              ++ trimmed env cut
           else cut)
      ∧ cut.length ≤ 303 ∧ (trimmed env cut).length ≤ 303 := by
  refine ⟨_, searchLineText lineText, rfl, rfl, rfl, searchLineText_length_le lineText, ?_⟩
  exact le_trans (trimmed_length_le env _) (searchLineText_length_le lineText)

/-- C5: the item that `searchInFilesFound` stores carries exactly the given
file, line number and column, whatever the line text is. -/
theorem searchInFilesFound_keeps_location (env : Env) (w : MainWindow)
    (file lineText : QString) (line symbol : Int) :
    ∃ item,
      (searchInFilesFound env w file lineText line symbol).searchList.getLast? = some item
      ∧ item.file = file ∧ item.line = line ∧ item.symbol = symbol ∧ item.toolTip = file := by
  simp [searchInFilesFound]

/-- C6: every `searchInFilesFound` appends exactly one item after the items
already in the list, `searchInFilesFinished` removes none, and after a sequence
of found events the list holds their locations in delivery order after what it
held before. -/
theorem search_results_append_only (env : Env) (w : MainWindow) (ms : List Found)
    (file lineText : QString) (line symbol : Int) :
    (∃ item, (searchInFilesFound env w file lineText line symbol).searchList
        = w.searchList ++ [item])
    ∧ w.searchList <+: (searchInFilesFinished env w).searchList
    ∧ (searchInFilesFoundAll env w ms).searchList.map (fun i => (i.file, i.line, i.symbol))
        = w.searchList.map (fun i => (i.file, i.line, i.symbol))
          ++ ms.map (fun m => (m.file, m.line, m.symbol)) := by
  refine ⟨⟨_, rfl⟩, ?_, ?_⟩
  · unfold searchInFilesFinished
    simp only [setStatusBarText_searchList]
    split
    · exact List.prefix_append _ _
    · exact List.prefix_refl _
  · induction ms using List.reverseRecOn with
    | nil => simp [searchInFilesFoundAll]
    | append_singleton ms m ih =>
      rw [searchInFilesFoundAll_append]
      simp [searchInFilesFound, ih]

/-- C7: `searchInFilesFinished` adds the "No results" item exactly when the
list is empty; that item has an empty file, line -1 and column -1, and a double
click on it changes nothing (no file is opened, no cursor is moved). -/
theorem searchInFilesFinished_placeholder (env : Env) (w w2 : MainWindow) :
    (searchInFilesFinished env w).searchList
        = (if w.searchList = [] then [noResultsItem] else w.searchList)
    ∧ ((searchInFilesFinished env w).searchList = w.searchList ++ [noResultsItem]
        ↔ w.searchList = [])
    ∧ noResultsItem.file = [] ∧ noResultsItem.line = -1 ∧ noResultsItem.symbol = -1
    ∧ searchListItemDoubleClicked env w2 noResultsItem = w2 := by
  have h : (searchInFilesFinished env w).searchList
        = (if w.searchList = [] then [noResultsItem] else w.searchList) := by
    unfold searchInFilesFinished
    simp only [setStatusBarText_searchList]
    by_cases hl : w.searchList = []
    · simp [hl]
    · have : w.searchList.length ≠ 0 := by simpa using hl
      simp [hl]
  refine ⟨h, ?_, rfl, rfl, rfl, ?_⟩
  · rw [h]
    by_cases hl : w.searchList = []
    · simp [hl]
    · simp [hl]
  · simp [searchListItemDoubleClicked, noResultsItem]

/-! ## Scan progress -/

/-- C9: `sidebarProgressChanged v` sets the bar to `v` when `0 ≤ v ≤ 100` and
leaves its value alone otherwise; so a value within 0..100 stays within 0..100,
also over any sequence of progress reports. -/
theorem sidebarProgressChanged_value (w : MainWindow) (v : Int) (vs : List Int) :
    (sidebarProgressChanged w v).sidebarProgressValue
        = (if 0 ≤ v ∧ v ≤ 100 then v else w.sidebarProgressValue)
    ∧ ((0 ≤ w.sidebarProgressValue ∧ w.sidebarProgressValue ≤ 100) →
        0 ≤ (vs.foldl sidebarProgressChanged w).sidebarProgressValue
        ∧ (vs.foldl sidebarProgressChanged w).sidebarProgressValue ≤ 100) := by
  have h1 : ∀ (w : MainWindow) (v : Int), (sidebarProgressChanged w v).sidebarProgressValue
        = (if 0 ≤ v ∧ v ≤ 100 then v else w.sidebarProgressValue) := by
    intro w v
    unfold sidebarProgressChanged
    by_cases hv : 0 ≤ v ∧ v ≤ 100
    · simp [hv]
    · have hv2 : ¬ (v ≥ 0 ∧ v ≤ 100) := hv
      simp only [hv, hv2, if_false]
      split <;> rfl
  refine ⟨h1 w v, ?_⟩
  induction vs generalizing w with
  | nil => intro h; exact h
  | cons a vs ih =>
    intro h
    apply ih
    rw [h1]
    split
    · assumption
    · exact h

/-- Witness for C9: from the bar at 0, the report 150 is dropped, and after the
reports 10, 150, -3 and 100 the bar is within range. -/
theorem sidebarProgressChanged_value_witness :
    (sidebarProgressChanged emptyWindow 150).sidebarProgressValue
        = (if (0 : Int) ≤ 150 ∧ (150 : Int) ≤ 100 then 150 else emptyWindow.sidebarProgressValue)
    ∧ 0 ≤ ([10, 150, -3, 100].foldl sidebarProgressChanged emptyWindow).sidebarProgressValue
    ∧ ([10, 150, -3, 100].foldl sidebarProgressChanged emptyWindow).sidebarProgressValue ≤ 100 :=
  ⟨(sidebarProgressChanged_value emptyWindow 150 [10, 150, -3, 100]).1,
   (sidebarProgressChanged_value emptyWindow 150 [10, 150, -3, 100]).2 (by decide)⟩

/-- C10: after `parseProjectFinished`, whatever its two flags, the sidebar
scan-progress widget is not visible. -/
theorem parseProjectFinished_hides_progress (env : Env) (w : MainWindow)
    (success isModified : Bool) :
    (parseProjectFinished env w success isModified).sidebarProgressVisible = false := by
  have key : ∀ X : MainWindow,
      ((if X.sidebarProgressVisible then { X with sidebarProgressVisible := false }
        else X).callOut Call.initHighlighters).sidebarProgressVisible = false := by
    intro X
    cases h : X.sidebarProgressVisible <;> simp [MainWindow.callOut, h]
  unfold parseProjectFinished
  dsimp only
  split
  · exact key _
  · exact key _

/-! ## Results addressed to the active tab -/

/-- C15: for a Lint result addressed to the active tab, `parseLintFinished`
returns and the active editor stays the active editor; if the error texts are
not empty and as many as the error lines, the editor received `clearErrors`,
then `setError` for every (line, text) pair in order, then
`setParseError(true)`, `gotoLine` and `highlightErrorLine` with the first
error's line, and its parse-error flag is set; in every other case it received
`clearErrors` and `setParseError(false)`, no `setError`, and the flag is clear. -/
theorem lint_result_sets_errors (env : Env) (w : MainWindow) (tabIndex : Int)
    (errorTexts errorLines : List QString) (output : QString) (pane : Pane) (e : Editor)
    (h : w.getActiveEditor = some (pane, e)) (ht : tabIndex = e.tabIndex) :
    ∃ w2 e2, parseLintFinished env w tabIndex errorTexts errorLines output = some w2
      ∧ w2.getActiveEditor = some (pane, e2)
      ∧ (if errorTexts.length > 0 ∧ errorTexts.length = errorLines.length then
          ∃ first, errorLines.head? = some first
            ∧ e2.parseError = true
            ∧ e2.calls = e.calls ++ [EditorCall.clearErrors]
                ++ (List.zip errorLines errorTexts).map
                    (fun p => EditorCall.setError (env.toInt p.1) p.2)
                ++ [EditorCall.setParseError true, EditorCall.gotoLine (env.toInt first),
                    EditorCall.highlightErrorLine (env.toInt first),
                    EditorCall.updateMarksAndMapArea]
         else e2.parseError = false
            ∧ e2.calls = e.calls ++ [EditorCall.clearErrors, EditorCall.setParseError false,
                EditorCall.updateMarksAndMapArea]) := by
  obtain ⟨ed2, ms2, hmark, hspec⟩ := lintMarkErrors_calls env w.outputMsgErrorTpl
    (decide (pane = Pane.main)) errorTexts errorLines (e.call EditorCall.clearErrors)
    w.messagesTab
  obtain ⟨w2, hw2, hact⟩ := lintPopup_getActiveEditor
    (lintReport env ((w.setMessagesTab ms2).setEditor pane
      (ed2.call EditorCall.updateMarksAndMapArea)) (decide (pane = Pane.main))
      errorTexts errorLines output) errorTexts errorLines
  refine ⟨w2, ed2.call EditorCall.updateMarksAndMapArea, ?_, ?_, ?_⟩
  · unfold parseLintFinished
    simp only [h, ht, ne_eq, not_true_eq_false, if_false]
    rw [hmark]
    exact hw2
  · rw [hact, lintReport_getActiveEditor]
    exact getActiveEditor_setEditor _ pane e _ h
  · by_cases hE : errorTexts.length > 0 ∧ errorTexts.length = errorLines.length
    · rw [if_pos hE] at hspec ⊢
      obtain ⟨first, hfirst, rfl⟩ := hspec
      exact ⟨first, hfirst, rfl, by simp [Editor.call]⟩
    · rw [if_neg hE] at hspec ⊢
      subst hspec
      exact ⟨rfl, by simp [Editor.call]⟩

/-- Witness for C15: a Lint result with one error for tab 0, document 2 being
active in tab 0. -/
theorem lint_result_sets_errors_witness :
    ∃ w2 e2, parseLintFinished sampleEnv reusedIndexWindow 0 [(qstr "syntax error")]
        [(qstr "3")] [] = some w2
      ∧ w2.getActiveEditor = some (Pane.main, e2)
      ∧ (if [(qstr "syntax error")].length > 0
            ∧ [(qstr "syntax error")].length = [(qstr "3")].length then
          ∃ first, [(qstr "3")].head? = some first
            ∧ e2.parseError = true
            ∧ e2.calls = (sampleEditor 2 0).calls ++ [EditorCall.clearErrors]
                ++ (List.zip [(qstr "3")] [(qstr "syntax error")]).map
                    (fun p => EditorCall.setError (sampleEnv.toInt p.1) p.2)
                ++ [EditorCall.setParseError true, EditorCall.gotoLine (sampleEnv.toInt first),
                    EditorCall.highlightErrorLine (sampleEnv.toInt first),
                    EditorCall.updateMarksAndMapArea]
         else e2.parseError = false
            ∧ e2.calls = (sampleEditor 2 0).calls ++ [EditorCall.clearErrors,
                EditorCall.setParseError false, EditorCall.updateMarksAndMapArea]) :=
  lint_result_sets_errors sampleEnv reusedIndexWindow 0 [(qstr "syntax error")]
    [(qstr "3")] [] Pane.main (sampleEditor 2 0) (by decide) (by decide)

/-- C16: for a ParseJS or ParseCSS result addressed to the active tab of the main
tab set, the handler returns, and the editor received `clearErrors`, then for
every error of the result, in order, `setError` with its line and text (and
`highlightError`), then `updateMarksAndMapArea` and `setParseResult`: the errors
it holds are exactly those of the result, none when the result has none. -/
theorem parseJS_CSS_result_sets_errors (w : MainWindow) (tabIndex : Int) (result : ParseResult)
    (e : Editor) (h : w.editorTabs.getActiveEditor = some e) (ht : tabIndex = e.tabIndex) :
    ∃ w2 e2, parseJSFinished w tabIndex result = some w2
      ∧ parseCSSFinished w tabIndex result = some w2
      ∧ w2.editorTabs.getActiveEditor = some e2
      ∧ e2.calls = e.calls ++ [EditorCall.clearErrors] ++ result.errors.flatMap resultErrorCalls
          ++ [EditorCall.updateMarksAndMapArea, EditorCall.setParseResult result]
      ∧ errorsOf e2.calls = result.errors.map (fun er => (er.line, er.text))
      ∧ (result.errors = [] → errorsOf e2.calls = []) := by
  have key : ∀ f : MainWindow → Int → ParseResult → Option MainWindow,
      (f = parseJSFinished ∨ f = parseCSSFinished) →
      f w tabIndex result = some
        { (w.setEditor Pane.main
            { e with calls := e.calls ++ [EditorCall.clearErrors]
                ++ result.errors.flatMap resultErrorCalls
                ++ [EditorCall.updateMarksAndMapArea, EditorCall.setParseResult result] })
          with navigator := some result, quickAccess := some (result, e.fileName) } := by
    rintro f (rfl | rfl)
    · unfold parseJSFinished
      simp only [h, ht, ne_eq, not_true_eq_false, if_false]
      by_cases hne : result.errors.length = 0
      · have hnil : result.errors = [] := List.length_eq_zero.mp hne
        simp [hnil, Editor.call]
      · simp [hne, setResultErrors_eq, Editor.call]
    · unfold parseCSSFinished
      simp only [h, ht, ne_eq, not_true_eq_false, if_false]
      by_cases hne : result.errors.length = 0
      · have hnil : result.errors = [] := List.length_eq_zero.mp hne
        simp [hnil, Editor.call]
      · simp [hne, setResultErrors_eq, Editor.call]
  refine ⟨_, { e with calls := e.calls ++ [EditorCall.clearErrors]
      ++ result.errors.flatMap resultErrorCalls
      ++ [EditorCall.updateMarksAndMapArea, EditorCall.setParseResult result] },
    key _ (Or.inl rfl), key _ (Or.inr rfl), ?_, rfl, ?_, ?_⟩
  · exact getActiveEditor_setActiveEditor _ e _ h
  · exact errorsOf_result _ _ _ (by simp)
  · intro hnil
    rw [errorsOf_result _ _ _ (by simp), hnil]
    rfl

/-- Witness for C16: a result without errors for tab 0, document 2 being active
in tab 0 of the main tab set. -/
theorem parseJS_CSS_result_sets_errors_witness :
    ∃ w2 e2, parseJSFinished reusedIndexWindow 0 ⟨[], []⟩ = some w2
      ∧ parseCSSFinished reusedIndexWindow 0 ⟨[], []⟩ = some w2
      ∧ w2.editorTabs.getActiveEditor = some e2
      ∧ e2.calls = (sampleEditor 2 0).calls ++ [EditorCall.clearErrors]
          ++ ([] : List ParseResultError).flatMap resultErrorCalls
          ++ [EditorCall.updateMarksAndMapArea, EditorCall.setParseResult ⟨[], []⟩]
      ∧ errorsOf e2.calls = ([] : List ParseResultError).map (fun er => (er.line, er.text))
      ∧ (([] : List ParseResultError) = [] → errorsOf e2.calls = []) :=
  parseJS_CSS_result_sets_errors reusedIndexWindow 0 ⟨[], []⟩ (sampleEditor 2 0)
    (by decide) (by decide)

/-- C17: for a ParseMixed result addressed to the active tab, the editor
receives `clearErrors` and the result's errors exactly when its parse-error flag
is not set; in both cases it then receives `setParseResult` with the result, and
the navigator and the quick-access panel are given the result. -/
theorem parseMixed_result_applied (w : MainWindow) (tabIndex : Int) (result : ParseResult)
    (e : Editor) (h : w.editorTabs.getActiveEditor = some e) (ht : tabIndex = e.tabIndex) :
    ∃ w2 e2, parseMixedFinished w tabIndex result = some w2
      ∧ w2.editorTabs.getActiveEditor = some e2
      ∧ e2.calls =
          (if e.parseError then e.calls ++ [EditorCall.setParseResult result]
           else e.calls ++ [EditorCall.clearErrors] ++ result.errors.flatMap resultErrorCalls
              ++ [EditorCall.updateMarksAndMapArea, EditorCall.setParseResult result])
      ∧ e2.parseError = e.parseError
      ∧ w2.navigator = some result
      ∧ w2.quickAccess = some (result, e.fileName) := by
  have key : parseMixedFinished w tabIndex result = some
      { (w.setEditor Pane.main
          { e with calls :=
              (if e.parseError then e.calls ++ [EditorCall.setParseResult result]
               else e.calls ++ [EditorCall.clearErrors]
                  ++ result.errors.flatMap resultErrorCalls
                  ++ [EditorCall.updateMarksAndMapArea, EditorCall.setParseResult result]) })
        with navigator := some result, quickAccess := some (result, e.fileName) } := by
    unfold parseMixedFinished
    simp only [h, ht, ne_eq, not_true_eq_false, if_false]
    cases hp : e.parseError
    · by_cases hne : result.errors.length = 0
      · have hnil : result.errors = [] := List.length_eq_zero.mp hne
        simp [hnil, Editor.call, hp]
      · simp [hne, setResultErrors_eq, Editor.call, hp]
    · simp [Editor.call, hp]
  refine ⟨_, _, key, getActiveEditor_setActiveEditor _ e _ h, rfl, rfl, rfl, rfl⟩

/-- Witness for C17: a result with one error for tab 0, document 2 being active
in tab 0 with its parse-error flag clear. -/
theorem parseMixed_result_applied_witness :
    ∃ w2 e2, parseMixedFinished reusedIndexWindow 0 ⟨[⟨(qstr "e"), 3, 0⟩], []⟩ = some w2
      ∧ w2.editorTabs.getActiveEditor = some e2
      ∧ e2.calls =
          (if (sampleEditor 2 0).parseError then
            (sampleEditor 2 0).calls
              ++ [EditorCall.setParseResult ⟨[⟨(qstr "e"), 3, 0⟩], []⟩]
           else (sampleEditor 2 0).calls ++ [EditorCall.clearErrors]
              ++ [(⟨(qstr "e"), 3, 0⟩ : ParseResultError)].flatMap resultErrorCalls
              ++ [EditorCall.updateMarksAndMapArea,
                  EditorCall.setParseResult ⟨[⟨(qstr "e"), 3, 0⟩], []⟩])
      ∧ e2.parseError = (sampleEditor 2 0).parseError
      ∧ w2.navigator = some ⟨[⟨(qstr "e"), 3, 0⟩], []⟩
      ∧ w2.quickAccess = some (⟨[⟨(qstr "e"), 3, 0⟩], []⟩, (sampleEditor 2 0).fileName) :=
  parseMixed_result_applied reusedIndexWindow 0 ⟨[⟨(qstr "e"), 3, 0⟩], []⟩ (sampleEditor 2 0)
    (by decide) (by decide)

/-! ## Scan progress at 100, navigation, rescans and shutdown -/

/-- C11, as stated, fails: a visible scan-progress widget is still visible after
`sidebarProgressChanged(100)`. -/
theorem progress_widget_visible_after_100 :
    scanningWindow.sidebarProgressVisible = true
    ∧ (sidebarProgressChanged scanningWindow 100).sidebarProgressVisible = true := by
  decide

/-- C11, amended: `sidebarProgressChanged(100)` sets the bar to 100 and leaves
the visibility of the scan-progress widget as it was, visible or not (the
widget is hidden by `parseProjectFinished`); a report below 100 shows it. -/
theorem sidebarProgressChanged_100_keeps_visibility (w : MainWindow) (v : Int) :
    (sidebarProgressChanged w 100).sidebarProgressVisible = w.sidebarProgressVisible
    ∧ (sidebarProgressChanged w 100).sidebarProgressValue = 100
    ∧ (sidebarProgressChanged w v).sidebarProgressVisible
        = (if v < 100 then true else w.sidebarProgressVisible) := by
  have h : ∀ u : Int, (sidebarProgressChanged w u).sidebarProgressVisible
      = (if u < 100 then true else w.sidebarProgressVisible) := by
    intro u
    unfold sidebarProgressChanged
    by_cases hu : u < 100
    · cases hv : w.sidebarProgressVisible <;> simp [hu, hv] <;> split <;> simp [hv]
    · simp only [hu, false_and, if_false]
      split <;> rfl
  refine ⟨?_, ?_, h v⟩
  · rw [h 100]
    simp
  · simp [sidebarProgressChanged]

/-- C12: `editorShowDeclaration` removes one leading backslash from the name;
for an empty name it returns at once, without a lookup; otherwise it looks the
name up and, exactly when the lookup gives a non-empty path, a line above 0 and
a file that exists, opens the file and sends the editor that then shows it to
the line; when it does not, nothing but the lookup happened: no tab set, editor
or other part of the window has changed. -/
theorem editorShowDeclaration_opens_iff_found (env : Env) (w : MainWindow) (name : QString) :
    (stripLeadingBackslash name = [] → editorShowDeclaration env w name = w)
    ∧ (stripLeadingBackslash name ≠ [] →
        ((env.findDeclaration (stripLeadingBackslash name)).1 ≠ []
            ∧ (env.findDeclaration (stripLeadingBackslash name)).2 > 0
            ∧ env.fileExists (env.findDeclaration (stripLeadingBackslash name)).1 = true →
          editorShowDeclaration env w name
            = gotoLineIfShown
                (env.openFile (w.callOut (Call.projectFindDeclaration (stripLeadingBackslash name)))
                  (env.findDeclaration (stripLeadingBackslash name)).1)
                (env.findDeclaration (stripLeadingBackslash name)).1
                (env.findDeclaration (stripLeadingBackslash name)).2)
        ∧ (¬ ((env.findDeclaration (stripLeadingBackslash name)).1 ≠ []
            ∧ (env.findDeclaration (stripLeadingBackslash name)).2 > 0
            ∧ env.fileExists (env.findDeclaration (stripLeadingBackslash name)).1 = true) →
          editorShowDeclaration env w name
            = w.callOut (Call.projectFindDeclaration (stripLeadingBackslash name))))
    ∧ (∀ rest : QString, stripLeadingBackslash ((qchar (Char.ofNat 92)) :: rest) = rest)
    ∧ (name.head? ≠ some (qchar (Char.ofNat 92)) → stripLeadingBackslash name = name) := by
  refine ⟨?_, ?_, ?_, ?_⟩
  · intro h
    simp [editorShowDeclaration, h]
  · intro h
    have hl : (stripLeadingBackslash name).length ≠ 0 := by
      simpa [List.length_eq_zero] using h
    constructor
    · intro hc
      have hc1 : (env.findDeclaration (stripLeadingBackslash name)).1.length > 0 :=
        List.length_pos.mpr hc.1
      simp [editorShowDeclaration, hl, hc1, hc.2.1, hc.2.2]
    · intro hc
      have hc2 : ¬ ((env.findDeclaration (stripLeadingBackslash name)).1.length > 0
          ∧ (env.findDeclaration (stripLeadingBackslash name)).2 > 0
          ∧ env.fileExists (env.findDeclaration (stripLeadingBackslash name)).1 = true) := by
        intro hh
        exact hc ⟨List.length_pos.mp hh.1, hh.2.1, hh.2.2⟩
      unfold editorShowDeclaration
      simp only [hl, if_false, hc2]
  · intro rest
    simp [stripLeadingBackslash]
  · intro h
    unfold stripLeadingBackslash
    rw [if_neg]
    exact fun hh => h hh.2

/-- Witness for C12: the declaration of `foo` is found and shown at its line,
an unknown name leaves only the lookup behind, an empty name nothing at all. -/
theorem editorShowDeclaration_opens_iff_found_witness :
    (editorShowDeclaration declEnv emptyWindow ((qchar (Char.ofNat 92)) :: (qstr "foo"))).editorTabs
        = { editors := [{ sampleEditor 9 0 with calls := [EditorCall.gotoLine 12] }],
            current := some 0 }
    ∧ editorShowDeclaration declEnv emptyWindow (qstr "bar")
        = emptyWindow.callOut (Call.projectFindDeclaration (qstr "bar"))
    ∧ editorShowDeclaration declEnv emptyWindow [qchar (Char.ofNat 92)] = emptyWindow := by
  refine ⟨?_, ?_, ?_⟩
  · rw [((editorShowDeclaration_opens_iff_found declEnv emptyWindow
      ((qchar (Char.ofNat 92)) :: (qstr "foo"))).2.1 (by decide)).1 (by decide)]
    decide
  · exact ((editorShowDeclaration_opens_iff_found declEnv emptyWindow (qstr "bar")).2.1
      (by decide)).2 (by decide)
  · exact (editorShowDeclaration_opens_iff_found declEnv emptyWindow [qchar (Char.ofNat 92)]).1
      (by decide)

/-- C13: with no project open neither action does anything; with a project open
`on_actionUpdateProject_triggered` submits a ProjectScan for the project path
and makes no other call, so it does not delete the data file;
`on_actionRescanProject_triggered` first deletes the data file and then submits
the ProjectScan: its record of calls is the deletion followed by the emission,
and it is the deletion of the data file followed by exactly what the update
action does. -/
theorem rescan_deletes_then_scans (env : Env) (w : MainWindow) :
    (w.project.isOpen = false →
      on_actionUpdateProject_triggered env w = w
      ∧ on_actionRescanProject_triggered env w = w)
    ∧ (w.project.isOpen = true →
      (on_actionUpdateProject_triggered env w).emitted
          = w.emitted ++ [Job.parseProject w.project.path]
      ∧ (on_actionUpdateProject_triggered env w).calls
          = w.calls ++ [Call.emit (Job.parseProject w.project.path)]
      ∧ on_actionRescanProject_triggered env w
          = on_actionUpdateProject_triggered env (w.callOut Call.projectDeleteDataFile)
      ∧ (on_actionRescanProject_triggered env w).emitted
          = w.emitted ++ [Job.parseProject w.project.path]
      ∧ (on_actionRescanProject_triggered env w).calls
          = w.calls ++ [Call.projectDeleteDataFile,
              Call.emit (Job.parseProject w.project.path)]) := by
  constructor
  · intro h
    simp [on_actionUpdateProject_triggered, on_actionRescanProject_triggered, h]
  · intro h
    have h2 : (w.callOut Call.projectDeleteDataFile).project.isOpen = true := h
    refine ⟨?_, ?_, ?_, ?_, ?_⟩
    · simp [on_actionUpdateProject_triggered, h, MainWindow.emit, setStatusBarText_logs]
    · simp [on_actionUpdateProject_triggered, h, MainWindow.emit, setStatusBarText_logs]
    · simp [on_actionUpdateProject_triggered, on_actionRescanProject_triggered, h, h2]
    · simp [on_actionRescanProject_triggered, h, MainWindow.emit, setStatusBarText_logs,
        MainWindow.callOut]
    · simp [on_actionRescanProject_triggered, h, MainWindow.emit, setStatusBarText_logs,
        MainWindow.callOut]

/-- Witness for C13: the two actions with the project `/p` open, and with no
project open. -/
theorem rescan_deletes_then_scans_witness :
    ((on_actionUpdateProject_triggered sampleEnv projectWindow).emitted
          = projectWindow.emitted ++ [Job.parseProject projectWindow.project.path]
      ∧ (on_actionUpdateProject_triggered sampleEnv projectWindow).calls
          = projectWindow.calls ++ [Call.emit (Job.parseProject projectWindow.project.path)]
      ∧ on_actionRescanProject_triggered sampleEnv projectWindow
          = on_actionUpdateProject_triggered sampleEnv
              (projectWindow.callOut Call.projectDeleteDataFile)
      ∧ (on_actionRescanProject_triggered sampleEnv projectWindow).emitted
          = projectWindow.emitted ++ [Job.parseProject projectWindow.project.path]
      ∧ (on_actionRescanProject_triggered sampleEnv projectWindow).calls
          = projectWindow.calls ++ [Call.projectDeleteDataFile,
              Call.emit (Job.parseProject projectWindow.project.path)])
    ∧ (on_actionUpdateProject_triggered sampleEnv emptyWindow = emptyWindow
      ∧ on_actionRescanProject_triggered sampleEnv emptyWindow = emptyWindow) :=
  ⟨(rescan_deletes_then_scans sampleEnv projectWindow).2 (by decide),
   (rescan_deletes_then_scans sampleEnv emptyWindow).1 (by decide)⟩

/-- C14: `closeEvent` is all or nothing.  If one of the two tab sets does not
allow closing, the event is ignored and the window is unchanged: no
`disableWorker` was emitted and nothing was saved.  Otherwise the event is
accepted and the window made these calls, in this order: `disableWorker`, then
the saving of project, settings and window state, then the base class handler.
The destructor first quits the background thread and waits for it. -/
theorem closeEvent_all_or_nothing (env : Env) (w : MainWindow) :
    ((env.closeWindowAllowed w.editorTabs = false
        ∨ env.closeWindowAllowed w.editorTabsSplit = false) →
      closeEvent env w = (w, false))
    ∧ ((env.closeWindowAllowed w.editorTabs = true
        ∧ env.closeWindowAllowed w.editorTabsSplit = true) →
      (closeEvent env w).2 = true
      ∧ (closeEvent env w).1
        = { w with calls := w.calls
              ++ [Call.emitDisableWorker, Call.projectSave]
              ++ (if env.settingsGet (qstr "devpack_install_silent") = (qstr "no") then
                    [Call.settingsChange (qstr "devpack_install_silent") (qstr "yes")]
                  else [])
              ++ [Call.settingsSave,
                  Call.windowSettingsSetValue (qstr "main_window_geometry"),
                  Call.windowSettingsSetValue (qstr "main_window_state")]
              ++ (if w.args.length ≤ 1 then
                    [Call.windowSettingsSetValue (qstr "project_path")]
                  else [])
              ++ [Call.baseCloseEvent] })
    ∧ destructor w
        = { w with calls := w.calls
              ++ [Call.parserThreadQuit, Call.parserThreadWait, Call.deleteFilebrowser,
                  Call.deleteNavigator, Call.deleteEditorTabs, Call.deleteEditorTabsSplit,
                  Call.deleteGitBrowser, Call.deleteUi] } := by
  refine ⟨?_, ?_, ?_⟩
  · rintro (h | h) <;> simp [closeEvent, h]
  · rintro ⟨h1, h2⟩
    constructor
    · simp [closeEvent, h1, h2]
    · unfold closeEvent
      simp only [h1, h2, Bool.not_true, Bool.or_self, Bool.false_eq_true, if_false]
      rw [saveStateBeforeExit_calls]
      simp [MainWindow.callOut, List.append_assoc]
  · simp [destructor, MainWindow.callOut]

/-- Witness for C14: a window with a modified document refuses to close; the
empty window closes, with the calls in order. -/
theorem closeEvent_all_or_nothing_witness :
    closeEvent sampleEnv (sampleWindow { editors := [modifiedEditor], current := some 0 }
        noTabs false)
      = (sampleWindow { editors := [modifiedEditor], current := some 0 } noTabs false, false)
    ∧ (closeEvent sampleEnv emptyWindow).2 = true
    ∧ (closeEvent sampleEnv emptyWindow).1.calls
      = [Call.emitDisableWorker, Call.projectSave,
         Call.settingsChange (qstr "devpack_install_silent") (qstr "yes"),
         Call.settingsSave,
         Call.windowSettingsSetValue (qstr "main_window_geometry"),
         Call.windowSettingsSetValue (qstr "main_window_state"),
         Call.windowSettingsSetValue (qstr "project_path"),
         Call.baseCloseEvent] := by
  refine ⟨(closeEvent_all_or_nothing sampleEnv _).1 (Or.inl (by decide)),
    ((closeEvent_all_or_nothing sampleEnv emptyWindow).2.1 ⟨by decide, by decide⟩).1, ?_⟩
  rw [((closeEvent_all_or_nothing sampleEnv emptyWindow).2.1 ⟨by decide, by decide⟩).2]
  decide

/-- C20: `quickAccessRequested` returns the window unchanged when the file name
is empty, the line is not positive or the file does not exist, and
`searchListItemDoubleClicked` when the item's file is empty, its line not
positive, its column negative or the file does not exist: no tab is opened and
no cursor is moved. -/
theorem navigation_to_missing_target_is_noop (env : Env) (w : MainWindow) (file : QString)
    (line : Int) (item : SearchItem) :
    ((file = [] ∨ line ≤ 0 ∨ env.fileExists file = false) →
      quickAccessRequested env w file line = w)
    ∧ ((item.file = [] ∨ item.line ≤ 0 ∨ item.symbol < 0
        ∨ env.fileExists item.file = false) →
      searchListItemDoubleClicked env w item = w) := by
  constructor
  · intro h
    unfold quickAccessRequested
    rw [if_neg]
    rintro ⟨h1, h2, h3⟩
    rcases h with h | h | h
    · rw [h] at h1
      simp at h1
    · omega
    · rw [h] at h3
      cases h3
  · intro h
    unfold searchListItemDoubleClicked
    rcases h with h | h | h | h
    · simp [h]
    · simp [h]
    · simp [h]
    · simp only [h, Bool.not_false, if_true]
      split <;> rfl

/-- Witness for C20: in the sample environment no file exists, so neither a
quick access request nor a double click on a match opens anything. -/
theorem navigation_to_missing_target_is_noop_witness :
    quickAccessRequested sampleEnv reusedIndexWindow (qstr "gone.php") 4 = reusedIndexWindow
    ∧ searchListItemDoubleClicked sampleEnv reusedIndexWindow
        { noResultsItem with file := qstr "gone.php", line := 4, symbol := 0 }
      = reusedIndexWindow :=
  ⟨(navigation_to_missing_target_is_noop sampleEnv reusedIndexWindow (qstr "gone.php") 4
      noResultsItem).1 (Or.inr (Or.inr rfl)),
   (navigation_to_missing_target_is_noop sampleEnv reusedIndexWindow [] 0
      { noResultsItem with file := qstr "gone.php", line := 4, symbol := 0 }).2
      (Or.inr (Or.inr (Or.inr rfl)))⟩

/-! ## The completion dictionaries -/

theorem runAssignments_apply (as : List Assignment) (ds : Dictionary → Dict) (d : Dictionary)
    (x : QString) :
    runAssignments as ds d x
      = (match lastAssigned as d x with
         | some v => some v
         | none => ds d x) := by
  induction as generalizing ds with
  | nil => rfl
  | cons a rest ih =>
    have h : runAssignments (a :: rest) ds
        = runAssignments rest
            (fun d x => if d = a.dictionary ∧ x = a.key then some a.value else ds d x) := rfl
    have hl : lastAssigned (a :: rest) d x
        = (match lastAssigned rest d x with
           | some v => some v
           | none => if d = a.dictionary ∧ x = a.key then some a.value else none) := rfl
    rw [h, ih, hl]
    cases lastAssigned rest d x with
    | some v => rfl
    | none =>
      by_cases hc : d = a.dictionary ∧ x = a.key
      · simp [hc]
      · simp [hc]

theorem runAssignments_append (as bs : List Assignment) (ds : Dictionary → Dict) :
    runAssignments (as ++ bs) ds = runAssignments bs (runAssignments as ds) := by
  unfold runAssignments
  rw [List.foldl_append]

theorem runAssignments_idempotent (as : List Assignment) (ds : Dictionary → Dict) :
    runAssignments as (runAssignments as ds) = runAssignments as ds := by
  funext d x
  rw [runAssignments_apply as (runAssignments as ds), runAssignments_apply as ds]
  cases lastAssigned as d x <;> rfl

theorem makesAssignments_id : MakesAssignments (fun cw => cw) :=
  ⟨[], fun _ => rfl⟩

theorem makesAssignments_comp (f g : CompleteWords → CompleteWords)
    (hf : MakesAssignments f) (hg : MakesAssignments g) :
    MakesAssignments (fun cw => g (f cw)) := by
  obtain ⟨as, has⟩ := hf
  obtain ⟨bs, hbs⟩ := hg
  exact ⟨as ++ bs, fun cw => by rw [hbs, has, runAssignments_append]⟩

theorem makesAssignments_assign (d : Dictionary) (k v : QString) :
    MakesAssignments (fun cw => cw.assign d k v) :=
  ⟨[⟨d, k, v⟩], fun _ => rfl⟩

theorem makesAssignments_highlight (c : HighlightCall) :
    MakesAssignments (fun cw => cw.highlight c) :=
  ⟨[], fun _ => rfl⟩

theorem makesAssignments_readLines (lines : List QString)
    (body : QString → CompleteWords → CompleteWords)
    (h : ∀ k, MakesAssignments (body k)) : MakesAssignments (readLines lines body) := by
  induction lines using List.reverseRecOn with
  | nil => exact makesAssignments_id
  | append_singleton ls k ih =>
    have hstep : MakesAssignments (fun cw => if k = [] then cw else body k cw) := by
      by_cases hk : k = []
      · simp only [hk, if_true]
        exact makesAssignments_id
      · simp only [hk, if_false]
        exact h k
    have := makesAssignments_comp _ _ ih hstep
    have heq : readLines (ls ++ [k]) body
        = fun cw => (fun cw => if k = [] then cw else body k cw) (readLines ls body cw) := by
      funext cw
      simp [readLines, List.foldl_append]
    rw [heq]
    exact this

theorem makesAssignments_plainWord (d : Dictionary) (k : QString) :
    MakesAssignments (plainWord d k) :=
  makesAssignments_assign d k k

theorem makesAssignments_plainWord_highlight (d : Dictionary) (c : HighlightCall)
    (k : QString) : MakesAssignments (fun cw => (plainWord d k cw).highlight c) :=
  makesAssignments_comp (plainWord d k) (fun cw => cw.highlight c)
    (makesAssignments_plainWord d k) (makesAssignments_highlight c)

theorem makesAssignments_typeWord (d : Dictionary) (k : QString) :
    MakesAssignments (typeWord d k) := by
  unfold typeWord
  split
  · exact makesAssignments_assign _ _ _
  · exact makesAssignments_id

theorem makesAssignments_signatureWord (env : Env) (d : Dictionary) (tooltips : Bool)
    (mark : QString → CompleteWords → CompleteWords) (hm : ∀ n, MakesAssignments (mark n))
    (k : QString) : MakesAssignments (signatureWord env d tooltips mark k) := by
  unfold signatureWord
  dsimp only
  split
  · cases tooltips
    · exact makesAssignments_comp
        (fun cw => cw.assign d (trimmed env (k.take (indexOf k (qchar '(')).toNat))
          (trimmed env (k.drop (indexOf k (qchar '(')).toNat)))
        (mark (trimmed env (k.take (indexOf k (qchar '(')).toNat)))
        (makesAssignments_assign _ _ _) (hm _)
    · exact makesAssignments_comp
        (fun cw => (cw.assign d (trimmed env (k.take (indexOf k (qchar '(')).toNat))
            (trimmed env (k.drop (indexOf k (qchar '(')).toNat))).assign Dictionary.tooltipsPHP
          (trimmed env (k.take (indexOf k (qchar '(')).toNat))
          (escapeAngles (trimmed env (k.drop (indexOf k (qchar '(')).toNat))))
        (mark (trimmed env (k.take (indexOf k (qchar '(')).toNat)))
        (makesAssignments_comp
          (fun cw => cw.assign d (trimmed env (k.take (indexOf k (qchar '(')).toNat))
            (trimmed env (k.drop (indexOf k (qchar '(')).toNat)))
          (fun cw => cw.assign Dictionary.tooltipsPHP
            (trimmed env (k.take (indexOf k (qchar '(')).toNat))
            (escapeAngles (trimmed env (k.drop (indexOf k (qchar '(')).toNat))))
          (makesAssignments_assign _ _ _) (makesAssignments_assign _ _ _)) (hm _)
  · exact makesAssignments_comp (fun cw => cw.assign d k k) (mark k)
      (makesAssignments_assign _ _ _) (hm _)

theorem makesAssignments_addPHPClassParts (name : QString) :
    MakesAssignments (addPHPClassParts name) := by
  refine ⟨[], fun cw => ?_⟩
  unfold addPHPClassParts
  generalize split name [qchar (Char.ofNat 92)] = parts
  induction parts generalizing cw with
  | nil => rfl
  | cons p ps ih =>
    rw [List.foldl_cons, ih]
    split <;> rfl


theorem makesAssignments_runSteps (steps : List (CompleteWords → CompleteWords))
    (h : ∀ f ∈ steps, MakesAssignments f) : MakesAssignments (runSteps steps) := by
  induction steps using List.reverseRecOn with
  | nil => exact makesAssignments_id
  | append_singleton fs f ih =>
    have h1 := ih (fun g hg => h g (List.mem_append_left _ hg))
    have h2 := h f (List.mem_append_right _ (List.mem_singleton_self f))
    have heq : runSteps (fs ++ [f]) = fun cw => f (runSteps fs cw) := by
      funext cw
      simp [runSteps, List.foldl_append]
    rw [heq]
    exact makesAssignments_comp (runSteps fs) f h1 h2

theorem makesAssignments_loadCSSWords (files : WordFiles) :
    MakesAssignments (loadCSSWords files) := by
  have heq : loadCSSWords files = runSteps
      [readLines files.css_props (fun k cw =>
        (plainWord Dictionary.cssPropertiesComplete k cw).highlight
          (HighlightCall.addCSSProperty k)),
       readLines files.css_pseudo (plainWord Dictionary.cssPseudoComplete),
       readLines files.css_values (plainWord Dictionary.cssValuesComplete)] := rfl
  rw [heq]
  apply makesAssignments_runSteps
  intro f hf
  simp only [List.mem_cons, List.mem_singleton, List.not_mem_nil, or_false] at hf
  rcases hf with rfl | rfl | rfl <;> apply makesAssignments_readLines <;> intro k
  · exact makesAssignments_plainWord_highlight _ _ k
  · exact makesAssignments_plainWord _ k
  · exact makesAssignments_plainWord _ k

theorem makesAssignments_loadHTMLWords (files : WordFiles) :
    MakesAssignments (loadHTMLWords files) := by
  have heq : loadHTMLWords files = runSteps
      [readLines files.html_tags (plainWord Dictionary.htmlTags),
       readLines files.html_alltags (fun k cw =>
        (plainWord Dictionary.htmlAllTagsComplete k cw).highlight (HighlightCall.addHTMLTag k)),
       readLines files.html_shortags
        (fun k cw => cw.highlight (HighlightCall.addHTMLShortTag k))] := rfl
  rw [heq]
  apply makesAssignments_runSteps
  intro f hf
  simp only [List.mem_cons, List.mem_singleton, List.not_mem_nil, or_false] at hf
  rcases hf with rfl | rfl | rfl <;> apply makesAssignments_readLines <;> intro k
  · exact makesAssignments_plainWord _ k
  · exact makesAssignments_plainWord_highlight _ _ k
  · exact makesAssignments_highlight _

theorem makesAssignments_loadJSWords (env : Env) (files : WordFiles) :
    MakesAssignments (loadJSWords env files) := by
  have heq : loadJSWords env files = runSteps
      [readLines files.js_objects (fun k cw =>
        (plainWord Dictionary.jsObjectsComplete k cw).highlight (HighlightCall.addJSObject k)),
       readLines files.js_specials (plainWord Dictionary.jsSpecialsComplete),
       readLines files.js_functions
        (signatureWord env Dictionary.jsFunctionsComplete false
          (fun n cw => cw.highlight (HighlightCall.addJSFunction n))),
       readLines files.js_interfaces (fun k cw =>
        (plainWord Dictionary.jsInterfacesComplete k cw).highlight
          (HighlightCall.addJSInterface k)),
       readLines files.js_methods
        (signatureWord env Dictionary.jsMethodsComplete false (fun _ cw => cw)),
       readLines files.js_events (plainWord Dictionary.jsEventsComplete)] := rfl
  rw [heq]
  apply makesAssignments_runSteps
  intro f hf
  simp only [List.mem_cons, List.mem_singleton, List.not_mem_nil, or_false] at hf
  rcases hf with rfl | rfl | rfl | rfl | rfl | rfl <;>
    apply makesAssignments_readLines <;> intro k
  · exact makesAssignments_plainWord_highlight _ _ k
  · exact makesAssignments_plainWord _ k
  · exact makesAssignments_signatureWord env _ _ _ (fun _ => makesAssignments_highlight _) k
  · exact makesAssignments_plainWord_highlight _ _ k
  · exact makesAssignments_signatureWord env _ _ _ (fun _ => makesAssignments_id) k
  · exact makesAssignments_plainWord _ k

theorem makesAssignments_loadFlutterWords (files : WordFiles) :
    MakesAssignments (loadFlutterWords files) := by
  have heq : loadFlutterWords files = runSteps
      [readLines files.dart_core (fun k cw =>
        (plainWord Dictionary.dartObjectsComplete k cw).highlight
          (HighlightCall.addJSExtDartObject k)),
       readLines files.dart_functions (fun k cw =>
        (plainWord Dictionary.dartFunctionsComplete k cw).highlight
          (HighlightCall.addJSExtDartFunction k)),
       readLines files.flutter_classes (fun k cw =>
        (plainWord Dictionary.flutterObjectsComplete k cw).highlight
          (HighlightCall.addJSExtDartObject k)),
       readLines files.flutter_widgets (fun k cw =>
        (plainWord Dictionary.flutterObjectsComplete k cw).highlight
          (HighlightCall.addJSExtDartObject k)),
       readLines files.flutter_functions (fun k cw =>
        (plainWord Dictionary.flutterFunctionsComplete k cw).highlight
          (HighlightCall.addJSExtDartFunction k))] := rfl
  rw [heq]
  apply makesAssignments_runSteps
  intro f hf
  simp only [List.mem_cons, List.mem_singleton, List.not_mem_nil, or_false] at hf
  rcases hf with rfl | rfl | rfl | rfl | rfl <;>
    apply makesAssignments_readLines <;> intro k <;>
    exact makesAssignments_plainWord_highlight _ _ k

theorem makesAssignments_loadPHPWords (env : Env) (files : WordFiles) :
    MakesAssignments (loadPHPWords env files) := by
  have heq : loadPHPWords env files = runSteps
      [readLines files.php_functions
        (signatureWord env Dictionary.phpFunctionsComplete true
          (fun n cw => cw.highlight (HighlightCall.addPHPFunction n))),
       readLines files.php_consts (plainWord Dictionary.phpConstsComplete),
       readLines files.php_classes
        (signatureWord env Dictionary.phpClassesComplete true addPHPClassParts),
       readLines files.php_class_methods
        (signatureWord env Dictionary.phpClassMethodsComplete true (fun _ cw => cw)),
       readLines files.php_class_consts (fun k cw =>
        match split k [qchar ':', qchar ':'] with
        | [className, constName] =>
          (plainWord Dictionary.phpClassConstsComplete k cw).highlight
            (HighlightCall.addPHPClassConstant className constName)
        | _ => plainWord Dictionary.phpClassConstsComplete k cw),
       readLines files.php_class_props (plainWord Dictionary.phpClassPropsComplete),
       readLines files.php_globals (fun k cw =>
        (plainWord Dictionary.phpGlobalsComplete k cw).highlight
          (HighlightCall.addPHPVariable k)),
       readLines files.php_specials (plainWord Dictionary.phpSpecialsComplete),
       readLines files.php_function_types (typeWord Dictionary.phpFunctionTypes),
       readLines files.php_class_method_types (typeWord Dictionary.phpClassMethodTypes),
       readLines files.php_magic (plainWord Dictionary.phpMagicComplete)] := rfl
  rw [heq]
  apply makesAssignments_runSteps
  intro f hf
  simp only [List.mem_cons, List.mem_singleton, List.not_mem_nil, or_false] at hf
  rcases hf with rfl | rfl | rfl | rfl | rfl | rfl | rfl | rfl | rfl | rfl | rfl <;>
    apply makesAssignments_readLines <;> intro k
  · exact makesAssignments_signatureWord env _ _ _ (fun _ => makesAssignments_highlight _) k
  · exact makesAssignments_plainWord _ k
  · exact makesAssignments_signatureWord env _ _ _ makesAssignments_addPHPClassParts k
  · exact makesAssignments_signatureWord env _ _ _ (fun _ => makesAssignments_id) k
  · dsimp only
    split
    · exact makesAssignments_plainWord_highlight _ _ k
    · exact makesAssignments_plainWord _ k
  · exact makesAssignments_plainWord _ k
  · exact makesAssignments_plainWord_highlight _ _ k
  · exact makesAssignments_plainWord _ k
  · exact makesAssignments_typeWord _ k
  · exact makesAssignments_typeWord _ k
  · exact makesAssignments_plainWord _ k

theorem makesAssignments_load (env : Env) (files : WordFiles) :
    MakesAssignments (CompleteWords.load env files) := by
  have heq : CompleteWords.load env files = runSteps
      [loadCSSWords files, loadHTMLWords files, loadJSWords env files,
       loadFlutterWords files, loadPHPWords env files] := rfl
  rw [heq]
  apply makesAssignments_runSteps
  intro f hf
  simp only [List.mem_cons, List.mem_singleton, List.not_mem_nil, or_false] at hf
  rcases hf with rfl | rfl | rfl | rfl | rfl
  · exact makesAssignments_loadCSSWords files
  · exact makesAssignments_loadHTMLWords files
  · exact makesAssignments_loadJSWords env files
  · exact makesAssignments_loadFlutterWords files
  · exact makesAssignments_loadPHPWords env files

theorem reset_dicts (cw : CompleteWords) (d : Dictionary) (x : QString) :
    cw.reset.dicts d x = if d ∈ clearedByReset then none else cw.dicts d x := by
  cases d <;> rfl

/-- C18: the claim fails on the code.  `_reset` empties the 23 dictionaries it
names and leaves the other five (`dartObjectsComplete`,
`dartFunctionsComplete`, `flutterObjectsComplete`, `flutterFunctionsComplete`,
`phpMagicComplete`), which `load` fills, as they were: after `load` and `reset`
on the sample files the Dart, Flutter and PHP magic words are still there. -/
theorem reset_leaves_dart_flutter_magic (cw : CompleteWords) (d : Dictionary) (x : QString) :
    (d ∈ clearedByReset → cw.reset.dicts d x = none)
    ∧ (d ∉ clearedByReset → cw.reset.dicts d x = cw.dicts d x)
    ∧ (d ∉ clearedByReset ↔
        d ∈ [Dictionary.dartObjectsComplete, Dictionary.dartFunctionsComplete,
             Dictionary.flutterObjectsComplete, Dictionary.flutterFunctionsComplete,
             Dictionary.phpMagicComplete])
    ∧ (CompleteWords.empty.load sampleEnv sampleWordFiles).reset.dicts
        Dictionary.dartObjectsComplete (qstr "String") = some (qstr "String")
    ∧ (CompleteWords.empty.load sampleEnv sampleWordFiles).reset.dicts
        Dictionary.flutterObjectsComplete (qstr "Text") = some (qstr "Text")
    ∧ (CompleteWords.empty.load sampleEnv sampleWordFiles).reset.dicts
        Dictionary.phpMagicComplete (qstr "__construct") = some (qstr "__construct")
    ∧ (CompleteWords.empty.load sampleEnv sampleWordFiles).reset.dicts
        Dictionary.cssPropertiesComplete (qstr "color") = none := by
  refine ⟨?_, ?_, ?_, by decide, by decide, by decide, by decide⟩
  · intro h
    rw [reset_dicts, if_pos h]
  · intro h
    rw [reset_dicts, if_neg h]
  · cases d <;> decide

/-- C19: on the dictionaries, `load` after `load` gives what one `load` gives,
from any state; and `reload` from a state reached from the empty singleton by a
first `load` and then any `load` and `reload` calls gives the dictionaries that
`load` gives from the empty singleton. -/
theorem load_idempotent_reload_restores (env : Env) (files : WordFiles)
    (cw s : CompleteWords) :
    ((cw.load env files).load env files).dicts = (cw.load env files).dicts
    ∧ (LoadReachable env files s →
        (s.reload env files).dicts = (CompleteWords.empty.load env files).dicts) := by
  obtain ⟨as, has⟩ := makesAssignments_load env files
  have hidem : ∀ c : CompleteWords,
      ((c.load env files).load env files).dicts = (c.load env files).dicts := by
    intro c
    rw [has, has, runAssignments_idempotent]
  have key : ∀ c : CompleteWords, c.dicts = (CompleteWords.empty.load env files).dicts →
      (c.reload env files).dicts = (CompleteWords.empty.load env files).dicts := by
    intro c hc
    have hr : (c.reload env files).dicts = runAssignments as c.reset.dicts := has c.reset
    rw [hr, has CompleteWords.empty]
    funext d x
    rw [runAssignments_apply as c.reset.dicts, runAssignments_apply as CompleteWords.empty.dicts]
    cases hl : lastAssigned as d x with
    | some v => rfl
    | none =>
      show c.reset.dicts d x = none
      rw [reset_dicts]
      split
      · rfl
      · rw [hc, has CompleteWords.empty, runAssignments_apply, hl]
        rfl
  refine ⟨hidem cw, fun hs => key s ?_⟩
  induction hs with
  | first => rfl
  | load c _ ih =>
    have h1 := has (CompleteWords.empty.load env files)
    rw [has c, ih, ← h1]
    exact hidem CompleteWords.empty
  | reload c _ ih => exact key c ih

/-- Witness for C19: on the sample files, two loads and a reload from the empty
singleton. -/
theorem load_idempotent_reload_restores_witness :
    ((CompleteWords.empty.load sampleEnv sampleWordFiles).load sampleEnv
        sampleWordFiles).dicts
      = (CompleteWords.empty.load sampleEnv sampleWordFiles).dicts
    ∧ (((CompleteWords.empty.load sampleEnv sampleWordFiles).load sampleEnv
          sampleWordFiles).reload sampleEnv sampleWordFiles).dicts
      = (CompleteWords.empty.load sampleEnv sampleWordFiles).dicts :=
  ⟨(load_idempotent_reload_restores sampleEnv sampleWordFiles CompleteWords.empty
      CompleteWords.empty).1,
   (load_idempotent_reload_restores sampleEnv sampleWordFiles CompleteWords.empty
      ((CompleteWords.empty.load sampleEnv sampleWordFiles).load sampleEnv sampleWordFiles)).2
      (LoadReachable.load _ LoadReachable.first)⟩

/-! ## The status bar after a Lint result, and list indexing -/

theorem phpcsWarningsLoop_isSome (env : Env) (tpl : QString) (isMain : Bool)
    (errorTexts errorLines : List QString) (textEditor : Editor) (messages : MessagesTab)
    (h : errorTexts.length = errorLines.length) :
    (phpcsWarningsLoop env tpl isMain errorTexts errorLines textEditor messages).isSome
      = true := by
  unfold phpcsWarningsLoop
  apply forLoop_isSome
  intro i hi acc
  rw [QList.at_of_lt errorLines i (h ▸ hi), QList.at_of_lt errorTexts i hi]
  rfl

theorem parsePHPCSFinished_isSome (env : Env) (w : MainWindow) (tabIndex : Int)
    (errorTexts errorLines : List QString) :
    (parsePHPCSFinished env w tabIndex errorTexts errorLines).isSome = true := by
  unfold parsePHPCSFinished
  split
  · rfl
  · rename_i pane textEditor hact
    split
    · rfl
    · split
      · rename_i h
        obtain ⟨r, hr⟩ := Option.isSome_iff_exists.mp
          (phpcsWarningsLoop_isSome env w.outputMsgWarningTpl (decide (pane = Pane.main))
            errorTexts errorLines (textEditor.call EditorCall.clearWarnings) w.messagesTab h.2)
        simp only [hr, Option.some_bind, Option.isSome_some]
      · rfl

theorem parseLintFinished_isSome (env : Env) (w : MainWindow) (tabIndex : Int)
    (errorTexts errorLines : List QString) (output : QString) :
    (parseLintFinished env w tabIndex errorTexts errorLines output).isSome = true := by
  cases hact : w.getActiveEditor with
  | none => simp [parseLintFinished, hact]
  | some pe =>
    obtain ⟨pane, e⟩ := pe
    by_cases ht : tabIndex = e.tabIndex
    · obtain ⟨w2, hw2, _⟩ := parseLintFinished_applied env w tabIndex errorTexts errorLines
        output pane e hact ht
      rw [hw2]
      rfl
    · simp [parseLintFinished, hact, ht]

theorem setStatusBarText_statusBar (env : Env) (w : MainWindow) (text : QString)
    (pane : Pane) (e : Editor) (h : w.getActiveEditor = some (pane, e))
    (ht : text.length > 0) :
    (setStatusBarText env w text).statusBar
      = env.statusInfo e ++ ((qstr "    |    ") ++ text) := by
  unfold setStatusBarText
  rw [h]
  simp only [if_pos ht]

theorem lintReport_statusBar (env : Env) (w : MainWindow) (isMain : Bool)
    (errorTexts errorLines : List QString) (output : QString) (pane : Pane) (e : Editor)
    (h : w.getActiveEditor = some (pane, e)) :
    (lintReport env w isMain errorTexts errorLines output).statusBar
      = env.statusInfo e ++ (if (errorTexts.length > 0 ∧ errorTexts.length = errorLines.length)
            ∨ output.length > 0
          then (qstr "    |    PARSE ERROR") else (qstr "    |    PARSE OK")) := by
  have hE := setStatusBarText_statusBar env w (qstr "PARSE ERROR") pane e h (by decide)
  have hO := setStatusBarText_statusBar env w (qstr "PARSE OK") pane e h (by decide)
  unfold lintReport
  by_cases h1 : errorTexts.length > 0 ∧ errorTexts.length = errorLines.length
  · rw [if_pos h1, if_pos (Or.inl h1)]
    cases isMain <;> exact hE
  · rw [if_neg h1]
    by_cases h2 : output.length > 0
    · have h3 : output.length > 0
          ∧ (errorTexts.length = 0 ∨ errorTexts.length ≠ errorLines.length) := by
        refine ⟨h2, ?_⟩
        by_cases h0 : errorTexts.length = 0
        · exact Or.inl h0
        · exact Or.inr (fun hh => h1 ⟨Nat.pos_of_ne_zero h0, hh⟩)
      rw [if_pos h3, if_pos (Or.inr h2)]
      cases isMain <;> exact hE
    · have h3 : ¬ (output.length > 0
          ∧ (errorTexts.length = 0 ∨ errorTexts.length ≠ errorLines.length)) :=
        fun hh => h2 hh.1
      rw [if_neg h3, if_neg (fun hh => hh.elim h1 h2)]
      exact hO

theorem lintPopup_statusBar (w : MainWindow) (errorTexts errorLines : List QString) :
    ∃ w2, lintPopup w errorTexts errorLines = some w2
      ∧ w2.getActiveEditor = w.getActiveEditor ∧ w2.statusBar = w.statusBar := by
  unfold lintPopup
  split
  · rename_i h
    rw [QList.at_of_lt errorLines 0 h.2, QList.at_of_lt errorTexts 0 h.1]
    exact ⟨_, rfl, rfl, rfl⟩
  · exact ⟨_, rfl, rfl, rfl⟩

/-- Counterexample to C21: for a Lint result without errors but with raw output,
addressed to the active tab, the status bar reports PARSE ERROR while the
parse-error flag of the editor is clear. -/
theorem lint_output_without_errors_reports_error :
    ∃ w2 e2, parseLintFinished sampleEnv reusedIndexWindow 0 [] [] (qstr "Fatal") = some w2
      ∧ w2.getActiveEditor = some (Pane.main, e2)
      ∧ w2.statusBar = sampleEnv.statusInfo e2 ++ (qstr "    |    PARSE ERROR")
      ∧ e2.parseError = false :=
  ⟨_, _, rfl, rfl, rfl, rfl⟩

/-- C21 (amended): after `parseLintFinished` handled a result addressed to the
active tab, the status bar reports PARSE ERROR or PARSE OK after the status of
the editor; it reports PARSE ERROR if and only if the parse-error flag of the
editor is set or the raw output is not empty, and PARSE OK if and only if the
flag is clear and the raw output is empty. -/
theorem lint_status_error_iff_flag_or_output (env : Env) (w : MainWindow) (tabIndex : Int)
    (errorTexts errorLines : List QString) (output : QString) (pane : Pane) (e : Editor)
    (h : w.getActiveEditor = some (pane, e)) (ht : tabIndex = e.tabIndex) :
    ∃ w2 e2, parseLintFinished env w tabIndex errorTexts errorLines output = some w2
      ∧ w2.getActiveEditor = some (pane, e2)
      ∧ (w2.statusBar = env.statusInfo e2 ++ (qstr "    |    PARSE ERROR")
          ↔ (e2.parseError = true ∨ output.length > 0))
      ∧ (w2.statusBar = env.statusInfo e2 ++ (qstr "    |    PARSE OK")
          ↔ (e2.parseError = false ∧ output.length = 0)) := by
  obtain ⟨ed2, ms2, hmark, hspec⟩ := lintMarkErrors_calls env w.outputMsgErrorTpl
    (decide (pane = Pane.main)) errorTexts errorLines (e.call EditorCall.clearErrors)
    w.messagesTab
  have hact0 : ((w.setMessagesTab ms2).setEditor pane
      (ed2.call EditorCall.updateMarksAndMapArea)).getActiveEditor
      = some (pane, ed2.call EditorCall.updateMarksAndMapArea) :=
    getActiveEditor_setEditor _ pane e _ h
  obtain ⟨w2, hw2, hact, hbar⟩ := lintPopup_statusBar
    (lintReport env ((w.setMessagesTab ms2).setEditor pane
      (ed2.call EditorCall.updateMarksAndMapArea)) (decide (pane = Pane.main))
      errorTexts errorLines output) errorTexts errorLines
  have hflag : (ed2.call EditorCall.updateMarksAndMapArea).parseError
      = decide (errorTexts.length > 0 ∧ errorTexts.length = errorLines.length) := by
    by_cases hE : errorTexts.length > 0 ∧ errorTexts.length = errorLines.length
    · rw [if_pos hE] at hspec
      obtain ⟨first, _, rfl⟩ := hspec
      rw [decide_eq_true hE]
      rfl
    · rw [if_neg hE] at hspec
      subst hspec
      rw [decide_eq_false hE]
      rfl
  have hne : (qstr "    |    PARSE ERROR") ≠ (qstr "    |    PARSE OK") := by decide
  refine ⟨w2, ed2.call EditorCall.updateMarksAndMapArea, ?_, ?_, ?_, ?_⟩
  · unfold parseLintFinished
    simp only [h, ht, ne_eq, not_true_eq_false, if_false]
    rw [hmark]
    exact hw2
  · rw [hact, lintReport_getActiveEditor]
    exact hact0
  · rw [hbar, lintReport_statusBar env _ _ errorTexts errorLines output pane _ hact0, hflag]
    by_cases hc : (errorTexts.length > 0 ∧ errorTexts.length = errorLines.length)
        ∨ output.length > 0
    · rw [if_pos hc]
      simpa using hc
    · rw [if_neg hc]
      constructor
      · intro heq
        exact absurd (List.append_cancel_left heq).symm hne
      · intro hh
        exact absurd (by simpa using hh) hc
  · rw [hbar, lintReport_statusBar env _ _ errorTexts errorLines output pane _ hact0, hflag]
    by_cases hc : (errorTexts.length > 0 ∧ errorTexts.length = errorLines.length)
        ∨ output.length > 0
    · rw [if_pos hc]
      constructor
      · intro heq
        exact absurd (List.append_cancel_left heq) hne
      · intro hh
        exfalso
        rcases hc with hc | hc
        · exact absurd hc (of_decide_eq_false hh.1)
        · omega
    · rw [if_neg hc]
      have h1 : ¬ (errorTexts.length > 0 ∧ errorTexts.length = errorLines.length) :=
        fun x => hc (Or.inl x)
      have h2 : output.length = 0 := by
        have : ¬ output.length > 0 := fun x => hc (Or.inr x)
        omega
      simp [h1, h2]

/-- Witness for C21 (amended): a Lint result with raw output only for tab 0,
document 2 being active in tab 0. -/
theorem lint_status_error_iff_flag_or_output_witness :
    ∃ w2 e2, parseLintFinished sampleEnv reusedIndexWindow 0 [] [] (qstr "Fatal") = some w2
      ∧ w2.getActiveEditor = some (Pane.main, e2)
      ∧ (w2.statusBar = sampleEnv.statusInfo e2 ++ (qstr "    |    PARSE ERROR")
          ↔ (e2.parseError = true ∨ (qstr "Fatal").length > 0))
      ∧ (w2.statusBar = sampleEnv.statusInfo e2 ++ (qstr "    |    PARSE OK")
          ↔ (e2.parseError = false ∧ (qstr "Fatal").length = 0)) :=
  lint_status_error_iff_flag_or_output sampleEnv reusedIndexWindow 0 [] [] (qstr "Fatal")
    Pane.main (sampleEditor 2 0) (by decide) (by decide)

/-- C22: for error texts and error lines of any lengths and any raw output,
`parseLintFinished` and `parsePHPCSFinished` return: no `at(i)` they perform is
outside the list it reads. -/
theorem lint_phpcs_never_index_out_of_range (env : Env) (w : MainWindow) (tabIndex : Int)
    (errorTexts errorLines : List QString) (output : QString) :
    (parseLintFinished env w tabIndex errorTexts errorLines output).isSome = true
      ∧ (parsePHPCSFinished env w tabIndex errorTexts errorLines).isSome = true :=
  ⟨parseLintFinished_isSome env w tabIndex errorTexts errorLines output,
    parsePHPCSFinished_isSome env w tabIndex errorTexts errorLines⟩

/-! ## Git commands, the parser switch, tab cycling and signature lines -/

theorem hideQAPanel_frame (w : MainWindow) :
    (hideQAPanel w).emitted = w.emitted ∧ (hideQAPanel w).ui = w.ui := by
  unfold hideQAPanel
  dsimp only
  split <;> exact ⟨rfl, rfl⟩

/-- C23: `runGitCommand` emits `gitCommand` exactly when git commands are
enabled and the command is safe or the user confirmed it, and then the job
carries the path, the command, the arguments and the two flags it was called
with; when git commands are disabled, or the command is not safe and the user
declined, the window stays as it was: no job, and the output pane untouched. -/
theorem runGitCommand_submits_iff_allowed (env : Env) (w : MainWindow)
    (path command : QString) (attrs : List QString) (outputResult silent : Bool) :
    ((w.gitCommandsEnabled = true
        ∧ (env.isCommandSafe command = true ∨ gitCommandConfirmed env command attrs = true)) →
      (runGitCommand env w path command attrs outputResult silent).emitted
        = w.emitted ++ [Job.gitCommand path command attrs outputResult silent])
    ∧ (¬ (w.gitCommandsEnabled = true
        ∧ (env.isCommandSafe command = true ∨ gitCommandConfirmed env command attrs = true)) →
      runGitCommand env w path command attrs outputResult silent = w) := by
  constructor
  · rintro ⟨hg, hc⟩
    have h2 : (!env.isCommandSafe command && !gitCommandConfirmed env command attrs) = false := by
      rcases hc with hc | hc <;> simp [hc]
    unfold runGitCommand
    simp only [hg, h2, Bool.not_true, Bool.false_eq_true, if_false]
    cases outputResult <;>
      exact congrArg (fun l => l ++ [Job.gitCommand path command attrs _ silent])
        (hideQAPanel_frame w).1
  · intro hn
    unfold runGitCommand
    by_cases hg : w.gitCommandsEnabled = true
    · have hs : env.isCommandSafe command = false := by
        cases h : env.isCommandSafe command
        · rfl
        · exact absurd ⟨hg, Or.inl h⟩ hn
      have hq : gitCommandConfirmed env command attrs = false := by
        cases h : gitCommandConfirmed env command attrs
        · rfl
        · exact absurd ⟨hg, Or.inr h⟩ hn
      simp [hg, hs, hq]
    · simp [hg]

theorem setActiveEditor_current (t : EditorTabs) (e : Editor) :
    (t.setActiveEditor e).current = t.current := by
  unfold EditorTabs.setActiveEditor
  split <;> rfl

/-- C24: while `tmpDisableParser` is set, or when their tab set has no active
editor, `parseTab` and `parseTabSplit` leave the window as it was, so they emit
no job; `closeAllTabsRequested` runs `closeSaved` on the window with the flag
set, where `parseTab` and `parseTabSplit` do nothing, and returns with the flag
false, whatever the flag was before. -/
theorem parser_off_while_closing (env : Env) (w : MainWindow) :
    ((w.tmpDisableParser = true ∨ w.editorTabs.getActiveEditor = none) →
        parseTab env w = w ∧ (parseTab env w).emitted = w.emitted)
    ∧ ((w.tmpDisableParser = true ∨ w.editorTabsSplit.getActiveEditor = none) →
        parseTabSplit env w = w ∧ (parseTabSplit env w).emitted = w.emitted)
    ∧ closeAllTabsRequested env w
        = { env.closeSaved { w with tmpDisableParser := true } with tmpDisableParser := false }
    ∧ parseTab env { w with tmpDisableParser := true } = { w with tmpDisableParser := true }
    ∧ parseTabSplit env { w with tmpDisableParser := true }
        = { w with tmpDisableParser := true }
    ∧ (closeAllTabsRequested env w).tmpDisableParser = false := by
  have h1 : (w.tmpDisableParser = true ∨ w.editorTabs.getActiveEditor = none) →
      parseTab env w = w := by
    intro h
    unfold parseTab
    by_cases hd : w.tmpDisableParser = true
    · rw [if_pos hd]
    · rw [if_neg hd, h.resolve_left hd]
  have h2 : (w.tmpDisableParser = true ∨ w.editorTabsSplit.getActiveEditor = none) →
      parseTabSplit env w = w := by
    intro h
    unfold parseTabSplit
    by_cases hd : w.tmpDisableParser = true
    · rw [if_pos hd]
    · rw [if_neg hd, h.resolve_left hd]
  refine ⟨fun h => ⟨h1 h, by rw [h1 h]⟩, fun h => ⟨h2 h, by rw [h2 h]⟩, rfl, ?_, ?_, rfl⟩
  · unfold parseTab
    rw [if_pos rfl]
  · unfold parseTabSplit
    rw [if_pos rfl]

theorem nextTabIndex_eq (n i : Nat) (hi : i < n) :
    nextTabIndex n i = (((i + 1) % n : Nat) : Int) ∧ nextTabIndex n i = ((i : Int) + 1) % n := by
  unfold nextTabIndex
  dsimp only
  by_cases h : i + 1 = n
  · have h1 : ((i : Int) + 1) ≥ n := by omega
    rw [if_pos h1]
    constructor
    · rw [h, Nat.mod_self]; rfl
    · have : ((i : Int) + 1) = n := by omega
      rw [this, Int.emod_self]
  · have h1 : ¬ ((i : Int) + 1) ≥ n := by omega
    rw [if_neg h1]
    constructor
    · rw [Nat.mod_eq_of_lt (by omega)]; push_cast; rfl
    · rw [Int.emod_eq_of_lt (by omega) (by omega)]

theorem previousTabIndex_eq (n i : Nat) (hi : i < n) :
    previousTabIndex n i = (((i + n - 1) % n : Nat) : Int)
      ∧ previousTabIndex n i = ((i : Int) - 1) % n := by
  unfold previousTabIndex
  dsimp only
  by_cases h : i = 0
  · subst h
    have h1 : ((0 : Nat) : Int) - 1 < 0 := by omega
    rw [if_pos h1]
    constructor
    · rw [Nat.zero_add, Nat.mod_eq_of_lt (by omega)]; omega
    · have : ((0 : Nat) : Int) - 1 = ((n : Int) - 1) + (-1) * n := by ring
      rw [this, Int.add_mul_emod_self, Int.emod_eq_of_lt (by omega) (by omega)]
  · have h1 : ¬ ((i : Int) - 1 < 0) := by omega
    rw [if_neg h1]
    constructor
    · have : i + n - 1 = (i - 1) + n := by omega
      rw [this, Nat.add_mod_right, Nat.mod_eq_of_lt (by omega)]; omega
    · rw [Int.emod_eq_of_lt (by omega) (by omega)]

theorem focusActiveEditor_current (w : MainWindow) :
    (focusActiveEditor w).editorTabs.current = w.editorTabs.current := by
  unfold focusActiveEditor
  split
  · exact setActiveEditor_current _ _
  · rfl

theorem currentIndex_some (t : EditorTabs) (i : Nat) (h : t.current = some i) :
    currentIndex t = (i : Int) := by
  unfold currentIndex
  rw [h]

/-- C25: let `setActiveTab` make the tab of the index it is given the current
one and keep the tabs.  With `n ≥ 2` tabs and the current index `i < n`,
`nextTabTriggered` calls it with `(i+1) mod n` and `previousTabTriggered` with
`(i-1) mod n`; the index selected is below `n`, and each of the two undoes the
other.  With fewer than two tabs neither changes the current tab. -/
theorem tab_cycling_is_modular (env : Env) (w : MainWindow)
    (hsel : ∀ (w : MainWindow) (index : Nat), index < w.editorTabs.editors.length →
      (env.setActiveTab w index).editorTabs.current = some index
        ∧ (env.setActiveTab w index).editorTabs.editors.length
            = w.editorTabs.editors.length) :
    (∀ n i : Nat, w.editorTabs.editors.length = n → w.editorTabs.current = some i →
      2 ≤ n → i < n →
        nextTabTriggered env w = env.setActiveTab w (((i : Int) + 1) % n)
        ∧ previousTabTriggered env w = env.setActiveTab w (((i : Int) - 1) % n)
        ∧ (nextTabTriggered env w).editorTabs.current = some ((i + 1) % n)
        ∧ (previousTabTriggered env w).editorTabs.current = some ((i + n - 1) % n)
        ∧ (i + 1) % n < n ∧ (i + n - 1) % n < n
        ∧ (previousTabTriggered env (nextTabTriggered env w)).editorTabs.current = some i
        ∧ (nextTabTriggered env (previousTabTriggered env w)).editorTabs.current = some i)
    ∧ (w.editorTabs.editors.length < 2 →
        (nextTabTriggered env w).editorTabs.current = w.editorTabs.current
        ∧ (previousTabTriggered env w).editorTabs.current = w.editorTabs.current) := by
  have next_eq : ∀ (w : MainWindow) (n i : Nat), w.editorTabs.editors.length = n →
      w.editorTabs.current = some i → 2 ≤ n → i < n →
      nextTabTriggered env w = env.setActiveTab w (((i + 1) % n : Nat) : Int) := by
    intro w n i hn hi h2 hlt
    unfold nextTabTriggered
    have h1 : ¬ ((w.editorTabs.editors.length : Int) < 2) := by omega
    rw [if_neg h1, currentIndex_some _ i hi, hn, (nextTabIndex_eq n i hlt).1]
  have prev_eq : ∀ (w : MainWindow) (n i : Nat), w.editorTabs.editors.length = n →
      w.editorTabs.current = some i → 2 ≤ n → i < n →
      previousTabTriggered env w = env.setActiveTab w (((i + n - 1) % n : Nat) : Int) := by
    intro w n i hn hi h2 hlt
    unfold previousTabTriggered
    have h1 : ¬ ((w.editorTabs.editors.length : Int) < 2) := by omega
    rw [if_neg h1, currentIndex_some _ i hi, hn, (previousTabIndex_eq n i hlt).1]
  constructor
  · intro n i hn hi h2 hlt
    have hpos : 0 < n := by omega
    have hnx : (i + 1) % n < n := Nat.mod_lt _ hpos
    have hpv : (i + n - 1) % n < n := Nat.mod_lt _ hpos
    have hN := next_eq w n i hn hi h2 hlt
    have hP := prev_eq w n i hn hi h2 hlt
    have sN := hsel w ((i + 1) % n) (by rw [hn]; exact hnx)
    have sP := hsel w ((i + n - 1) % n) (by rw [hn]; exact hpv)
    have e1 : ((i + 1) % n + n - 1) % n = i := by
      by_cases h : i + 1 = n
      · have a : (i + 1) % n = 0 := by rw [h, Nat.mod_self]
        have b : 0 + n - 1 = i := by omega
        rw [a, b]
        exact Nat.mod_eq_of_lt hlt
      · have a : (i + 1) % n = i + 1 := Nat.mod_eq_of_lt (by omega)
        have b : i + 1 + n - 1 = i + n := by omega
        rw [a, b, Nat.add_mod_right]
        exact Nat.mod_eq_of_lt hlt
    have e2 : ((i + n - 1) % n + 1) % n = i := by
      by_cases h : i = 0
      · subst h
        have a : (0 + n - 1) % n = n - 1 := by
          rw [Nat.zero_add]
          exact Nat.mod_eq_of_lt (by omega)
        have b : n - 1 + 1 = n := by omega
        rw [a, b, Nat.mod_self]
      · have a : (i + n - 1) % n = i - 1 := by
          have c : i + n - 1 = (i - 1) + n := by omega
          rw [c, Nat.add_mod_right]
          exact Nat.mod_eq_of_lt (by omega)
        have b : i - 1 + 1 = i := by omega
        rw [a, b]
        exact Nat.mod_eq_of_lt hlt
    refine ⟨?_, ?_, ?_, ?_, hnx, hpv, ?_, ?_⟩
    · rw [hN, ← (nextTabIndex_eq n i hlt).2, (nextTabIndex_eq n i hlt).1]
    · rw [hP, ← (previousTabIndex_eq n i hlt).2, (previousTabIndex_eq n i hlt).1]
    · rw [hN]; exact sN.1
    · rw [hP]; exact sP.1
    · rw [hN, prev_eq _ n ((i + 1) % n) (by rw [sN.2, hn]) sN.1 h2 hnx, e1]
      exact (hsel _ i (by rw [sN.2, hn]; exact hlt)).1
    · rw [hP, next_eq _ n ((i + n - 1) % n) (by rw [sP.2, hn]) sP.1 h2 hpv, e2]
      exact (hsel _ i (by rw [sP.2, hn]; exact hlt)).1
  · intro hlt
    have h1 : (w.editorTabs.editors.length : Int) < 2 := by omega
    unfold nextTabTriggered previousTabTriggered
    rw [if_pos h1, if_pos h1]
    exact ⟨focusActiveEditor_current w, focusActiveEditor_current w⟩

/-- Witness for C25: three tabs, the last one current: the next tab is the
first one, the previous tab the second one. -/
theorem tab_cycling_is_modular_witness :
    (∀ (w : MainWindow) (index : Nat), index < w.editorTabs.editors.length →
      (sampleEnv.setActiveTab w index).editorTabs.current = some index
        ∧ (sampleEnv.setActiveTab w index).editorTabs.editors.length
            = w.editorTabs.editors.length)
    ∧ (nextTabTriggered sampleEnv threeTabsWindow).editorTabs.current = some 0
    ∧ (previousTabTriggered sampleEnv threeTabsWindow).editorTabs.current = some 1
    ∧ (previousTabTriggered sampleEnv
        (nextTabTriggered sampleEnv threeTabsWindow)).editorTabs.current = some 2 :=
  have hsel : ∀ (w : MainWindow) (index : Nat), index < w.editorTabs.editors.length →
      (sampleEnv.setActiveTab w index).editorTabs.current = some index
        ∧ (sampleEnv.setActiveTab w index).editorTabs.editors.length
            = w.editorTabs.editors.length :=
    fun _ index _ => ⟨congrArg some (Int.toNat_ofNat index), rfl⟩
  have h := (tab_cycling_is_modular sampleEnv threeTabsWindow hsel).1 3 2 rfl rfl
    (by decide) (by decide)
  ⟨hsel, h.2.2.1, h.2.2.2.1, h.2.2.2.2.2.2.1⟩

theorem indexOf_first (pre post : QString) (c : QChar) (h : c ∉ pre) :
    indexOf (pre ++ c :: post) c = (pre.length : Int) := by
  unfold indexOf
  have hm : c ∈ pre ++ c :: post := by simp
  rw [if_pos hm]
  congr 1
  induction pre with
  | nil => simp [List.indexOf_cons]
  | cons a rest ih =>
    have ha : a ≠ c := fun hh => h (hh ▸ List.mem_cons_self _ _)
    have hr : c ∉ rest := fun hh => h (List.mem_cons_of_mem _ hh)
    have hm2 : c ∈ rest ++ c :: post := by simp
    rw [List.cons_append, List.indexOf_cons_ne _ ha, ih hr hm2, List.length_cons]

theorem indexOf_absent (k : QString) (c : QChar) (h : c ∉ k) : indexOf k c = -1 := by
  unfold indexOf
  rw [if_neg h]

theorem indexOf_head (k : QString) (c : QChar) (h : k.head? = some c) : indexOf k c = 0 := by
  cases k with
  | nil => simp at h
  | cons a rest =>
    simp only [List.head?_cons, Option.some.injEq] at h
    subst h
    exact indexOf_first [] rest a (List.not_mem_nil _)

theorem addPHPClassParts_dicts (name : QString) (cw : CompleteWords) :
    (addPHPClassParts name cw).dicts = cw.dicts := by
  unfold addPHPClassParts
  generalize split name [qchar (Char.ofNat 92)] = parts
  induction parts generalizing cw with
  | nil => rfl
  | cons p rest ih =>
    rw [List.foldl_cons, ih]
    split <;> rfl

theorem signatureWord_split (env : Env) (dictionary : Dictionary) (tooltips : Bool)
    (mark : QString → CompleteWords → CompleteWords)
    (hmark : ∀ n cw, (mark n cw).dicts = cw.dicts)
    (hd : dictionary ≠ Dictionary.tooltipsPHP) (pre post : QString) (cw : CompleteWords)
    (hpre : pre ≠ []) (hfirst : (qchar '(') ∉ pre) (x : QString) :
    (signatureWord env dictionary tooltips mark (pre ++ (qchar '(') :: post) cw).dicts dictionary x
      = if x = trimmed env pre then some (trimmed env ((qchar '(') :: post))
        else cw.dicts dictionary x := by
  have hlen : 0 < pre.length := List.length_pos.mpr hpre
  unfold signatureWord
  simp only [indexOf_first pre post (qchar '(') hfirst]
  have hpos : ((pre.length : Int) > 0) := by omega
  simp only [if_pos hpos, Int.toNat_ofNat, List.take_left, List.drop_left, hmark]
  cases tooltips
  · simp [CompleteWords.assign]
  · simp [CompleteWords.assign, hd]

theorem signatureWord_whole (env : Env) (dictionary : Dictionary) (tooltips : Bool)
    (mark : QString → CompleteWords → CompleteWords)
    (hmark : ∀ n cw, (mark n cw).dicts = cw.dicts) (k : QString) (cw : CompleteWords)
    (hk : (qchar '(') ∉ k ∨ k.head? = some (qchar '(')) (x : QString) :
    (signatureWord env dictionary tooltips mark k cw).dicts dictionary x
      = if x = k then some k else cw.dicts dictionary x := by
  have hsep : ¬ (indexOf k (qchar '(') > 0) := by
    rcases hk with hk | hk
    · rw [indexOf_absent k _ hk]; omega
    · rw [indexOf_head k _ hk]; omega
  unfold signatureWord
  simp only [if_neg hsep, hmark]
  simp [CompleteWords.assign]

theorem signatureLoops_spec (env : Env) (dictionary : Dictionary)
    (body : QString → CompleteWords → CompleteWords)
    (h : (dictionary, body) ∈ signatureLoops env) :
    ∃ tooltips mark, body = signatureWord env dictionary tooltips mark
      ∧ (∀ n cw, (mark n cw).dicts = cw.dicts) ∧ dictionary ≠ Dictionary.tooltipsPHP := by
  simp only [signatureLoops, List.mem_cons, Prod.mk.injEq, List.mem_singleton,
    List.not_mem_nil, or_false] at h
  rcases h with ⟨rfl, rfl⟩ | ⟨rfl, rfl⟩ | ⟨rfl, rfl⟩ | ⟨rfl, rfl⟩ | ⟨rfl, rfl⟩
  · exact ⟨_, _, rfl, fun _ _ => rfl, by decide⟩
  · exact ⟨_, _, rfl, fun _ _ => rfl, by decide⟩
  · exact ⟨_, _, rfl, fun _ _ => rfl, by decide⟩
  · exact ⟨_, _, rfl, addPHPClassParts_dicts, by decide⟩
  · exact ⟨_, _, rfl, fun _ _ => rfl, by decide⟩

/-- C26: in each of the five reading loops over a file of signatures, a line
whose first `(` is at a position above 0 adds to the dictionary of the file the
entry with the trimmed text before that `(` as key and the trimmed text from
that `(` on as value; a non-empty line without `(`, or beginning with it, adds
the entry with the whole line as key and value; no other key of the dictionary
changes, and an empty line changes nothing. -/
theorem signature_line_entry (env : Env) (dictionary : Dictionary)
    (body : QString → CompleteWords → CompleteWords)
    (h : (dictionary, body) ∈ signatureLoops env) (cw : CompleteWords) :
    (∀ pre post : QString, pre ≠ [] → (qchar '(') ∉ pre →
      (readLines [pre ++ (qchar '(') :: post] body cw).dicts dictionary (trimmed env pre)
          = some (trimmed env ((qchar '(') :: post))
        ∧ ∀ x, x ≠ trimmed env pre →
            (readLines [pre ++ (qchar '(') :: post] body cw).dicts dictionary x
              = cw.dicts dictionary x)
    ∧ (∀ k : QString, k ≠ [] → ((qchar '(') ∉ k ∨ k.head? = some (qchar '(')) →
      (readLines [k] body cw).dicts dictionary k = some k
        ∧ ∀ x, x ≠ k → (readLines [k] body cw).dicts dictionary x = cw.dicts dictionary x)
    ∧ readLines [[]] body cw = cw := by
  obtain ⟨tooltips, mark, rfl, hmark, hd⟩ := signatureLoops_spec env dictionary body h
  refine ⟨?_, ?_, rfl⟩
  · intro pre post hpre hfirst
    have hne : pre ++ (qchar '(') :: post ≠ [] := by simp
    have hstep : readLines [pre ++ (qchar '(') :: post] (signatureWord env dictionary tooltips mark) cw
        = signatureWord env dictionary tooltips mark (pre ++ (qchar '(') :: post) cw := by
      simp only [readLines, List.foldl_cons, List.foldl_nil, if_neg hne]
    rw [hstep]
    refine ⟨?_, fun x hx => ?_⟩
    · rw [signatureWord_split env dictionary tooltips mark hmark hd pre post cw hpre hfirst,
        if_pos rfl]
    · rw [signatureWord_split env dictionary tooltips mark hmark hd pre post cw hpre hfirst,
        if_neg hx]
  · intro k hne hk
    have hstep : readLines [k] (signatureWord env dictionary tooltips mark) cw
        = signatureWord env dictionary tooltips mark k cw := by
      simp only [readLines, List.foldl_cons, List.foldl_nil, if_neg hne]
    rw [hstep]
    refine ⟨?_, fun x hx => ?_⟩
    · rw [signatureWord_whole env dictionary tooltips mark hmark k cw hk, if_pos rfl]
    · rw [signatureWord_whole env dictionary tooltips mark hmark k cw hk, if_neg hx]

/-- Witness for C26: the line `alert(message)` of `js_functions` adds the entry
`alert` with the value `(message)`. -/
theorem signature_line_entry_witness :
    (Dictionary.jsFunctionsComplete,
        signatureWord sampleEnv Dictionary.jsFunctionsComplete false
          (fun n cw => cw.highlight (HighlightCall.addJSFunction n))) ∈ signatureLoops sampleEnv
    ∧ (readLines [(qstr "alert") ++ (qchar '(') :: (qstr "message)")]
        (signatureWord sampleEnv Dictionary.jsFunctionsComplete false
          (fun n cw => cw.highlight (HighlightCall.addJSFunction n)))
        CompleteWords.empty).dicts Dictionary.jsFunctionsComplete
          (trimmed sampleEnv (qstr "alert"))
        = some (trimmed sampleEnv ((qchar '(') :: (qstr "message)"))) :=
  have hmem : (Dictionary.jsFunctionsComplete,
      signatureWord sampleEnv Dictionary.jsFunctionsComplete false
        (fun n cw => cw.highlight (HighlightCall.addJSFunction n)))
      ∈ signatureLoops sampleEnv := List.mem_cons_self _ _
  ⟨hmem, ((signature_line_entry sampleEnv _ _ hmem CompleteWords.empty).1 (qstr "alert")
    (qstr "message)") (by decide) (by decide)).1⟩

/-! ## Dock features, the color picker and the focus cycle -/

theorem verticalTitleBar_testBit (j : Nat) :
    DockWidgetVerticalTitleBar.testBit j = decide (3 = j) := by
  show (2 ^ 3).testBit j = decide (3 = j)
  exact Nat.testBit_two_pow

theorem and_verticalTitleBar_ne_zero (features : Nat) :
    features &&& DockWidgetVerticalTitleBar ≠ 0 ↔ features.testBit 3 = true := by
  constructor
  · intro h
    obtain ⟨i, hi⟩ := Nat.ne_zero_implies_bit_true h
    rw [Nat.testBit_and, verticalTitleBar_testBit, Bool.and_eq_true, decide_eq_true_eq] at hi
    rw [hi.2]
    exact hi.1
  · intro h h0
    have h1 : (features &&& DockWidgetVerticalTitleBar).testBit 3 = true := by
      rw [Nat.testBit_and, verticalTitleBar_testBit, h]
      rfl
    rw [h0, Nat.zero_testBit] at h1
    exact Bool.false_ne_true h1

theorem dockFeatures_spec (area : DockWidgetArea) (features : Nat) :
    (dockFeatures area features &&& DockWidgetVerticalTitleBar ≠ 0
        ↔ area ≠ DockWidgetArea.RightDockWidgetArea)
    ∧ ∀ j, DockWidgetVerticalTitleBar.testBit j = false →
        (dockFeatures area features).testBit j = features.testBit j := by
  unfold dockFeatures
  by_cases ha : area = DockWidgetArea.RightDockWidgetArea
  · by_cases hb : features &&& DockWidgetVerticalTitleBar ≠ 0
    · rw [if_pos ⟨ha, hb⟩]
      have hb3 := (and_verticalTitleBar_ne_zero features).mp hb
      constructor
      · rw [and_verticalTitleBar_ne_zero, Nat.testBit_xor, hb3, verticalTitleBar_testBit]
        simp [ha]
      · intro j hj
        rw [Nat.testBit_xor, hj]
        simp
    · rw [if_neg (fun h => hb h.2), if_neg (fun h => h.1 ha)]
      exact ⟨⟨fun h => absurd h hb, fun h => absurd ha h⟩, fun _ _ => rfl⟩
  · by_cases hb : features &&& DockWidgetVerticalTitleBar ≠ 0
    · rw [if_neg (fun h => ha h.1), if_neg (fun h => h.2 hb)]
      exact ⟨⟨fun _ => ha, fun _ => hb⟩, fun _ _ => rfl⟩
    · rw [if_neg (fun h => ha h.1), if_pos ⟨ha, hb⟩]
      constructor
      · rw [and_verticalTitleBar_ne_zero, Nat.testBit_or, verticalTitleBar_testBit]
        simp [ha]
      · intro j hj
        rw [Nat.testBit_or, hj]
        simp

/-- C27: after `outputDockLocationChanged(area)` and after
`sidebarDockLocationChanged(area)`, whatever the area and the features of the
dock before, the flag `DockWidgetVerticalTitleBar` is set in the features of the
dock if and only if the area is not the right dock area, and every other bit of
the features is as before. -/
theorem dock_title_bar_bit_follows_area (w : MainWindow) (area : DockWidgetArea) :
    ((outputDockLocationChanged w area).ui.outputDockFeatures &&& DockWidgetVerticalTitleBar ≠ 0
        ↔ area ≠ DockWidgetArea.RightDockWidgetArea)
    ∧ (∀ j, DockWidgetVerticalTitleBar.testBit j = false →
        (outputDockLocationChanged w area).ui.outputDockFeatures.testBit j
          = w.ui.outputDockFeatures.testBit j)
    ∧ ((sidebarDockLocationChanged w area).ui.sidebarDockFeatures
          &&& DockWidgetVerticalTitleBar ≠ 0
        ↔ area ≠ DockWidgetArea.RightDockWidgetArea)
    ∧ (∀ j, DockWidgetVerticalTitleBar.testBit j = false →
        (sidebarDockLocationChanged w area).ui.sidebarDockFeatures.testBit j
          = w.ui.sidebarDockFeatures.testBit j)
    ∧ (∀ j, DockWidgetVerticalTitleBar.testBit j = true ↔ j = 3) :=
  ⟨(dockFeatures_spec area w.ui.outputDockFeatures).1,
    (dockFeatures_spec area w.ui.outputDockFeatures).2,
    (dockFeatures_spec area w.ui.sidebarDockFeatures).1,
    (dockFeatures_spec area w.ui.sidebarDockFeatures).2,
    fun j => by rw [verticalTitleBar_testBit, decide_eq_true_eq]; exact eq_comm⟩

theorem colorText_hash (env : Env) (selected : QString) (color : QColor) (hex : QString)
    (hname : env.colorName color = (qchar '#') :: hex) :
    colorText env (colorWithHash selected) color
      = if selected = [] ∨ selected.head? = some (qchar '#') then (qchar '#') :: hex else hex := by
  unfold colorText colorWithHash
  rw [hname]
  cases selected with
  | nil => simp
  | cons c rest =>
    by_cases hc : c = (qchar '#')
    · simp [hc]
    · simp [hc]

/-- C28: when an editor is active, the color dialog is accepted and the picked
color is valid with the name `#` followed by `hex`, the slot
`on_actionColorPicker_triggered` inserts the name `#hex` if the selected text was
empty or began with `#`, and `hex` without the `#` if the selected text was not
empty and did not begin with `#`; the editor then receives `setTextCursor` and
`setFocus`. -/
theorem color_picker_keeps_notation (env : Env) (w : MainWindow) (pane : Pane) (e : Editor)
    (color : QColor) (hex : QString)
    (h : w.getActiveEditor = some (pane, e))
    (hpick : env.colorDialog (colorInit env (env.selectedText e)) = some color)
    (hvalid : env.colorIsValid color = true)
    (hname : env.colorName color = (qchar '#') :: hex) :
    ∃ e2, on_actionColorPicker_triggered env w = w.setEditor pane e2
      ∧ (on_actionColorPicker_triggered env w).getActiveEditor = some (pane, e2)
      ∧ e2.calls = e.calls
          ++ [EditorCall.insertText
                (if env.selectedText e = [] ∨ (env.selectedText e).head? = some (qchar '#')
                  then (qchar '#') :: hex else hex),
              EditorCall.setTextCursor, EditorCall.setFocus] := by
  have hrun : on_actionColorPicker_triggered env w = w.setEditor pane
      (((e.call (EditorCall.insertText
          (colorText env (colorWithHash (env.selectedText e)) color))).call
        EditorCall.setTextCursor).call EditorCall.setFocus) := by
    unfold on_actionColorPicker_triggered
    simp only [h, hpick, hvalid, Bool.not_true, Bool.false_eq_true, if_false]
  refine ⟨_, hrun, ?_, ?_⟩
  · rw [hrun]
    exact getActiveEditor_setEditor _ pane e _ h
  · rw [colorText_hash env _ color hex hname]
    simp [Editor.call]

/-- Witness for C28: the text `ff0000` is selected and the color `#000000` is
picked: `000000` is inserted. -/
theorem color_picker_keeps_notation_witness :
    ∃ e2, on_actionColorPicker_triggered sampleEnv selectionWindow
        = selectionWindow.setEditor Pane.main e2
      ∧ (on_actionColorPicker_triggered sampleEnv selectionWindow).getActiveEditor
          = some (Pane.main, e2)
      ∧ e2.calls = [EditorCall.insertText (qstr "000000"), EditorCall.setTextCursor,
          EditorCall.setFocus] :=
  color_picker_keeps_notation sampleEnv selectionWindow Pane.main
    { sampleEditor 2 0 with content := qstr "ff0000" } 0 (qstr "000000")
    (by decide) (by decide) (by decide) (by decide)

/-- C29: when at most one of the file browser, the navigator and the git
browser has the focus, `focusTreeTriggered` gives the focus to the file browser
if no panel or the git browser had it, to the navigator if the file browser had
it, and to the git browser if the navigator had it; after it exactly one panel
has the focus, and three triggers from a window with a focused panel bring the
focus back to that panel. -/
theorem focus_tree_three_cycle (w : MainWindow) (hone : (focusedPanels w).length ≤ 1) :
    ((focusedPanels w = [] ∨ focusedPanels w = [SidebarPanel.gitBrowser]) →
        focusedPanels (focusTreeTriggered w) = [SidebarPanel.fileBrowser])
    ∧ (focusedPanels w = [SidebarPanel.fileBrowser] →
        focusedPanels (focusTreeTriggered w) = [SidebarPanel.navigator])
    ∧ (focusedPanels w = [SidebarPanel.navigator] →
        focusedPanels (focusTreeTriggered w) = [SidebarPanel.gitBrowser])
    ∧ (focusedPanels (focusTreeTriggered w)).length = 1
    ∧ (focusedPanels w ≠ [] →
        focusedPanels (focusTreeTriggered (focusTreeTriggered (focusTreeTriggered w)))
          = focusedPanels w) := by
  have key : ∀ ui : UiState,
      (focusedPanels { w with ui := ui }).length ≤ 1 →
      ((focusedPanels { w with ui := ui } = []
          ∨ focusedPanels { w with ui := ui } = [SidebarPanel.gitBrowser]) →
        focusedPanels { w with ui := focusTree ui } = [SidebarPanel.fileBrowser])
      ∧ (focusedPanels { w with ui := ui } = [SidebarPanel.fileBrowser] →
        focusedPanels { w with ui := focusTree ui } = [SidebarPanel.navigator])
      ∧ (focusedPanels { w with ui := ui } = [SidebarPanel.navigator] →
        focusedPanels { w with ui := focusTree ui } = [SidebarPanel.gitBrowser])
      ∧ (focusedPanels { w with ui := focusTree ui }).length = 1
      ∧ (focusedPanels { w with ui := ui } ≠ [] →
        focusedPanels { w with ui := focusTree (focusTree (focusTree ui)) }
          = focusedPanels { w with ui := ui }) := by
    intro ui
    rcases ui with ⟨a1, a2, a3, a4, a5, vis, a7, a8, a9, fb, nav, git⟩
    cases vis <;> cases fb <;> cases nav <;> cases git <;>
      simp [focusedPanels, focusTree, UiState.focus]
  exact key w.ui hone

/-- Witness for C29: from the navigator the focus goes to the git browser. -/
theorem focus_tree_three_cycle_witness :
    (focusedPanels navigatorWindow).length ≤ 1
    ∧ focusedPanels (focusTreeTriggered navigatorWindow) = [SidebarPanel.gitBrowser]
    ∧ focusedPanels (focusTreeTriggered (focusTreeTriggered
        (focusTreeTriggered navigatorWindow))) = [SidebarPanel.navigator] :=
  have h := focus_tree_three_cycle navigatorWindow (by decide)
  ⟨by decide, h.2.2.1 rfl, h.2.2.2.2 (by decide)⟩

end Zira
